import Mathlib

/-! PowerWeatherApplication: fetch splitting and result merging.

A shallow embedding of parts of `PWAnalyzer` (`apitypes.hh`, `utils.cc`, `webapi.cc`,
`fingrid.cc`, `fmi.cc`, `datalinesmodel.cc`) together with theorems about them.

Modelling conventions

* A `QDateTime` is an `Int`, the number of milliseconds since the epoch of a date-time in a
  zone with a fixed UTC offset, so `addDays n` adds `n * 86400000` ms.  The
  milliseconds are counted on the clock of that zone, so that day number `k` is the
  interval from `k * 86400000` up to `(k + 1) * 86400000`.  A
  default-constructed (null) `QDateTime` is represented by `0`; validity is not
  tracked, `WebAPI::fetch` asserts it before anything else.
* `std::vector` is `List`; `back()` is the last element, `front()` the head.
* `double` values of data points are only carried around by the functions below,
  never computed with; they are represented by exact rationals.
* Undefined behaviour of the C++ code (`front()` or `back()` of an empty vector, an
  index out of range), a failing `Q_ASSERT` and a thrown exception are the result
  `none`.
* The code runs on one thread.  Callbacks and emitted signals are outputs of the
  functions that invoke them; the completions of concurrent fetches are a list of
  events in the order in which they happen; the network is a function from the
  request sent to the reply.
* `static` local variables are explicit arguments.
-/

namespace pwa

/-! ## apitypes.hh -/

/-- Data types supported by any provider (`enum class DataType`). -/
inductive DataType where
  | UNSET
  | EL_CONS
  | EL_CONS_FORECAST_24H
  | EL_PROD
  | EL_PROD_FORECAST_24H
  | HYDRO_PWR_PROD
  | NUCLEAR_PWR_PROD
  | WIND_PWR_PROD
  | TEMP
  | TEMP_FORECAST
  | WIND
  | WIND_FORECAST
  | CLOUDINESS
deriving DecidableEq, Repr

/-- Data providers (`enum class Provider`). -/
inductive Provider where
  | UNSET
  | FINGRID
  | FMI
deriving DecidableEq, Repr

/-- Error types returned from the WebAPI fetch functions (`enum class FetchError`). -/
inductive FetchError where
  | UNSET
  | NONE
  | TYPE_NOT_IMPL_BY_PROVIDER
  | LOC_NOT_SUPPORTED_BY_PROVIDER
  | TOO_LARGE_TIME_SPAN
  | SERVER_MAINTENANCE
  | CONNECTION_FAILED
deriving DecidableEq, Repr

/-- Length of one day in milliseconds. -/
def MSECS_PER_DAY : Int := 86400000

/-- Model of `QDateTime::addDays`. -/
def addDays (t : Int) (ndays : Int) : Int := t + ndays * MSECS_PER_DAY

/-- Model of `struct DataPoint`: `x` is the time, `y` the value. -/
structure DataPoint where
  x : Int
  y : Rat
deriving DecidableEq, Repr

/-- Model of `struct TimeSpan`; both fields default to the null `QDateTime`. -/
structure TimeSpan where
  start : Int := 0
  end_ : Int := 0
deriving DecidableEq, Repr

/-- Model of `struct DataLine` with its member initialisers. -/
structure DataLine where
  provider : Provider := Provider.UNSET
  dataType : DataType := DataType.UNSET
  timeSpan : TimeSpan := {}
  dataPoints : List DataPoint := []
  location : String := ""
  yUnit : String := ""
deriving DecidableEq, Repr

/-- Model of `struct FetchRequest` with its member initialisers. -/
structure FetchRequest where
  provider : Provider := Provider.UNSET
  dataType : DataType := DataType.UNSET
  timeSpan : TimeSpan := {}
  location : String := ""
deriving DecidableEq, Repr

/-- Model of `struct FetchResult` with its member initialisers. -/
structure FetchResult where
  error : FetchError := FetchError.UNSET
  dataLine : DataLine := {}
deriving DecidableEq, Repr

/-! ## utils.cc -/

namespace utils

/-- The `while` loop of `splitTimeSpan`.  The vector `parts` of the source is
`init ++ [back]` here, so that `parts.back()` is `back`.  Each round pushes
`TimeSpan{back.end, back.end.addDays(daysPerSpan)}`. -/
def splitLoop (spanEnd : Int) (daysPerSpan : Int) (hd : 0 < daysPerSpan)
    (init : List TimeSpan) (back : TimeSpan) : List TimeSpan × TimeSpan :=
  if _h : back.end_ < spanEnd then
    splitLoop spanEnd daysPerSpan hd (init ++ [back])
      { start := back.end_, end_ := addDays back.end_ daysPerSpan }
  else
    (init, back)
termination_by (spanEnd - back.end_).toNat
decreasing_by
  simp only [addDays, MSECS_PER_DAY]
  omega

/-- Model of `utils::splitTimeSpan`.  The argument `hd` is the source's
`Q_ASSERT(daysPerSpan > 0)`. -/
def splitTimeSpan (timeSpan : TimeSpan) (daysPerSpan : Int) (hd : 0 < daysPerSpan) :
    List TimeSpan :=
  let r := splitLoop timeSpan.end_ daysPerSpan hd []
    { start := timeSpan.start, end_ := addDays timeSpan.start daysPerSpan }
  if r.2.end_ > timeSpan.end_ then
    r.1 ++ [{ r.2 with end_ := timeSpan.end_ }]
  else
    r.1 ++ [r.2]

/-- Loop invariant of `splitTimeSpan` for contiguity and coverage: the vector
`init ++ [back]` is a chain starting at `span.start`. -/
def SplitInv1 (span : TimeSpan) (init : List TimeSpan) (back : TimeSpan) : Prop :=
  List.Chain' (fun a b : TimeSpan => a.end_ = b.start) (init ++ [back]) ∧
  (init ++ [back]).head?.map (fun p => p.start) = some span.start ∧
  (∀ p ∈ init, p.start ≤ p.end_) ∧
  back.start ≤ span.end_ ∧ back.start ≤ back.end_

/-- Loop invariant of `splitTimeSpan` for the lengths of the parts: part number `i`
starts `i * daysPerSpan` days after `span.start` and is `daysPerSpan` days long, and
every part but the first starts before `span.end`. -/
def SplitInv2 (span : TimeSpan) (d : Int) (init : List TimeSpan) (back : TimeSpan) : Prop :=
  (∀ p ∈ init, p.end_ - p.start = d * MSECS_PER_DAY) ∧
  back.start = span.start + (init.length : Int) * (d * MSECS_PER_DAY) ∧
  back.end_ - back.start = d * MSECS_PER_DAY ∧
  (init ≠ [] → back.start < span.end_)

/-- The `for` loop of `findNewDataPoints`: the range from the first candidate
whose `x` is greater than `backX` (which is `original.back().x`) to the end, the
empty vector when there is no such candidate. -/
def findNewLoop (backX : Int) : List DataPoint → List DataPoint
  | [] => []
  | p :: rest => if p.x > backX then p :: rest else findNewLoop backX rest

/-- Model of `utils::findNewDataPoints`.  `original.getLast?` is `none` exactly when
`original.size() == 0`. -/
def findNewDataPoints (original newCandidates : List DataPoint) : List DataPoint :=
  match original.getLast? with
  | none => newCandidates
  | some back => findNewLoop back.x newCandidates

end utils

/-! ## webapi.cc -/

namespace WebAPI

/-- Model of `WebAPI::splitFetchRequest`: one copy of the request for each part of
`utils::splitTimeSpan(request.timeSpan, safeDaysPerRequest)`, with the part as its
time span. -/
def splitFetchRequest (request : FetchRequest) (safeDaysPerRequest : Int)
    (hd : 0 < safeDaysPerRequest) : List FetchRequest :=
  (utils.splitTimeSpan request.timeSpan safeDaysPerRequest hd).map
    (fun timeSpan => { request with timeSpan := timeSpan })

/-- The key read by the comparator of the `std::sort` call in
`combineFetchResults`: `r.dataLine.dataPoints.front().x`.  The source sorts after it
has erased the results without points; `0` stands for the undefined `front()` of an
empty vector, which is never read. -/
def frontX (r : FetchResult) : Int :=
  match r.dataLine.dataPoints with
  | [] => 0
  | p :: _ => p.x

/-- The comparator of the `std::sort` call: `a.front().x < b.front().x`. -/
def sortComp (a b : FetchResult) : Prop := frontX a < frontX b

/-- The relation that holds between an earlier and a later element of a vector
sorted by `std::sort` with `sortComp`: the later one does not compare less. -/
def sortedRel (a b : FetchResult) : Prop := ¬ sortComp b a

instance : DecidableRel sortedRel := fun a b =>
  inferInstanceAs (Decidable (¬ (frontX b < frontX a)))

/-- Contract of `std::sort` with the comparator `sortComp`: the result is a
permutation of the input in which no later element compares less than an earlier
one.  The order of elements with equal keys is left open, as `std::sort` is not
stable. -/
def StdSort (sort : List FetchResult → List FetchResult) : Prop :=
  ∀ l, (sort l).Perm l ∧ (sort l).Pairwise sortedRel

/-- A sorting function meeting `StdSort`, used to run the model. -/
def stdSort (l : List FetchResult) : List FetchResult := l.insertionSort sortedRel

/-- The loop `for (i = 1; i < results.size(); ++i)` of `combineFetchResults`, run
over the elements after the first.  `itStart` skips the points of the current
result with `x < result.dataLine.dataPoints.back().x`; the points from `itStart`
on are appended to the running result.  When the current result has no points the
loop condition `itStart != curPoints.end()` fails before `back()` is read. -/
def combineLoop (result : FetchResult) : List FetchResult → Option FetchResult
  | [] => some result
  | cur :: rest =>
    match cur.dataLine.dataPoints with
    | [] => combineLoop result rest
    | p :: ps =>
      match result.dataLine.dataPoints.getLast? with
      | none => none
      | some back =>
        combineLoop
          { result with dataLine :=
            { result.dataLine with dataPoints :=
                result.dataLine.dataPoints ++
                  (p :: ps).dropWhile (fun q => decide (q.x < back.x)) } }
          rest

/-- Model of `WebAPI::combineFetchResults`, for any sorting function in the place of
`std::sort`.  The result is `none` where the source has undefined behaviour:
`results.front()` of an empty vector (an empty input fails `Q_ASSERT` and, without
assertions, runs into the same `front()`). -/
def combineFetchResultsWith (sort : List FetchResult → List FetchResult)
    (results : List FetchResult) : Option FetchResult :=
  match results with
  | [] => none
  | [r] => some r
  | _ =>
    match results.find? (fun res => decide (res.error ≠ FetchError.NONE)) with
    | some res => some { error := res.error }
    | none =>
      match sort (results.filter (fun r => !decide (r.dataLine.dataPoints.length = 0))) with
      | [] => none
      | first :: rest =>
        combineLoop { error := FetchError.NONE, dataLine := first.dataLine } rest

/-- Model of `WebAPI::combineFetchResults` with a concrete sorting function. -/
def combineFetchResults (results : List FetchResult) : Option FetchResult :=
  combineFetchResultsWith stdSort results

/-- Model of `std::unordered_map<int, V>`: the keys present and the value stored for
each key.  `val` is read for keys in `keys` only. -/
structure UMap (V : Type) where
  keys : List Int
  val : Int → V

/-- Read access `m[k]` to a map; `dflt` is the value-initialised `V` that
`operator[]` inserts for a missing key. -/
def UMap.get {V : Type} (m : UMap V) (k : Int) (dflt : V) : V :=
  if k ∈ m.keys then m.val k else dflt

/-- Write access `m[k] = v` to a map. -/
def UMap.set {V : Type} (m : UMap V) (k : Int) (v : V) : UMap V :=
  { keys := if k ∈ m.keys then m.keys else k :: m.keys
    val := Function.update m.val k v }

/-- Model of `m.size()`. -/
def UMap.size {V : Type} (m : UMap V) : Int := m.keys.length

/-- The request holding structures of `class WebAPI`.  The stack
`freeParallelRequestIds_` has its top first. -/
structure State where
  freeParallelRequestIds_ : List Int
  parallelRequestCounters_ : UMap Int
  parallelRequestResults_ : UMap (List FetchResult)

/-- The state made by the constructor `WebAPI::WebAPI`: no free ids, no counters, no
buffers. -/
def State.initial : State :=
  { freeParallelRequestIds_ := []
    parallelRequestCounters_ := { keys := [], val := fun _ => 0 }
    parallelRequestResults_ := { keys := [], val := fun _ => [] } }

/-- Model of `WebAPI::getParallelRequestId`. -/
def getParallelRequestId (st : State) : Int × State :=
  match st.freeParallelRequestIds_ with
  | id :: rest => (id, { st with freeParallelRequestIds_ := rest })
  | [] => (st.parallelRequestCounters_.size, st)

/-- The statements of `WebAPI::fetchAll` before its loop: take an id, set the
counter of the batch to `requests.size()` and its buffer to `requests.size()`
default results. -/
def fetchAllBegin (st : State) (requests : List FetchRequest) : Int × State :=
  let r := getParallelRequestId st
  (r.1,
    { r.2 with
      parallelRequestCounters_ := r.2.parallelRequestCounters_.set r.1 requests.length
      parallelRequestResults_ :=
        r.2.parallelRequestResults_.set r.1 (List.replicate requests.length {}) })

/-- The lambda that `fetchAll` passes to `fetch` for `requests[i]` of the batch `id`,
called with `result`.  It returns the new state and, when the counter reaches zero,
the vector given to `callback`; the moved-from buffer is left empty.  The result is
`none` where `parallelRequestResults_[id][i]` is out of range. -/
def subFetchDone (st : State) (id : Int) (i : Nat) (result : FetchResult) :
    Option (State × Option (List FetchResult)) :=
  let buf := st.parallelRequestResults_.get id []
  if i < buf.length then
    let results := st.parallelRequestResults_.set id (buf.set i result)
    let counter := st.parallelRequestCounters_.get id 0 - 1
    let counters := st.parallelRequestCounters_.set id counter
    if counter = 0 then
      some ({ freeParallelRequestIds_ := id :: st.freeParallelRequestIds_
              parallelRequestCounters_ := counters
              parallelRequestResults_ := results.set id [] },
            some (buf.set i result))
    else
      some ({ freeParallelRequestIds_ := st.freeParallelRequestIds_
              parallelRequestCounters_ := counters
              parallelRequestResults_ := results },
            none)
  else
    none

/-- Runs the lambdas of the batch `id` in the order in which the sub-fetches
complete; `(i, r)` says that the fetch of `requests[i]` delivers `r`.  The second
component lists the vectors given to `callback`, one for each invocation. -/
def runCompletions (id : Int) :
    State → List (Nat × FetchResult) → Option (State × List (List FetchResult))
  | st, [] => some (st, [])
  | st, c :: rest =>
    match subFetchDone st id c.1 c.2 with
    | none => none
    | some r =>
      match runCompletions id r.1 rest with
      | none => none
      | some r2 => some (r2.1, r.2.toList ++ r2.2)

/-- Model of `WebAPI::fetchAll` together with the completions of its sub-fetches:
`completions` lists them in the order in which they happen, whether during the loop
of `fetchAll` (a fetch that calls back at once) or later. -/
def fetchAll (st : State) (requests : List FetchRequest)
    (completions : List (Nat × FetchResult)) :
    Option (State × List (List FetchResult)) :=
  runCompletions (fetchAllBegin st requests).1 (fetchAllBegin st requests).2 completions

end WebAPI

/-! ## iprovider.hh, fingrid.cc, fmi.cc -/

/-- What the code reads from a finished `QNetworkReply`: whether
`error() == QNetworkReply::NoError`, the attribute `HttpStatusCodeAttribute` (`none`
for an invalid `QVariant`) and the body. -/
structure NetworkReply where
  noError : Bool
  statusCode : Option Int
  body : String
deriving DecidableEq, Repr

/-- Model of `QString::contains(text)`. -/
def contains (data text : String) : Bool := decide (text.toList <:+: data.toList)

/-- Model of `QDateTime::daysTo`: the number of days from the date of `a` to the
date of `b`. -/
def daysTo (a b : Int) : Int := b / MSECS_PER_DAY - a / MSECS_PER_DAY

/-- Model of `std::sort(result.begin(), result.end())` on a vector of `DataType`:
the enumerators are compared by their position in the enumeration. -/
def sortDataTypes (result : List DataType) : List DataType :=
  result.insertionSort (fun a b => a.toCtorIdx ≤ b.toCtorIdx)

/-- The member functions of `class IProvider` that do not touch the network.
`parseResponse` takes the data points read from the body of the reply; its result is
`none` where the source throws. -/
structure IProvider where
  getSupportedDaysPerRequest : FetchRequest → Int
  parseResponse : List DataPoint → FetchRequest → Option FetchResult
  implementsDataType : DataType → Bool
  parseError : NetworkReply → FetchError

namespace Fingrid

/-- The map `Fingrid::DATA_TYPE_IDS`, in the order of its initialiser. -/
def DATA_TYPE_IDS : List (DataType × Int) :=
  [(DataType.EL_CONS, 193), (DataType.EL_CONS_FORECAST_24H, 165),
   (DataType.EL_PROD, 192), (DataType.EL_PROD_FORECAST_24H, 242),
   (DataType.HYDRO_PWR_PROD, 191), (DataType.NUCLEAR_PWR_PROD, 188),
   (DataType.WIND_PWR_PROD, 181)]

/-- The set `Fingrid::REAL_TIME_DATA_TYPES`. -/
def REAL_TIME_DATA_TYPES : List DataType :=
  [DataType.EL_CONS, DataType.EL_PROD, DataType.HYDRO_PWR_PROD,
   DataType.NUCLEAR_PWR_PROD, DataType.WIND_PWR_PROD]

def SAFE_DAYS_PER_REALTIME_REQUEST : Int := 4 * 30

def SAFE_DAYS_PER_OTHER_REQUEST : Int := 4 * 365

def UNIT : String := "MW"

/-- Model of `Fingrid::getSupportedDaysPerRequest`. -/
def getSupportedDaysPerRequest (fetchRequest : FetchRequest) : Int :=
  if fetchRequest.dataType ∈ REAL_TIME_DATA_TYPES then SAFE_DAYS_PER_REALTIME_REQUEST
  else SAFE_DAYS_PER_OTHER_REQUEST

/-- Model of `Fingrid::parseResponse`, given the points read from the lines of the
body. -/
def parseResponse (dataPoints : List DataPoint) (origReq : FetchRequest) :
    Option FetchResult :=
  some { error := FetchError.NONE
         dataLine := { provider := origReq.provider
                       dataType := origReq.dataType
                       timeSpan := origReq.timeSpan
                       dataPoints := dataPoints
                       yUnit := UNIT } }

/-- Model of `Fingrid::getImplementedDataTypes`.  The argument is the content of the
function's `static` vector `result` before the call; the value is its content after
the call, a copy of which is returned.  The keys are pushed in the order of the
initialiser; the vector is sorted afterwards, so the order of the iteration over the
unordered map does not show in the value. -/
def getImplementedDataTypes (result : List DataType) : List DataType :=
  sortDataTypes (result ++ DATA_TYPE_IDS.map (fun element => element.1))

/-- Model of `Fingrid::parseError`. -/
def parseError (response : NetworkReply) : FetchError :=
  match response.statusCode with
  | none => FetchError.UNSET
  | some 404 => FetchError.TYPE_NOT_IMPL_BY_PROVIDER
  | some 416 => FetchError.TOO_LARGE_TIME_SPAN
  | some 503 => FetchError.SERVER_MAINTENANCE
  | some _ => FetchError.UNSET

/-- Model of `Fingrid::implementsDataType`. -/
def implementsDataType (dataType : DataType) : Bool :=
  DATA_TYPE_IDS.any (fun element => element.1 == dataType)

/-- The Fingrid provider as an `IProvider`. -/
def provider : IProvider :=
  { getSupportedDaysPerRequest := getSupportedDaysPerRequest
    parseResponse := parseResponse
    implementsDataType := implementsDataType
    parseError := parseError }

end Fingrid

namespace FMI

def SAFE_DAYS_PER_REQUEST : Int := 7

/-- The value of `std::numeric_limits<int>::max()`. -/
def SAFE_DAYS_PER_FORECAST_REQUEST : Int := 2147483647

/-- The map `FMI::DATA_TYPE_PARAM_NAMES`, in the order of its initialiser. -/
def DATA_TYPE_PARAM_NAMES : List (DataType × String) :=
  [(DataType.TEMP, "t2m"), (DataType.TEMP_FORECAST, "Temperature"),
   (DataType.WIND, "ws_10min"), (DataType.WIND_FORECAST, "WindSpeedMS"),
   (DataType.CLOUDINESS, "n_man")]

/-- The set `FMI::FORECAST_DATA_TYPES`. -/
def FORECAST_DATA_TYPES : List DataType := [DataType.TEMP_FORECAST, DataType.WIND_FORECAST]

/-- The map `FMI::UNITS`. -/
def UNITS : List (DataType × String) :=
  [(DataType.TEMP, "°C"), (DataType.TEMP_FORECAST, "°C"), (DataType.WIND, "m/s"),
   (DataType.WIND_FORECAST, "m/s"), (DataType.CLOUDINESS, "Oktas")]

def INVALID_LOCATION_TEXT : String :=
  "No locations found for the place with the requested language!"

/-- Model of `FMI::getSupportedDaysPerRequest`. -/
def getSupportedDaysPerRequest (fetchRequest : FetchRequest) : Int :=
  if fetchRequest.dataType ∈ FORECAST_DATA_TYPES then SAFE_DAYS_PER_FORECAST_REQUEST
  else SAFE_DAYS_PER_REQUEST

/-- Model of `FMI::parseResponse`, given the points read from the two blocks of the
body.  `UNITS.at(origReq.dataType)` throws for a data type without unit. -/
def parseResponse (dataPoints : List DataPoint) (origReq : FetchRequest) :
    Option FetchResult :=
  match UNITS.lookup origReq.dataType with
  | none => none
  | some unit =>
    some { error := FetchError.NONE
           dataLine := { provider := origReq.provider
                         dataType := origReq.dataType
                         timeSpan := origReq.timeSpan
                         dataPoints := dataPoints
                         location := origReq.location
                         yUnit := unit } }

/-- Model of `FMI::getImplementedDataTypes`, see `Fingrid.getImplementedDataTypes`. -/
def getImplementedDataTypes (result : List DataType) : List DataType :=
  sortDataTypes (result ++ DATA_TYPE_PARAM_NAMES.map (fun element => element.1))

/-- Model of `FMI::implementsDataType`. -/
def implementsDataType (dataType : DataType) : Bool :=
  DATA_TYPE_PARAM_NAMES.any (fun element => element.1 == dataType)

/-- Model of `FMI::parseError`. -/
def parseError (response : NetworkReply) : FetchError :=
  match response.statusCode with
  | none => FetchError.UNSET
  | some statusCode =>
    if statusCode = 400 ∧ contains response.body INVALID_LOCATION_TEXT = true then
      FetchError.LOC_NOT_SUPPORTED_BY_PROVIDER
    else
      FetchError.UNSET

/-- The FMI provider as an `IProvider`. -/
def provider : IProvider :=
  { getSupportedDaysPerRequest := getSupportedDaysPerRequest
    parseResponse := parseResponse
    implementsDataType := implementsDataType
    parseError := parseError }

end FMI

/-! ## webapi.cc: fetch -/

namespace WebAPI

/-- The map `WebAPI::PROVIDERS`. -/
def PROVIDERS : Provider → Option IProvider
  | Provider.FINGRID => some Fingrid.provider
  | Provider.FMI => some FMI.provider
  | Provider.UNSET => none

/-- What a call of `WebAPI::fetch` does before it returns: it calls `callback` with a
result, or it calls `fetchAll` with sub-requests, or it sends one network request. -/
inductive FetchStep where
  | callback (result : FetchResult)
  | fetchAll (requests : List FetchRequest)
  | get (request : FetchRequest)
deriving DecidableEq, Repr

/-- Model of `WebAPI::fetch` up to its return.  The result is `none` when a
`Q_ASSERT` fails (of `fetch`, or of `splitTimeSpan` for a limit that is not
positive). -/
def fetch (request : FetchRequest) : Option FetchStep :=
  match PROVIDERS request.provider with
  | none => none
  | some provider =>
    if request.dataType = DataType.UNSET ∨
        ¬ request.timeSpan.start ≤ request.timeSpan.end_ then
      none
    else if provider.implementsDataType request.dataType = false then
      some (FetchStep.callback { error := FetchError.TYPE_NOT_IMPL_BY_PROVIDER })
    else if daysTo request.timeSpan.start request.timeSpan.end_ >
        provider.getSupportedDaysPerRequest request then
      if hd : 0 < provider.getSupportedDaysPerRequest request then
        some (FetchStep.fetchAll
          (splitFetchRequest request (provider.getSupportedDaysPerRequest request) hd))
      else
        none
    else
      some (FetchStep.get request)

/-- The lambda that `fetch` connects to `QNetworkReply::finished` on its direct path:
the result given to `callback` for the reply `qReply`, whose body holds
`dataPoints`. -/
def onFinished (request : FetchRequest) (qReply : NetworkReply)
    (dataPoints : List DataPoint) : Option FetchResult :=
  match PROVIDERS request.provider with
  | none => none
  | some provider =>
    if qReply.noError = true then
      provider.parseResponse dataPoints request
    else if provider.parseError qReply ≠ FetchError.UNSET then
      some { error := provider.parseError qReply }
    else
      some { error := FetchError.CONNECTION_FAILED }

/-- All values of a list of options, when none is missing. -/
def collect {α : Type} : List (Option α) → Option (List α)
  | [] => some []
  | none :: _ => none
  | some a :: rest =>
    match collect rest with
    | none => none
    | some l => some (a :: l)

/-- The result that `fetch` gives to its callback, with the network as a function
`net` from the request sent to the reply and the points in its body, and with
`sort` in the place of `std::sort`.  On the split path the vector that `fetchAll`
passes on holds the results of the sub-requests in their order.  The result is
`none` when an assertion fails, when the source has undefined behaviour, or when
the recursion is deeper than `fuel`. -/
def fetchRun (sort : List FetchResult → List FetchResult)
    (net : FetchRequest → NetworkReply × List DataPoint) :
    Nat → FetchRequest → Option FetchResult
  | 0, _ => none
  | fuel + 1, request =>
    match fetch request with
    | none => none
    | some (FetchStep.callback result) => some result
    | some (FetchStep.get q) => onFinished q (net q).1 (net q).2
    | some (FetchStep.fetchAll requests) =>
      match collect (requests.map (fetchRun sort net fuel)) with
      | none => none
      | some results => combineFetchResultsWith sort results

end WebAPI

/-! ## apitypes.hh: names -/

/-- The map `DATA_TYPE_NAMES`; it has an entry for every enumerator. -/
def DATA_TYPE_NAMES : DataType → String
  | DataType.UNSET => "Unset data type"
  | DataType.EL_CONS => "Electricity consumption"
  | DataType.EL_CONS_FORECAST_24H => "Electricity consumption forecast (24h)"
  | DataType.EL_PROD => "Electricity production"
  | DataType.EL_PROD_FORECAST_24H => "Electricity production prediction (24h)"
  | DataType.HYDRO_PWR_PROD => "Hydro power production"
  | DataType.NUCLEAR_PWR_PROD => "Nuclear power production"
  | DataType.WIND_PWR_PROD => "Wind power production"
  | DataType.TEMP => "Temperature"
  | DataType.TEMP_FORECAST => "Temperature forecast"
  | DataType.WIND => "Observed wind"
  | DataType.WIND_FORECAST => "Wind forecast"
  | DataType.CLOUDINESS => "Observed cloudiness"

/-- The map `PROVIDER_NAMES`; it has an entry for every enumerator. -/
def PROVIDER_NAMES : Provider → String
  | Provider.UNSET => "Unset provider"
  | Provider.FINGRID => "Fingrid"
  | Provider.FMI => "FMI"

/-! ## webapi.cc: getProviderDataTypes -/

/-- The `static` vectors `result` of `Fingrid::getImplementedDataTypes` and
`FMI::getImplementedDataTypes`, which live as long as the process. -/
structure ProviderStatics where
  fingrid : List DataType := []
  fmi : List DataType := []
deriving DecidableEq, Repr

namespace WebAPI

/-- Model of `WebAPI::getProviderDataTypes`: the map from each provider to the value
of its `getImplementedDataTypes`, and the `static` vectors after the two calls. -/
def getProviderDataTypes (statics : ProviderStatics) :
    List (Provider × List DataType) × ProviderStatics :=
  ([(Provider.FINGRID, Fingrid.getImplementedDataTypes statics.fingrid),
    (Provider.FMI, FMI.getImplementedDataTypes statics.fmi)],
   { fingrid := Fingrid.getImplementedDataTypes statics.fingrid
     fmi := FMI.getImplementedDataTypes statics.fmi })

end WebAPI

/-! ## datalinesmodel.cc -/

/-- Model of `struct DataLineWrapper`; a null `dataLine` pointer is `none`. -/
structure DataLineWrapper where
  id : Nat := 0
  name : String := ""
  enabled : Bool := false
  dataLine : Option DataLine := none
deriving DecidableEq, Repr

/-- The data members of `class DataLinesModel`, without the timers.
`requestCache_` lists the entries of the unordered map. -/
structure DataLinesModel where
  initialDataTypes_ : List (Provider × DataType)
  dataLineWrappers_ : List DataLineWrapper := []
  wantedDataLineEnabled_ : List Bool := []
  timeSpan_ : TimeSpan := {}
  timeSpanChanged : Bool := false
  location_ : String := ""
  locationChanged : Bool := false
  requestCache_ : List (Nat × FetchRequest) := []
deriving DecidableEq, Repr

/-- The signals that `DataLinesModel` emits. -/
inductive Signal where
  | dataLineChanged (id : Nat)
  | dataLineDisabled (id : Nat)
  | newRealTimeData (newDataPoints : List DataPoint) (id : Nat)
  | invalidLocation (location : String)
deriving DecidableEq, Repr

namespace DataLinesModel

/-- Model of `DataLinesModel::getInitialDataTypes`, given the entries of the map
returned by `getProviderDataTypes` in the order of the iteration over it. -/
def getInitialDataTypes (providerDataTypes : List (Provider × List DataType)) :
    List (Provider × DataType) :=
  providerDataTypes.flatMap (fun entry => entry.2.map (fun type => (entry.1, type)))

/-- The loop of the constructor of `DataLinesModel`: one wrapper for every initial
data type, named by `DATA_TYPE_NAMES`, not enabled and without data line. -/
def initialWrappers (initialDataTypes : List (Provider × DataType)) : List DataLineWrapper :=
  (List.range initialDataTypes.length).zipWith
    (fun id entry => { id := id, name := DATA_TYPE_NAMES entry.2 }) initialDataTypes

/-- Model of the constructor of `DataLinesModel`, given the entries of the map
returned by `getProviderDataTypes` in the order of the iteration over it. -/
def new (providerDataTypes : List (Provider × List DataType)) : DataLinesModel :=
  { initialDataTypes_ := getInitialDataTypes providerDataTypes
    dataLineWrappers_ := initialWrappers (getInitialDataTypes providerDataTypes)
    wantedDataLineEnabled_ :=
      List.replicate (getInitialDataTypes providerDataTypes).length false }

/-- Model of `DataLinesModel::idToPersistentName`; `none` when the assertion
`id < initialDataTypes_.size()` fails. -/
def idToPersistentName (m : DataLinesModel) (id : Nat) : Option String :=
  match m.initialDataTypes_[id]? with
  | none => none
  | some entry => some (PROVIDER_NAMES entry.1 ++ " " ++ DATA_TYPE_NAMES entry.2)

/-- Model of `DataLinesModel::persistentNameToId`: `some outId` when the function
returns `true`, `none` when it returns `false`.  The loop returns the first id whose
persistent name is `name`. -/
def persistentNameToId (m : DataLinesModel) (name : String) : Option Nat :=
  (List.range m.initialDataTypes_.length).find?
    (fun id => decide (some name = idToPersistentName m id))

/-- Model of `DataLinesModel::onReceiveRealTimeFetch`: the model after the call and
the signals emitted.  The data line is held through a shared pointer, so the change
made through the copy `currWrapper` is a change of the wrapper in the vector.  The
result is `none` where an `at()` throws or `back()` is read from an empty vector. -/
def onReceiveRealTimeFetch (m : DataLinesModel) (_origReq : FetchRequest)
    (result : FetchResult) (id : Nat) : Option (DataLinesModel × List Signal) :=
  if (m.requestCache_.lookup id).isNone ∨ id ≥ m.dataLineWrappers_.length then
    some (m, [])
  else
    match m.dataLineWrappers_[id]? with
    | none => none
    | some currWrapper =>
      match currWrapper.dataLine with
      | none => some (m, [])
      | some dataLine =>
        if result.error = FetchError.NONE then
          let newDataPoints :=
            utils.findNewDataPoints dataLine.dataPoints result.dataLine.dataPoints
          if newDataPoints.length > 0 then
            match (dataLine.dataPoints ++ newDataPoints).getLast? with
            | none => none
            | some back =>
              let dataLine' : DataLine :=
                { dataLine with
                  dataPoints := dataLine.dataPoints ++ newDataPoints
                  timeSpan := { start := dataLine.timeSpan.start, end_ := back.x } }
              let m' : DataLinesModel :=
                { m with
                  dataLineWrappers_ := m.dataLineWrappers_.set id
                    { currWrapper with dataLine := some dataLine' } }
              if currWrapper.enabled = true then
                match m.wantedDataLineEnabled_[id]? with
                | none => none
                | some true => some (m', [Signal.newRealTimeData newDataPoints id])
                | some false => some (m', [])
              else
                some (m', [])
          else
            some (m, [])
        else
          some (m, [])

end DataLinesModel

/-- Model of `FetchRequest::operator==`. -/
def FetchRequest.eq (a other : FetchRequest) : Bool :=
  decide (a.provider = other.provider) && decide (a.dataType = other.dataType) &&
    decide (a.timeSpan.start = other.timeSpan.start) &&
    decide (a.timeSpan.end_ = other.timeSpan.end_) &&
    decide (a.location = other.location)

/-- What a member function of `DataLinesModel` does to the outside: a signal it emits,
or a call of `WebAPI::fetch`, named by the lambda passed as callback: `fetch request
id` has the callback `onReceiveFetch(request, res, id)`, and `fetchRealTime request
originalRequestCache id` the callback of `realTimeUpdate`. -/
inductive Effect where
  | emit (signal : Signal)
  | fetch (request : FetchRequest) (id : Nat)
  | fetchRealTime (request originalRequestCache : FetchRequest) (id : Nat)
deriving DecidableEq, Repr

namespace DataLinesModel

/-- The assignment `requestCache_[id] = request`. -/
def cacheSet (cache : List (Nat × FetchRequest)) (id : Nat) (request : FetchRequest) :
    List (Nat × FetchRequest) :=
  if (cache.lookup id).isSome then
    cache.map (fun entry => if entry.1 = id then (id, request) else entry)
  else
    cache ++ [(id, request)]

/-- Model of `DataLinesModel::setTimeSpan` (the start of the single-shot timer whose
timeout calls `updateState` is left to the caller). -/
def setTimeSpan (m : DataLinesModel) (timeSpan : TimeSpan) : DataLinesModel :=
  { m with timeSpan_ := timeSpan, timeSpanChanged := true }

/-- Model of `DataLinesModel::setLocation`. -/
def setLocation (m : DataLinesModel) (location : String) : DataLinesModel :=
  { m with location_ := location, locationChanged := true }

/-- Model of `DataLinesModel::setDataEnabled`. -/
def setDataEnabled (m : DataLinesModel) (id : Nat) (enabled : Bool) : DataLinesModel :=
  if id ≥ m.dataLineWrappers_.length then m
  else { m with wantedDataLineEnabled_ := m.wantedDataLineEnabled_.set id enabled }

/-- Model of `DataLinesModel::updateImportedWrapper` for the wrapper
`dataLineWrappers_.at(index)`. -/
def updateImportedWrapper (m : DataLinesModel) (index : Nat) (wantedEnabled : Bool) :
    Option (DataLinesModel × List Effect) :=
  match m.dataLineWrappers_[index]? with
  | none => none
  | some wrapper =>
    if wantedEnabled then
      some ({ m with dataLineWrappers_ :=
                m.dataLineWrappers_.set index { wrapper with enabled := true } },
            [Effect.emit (Signal.dataLineChanged wrapper.id)])
    else
      some ({ m with dataLineWrappers_ :=
                m.dataLineWrappers_.set index { wrapper with enabled := false } },
            [Effect.emit (Signal.dataLineDisabled wrapper.id)])

/-- Model of `DataLinesModel::updateInitialWrapper` for the wrapper
`dataLineWrappers_.at(index)`: the model after the call, and the signals emitted and
fetches issued.  The result is `none` where an `at()` throws. -/
def updateInitialWrapper (m : DataLinesModel) (index : Nat) (wantedEnabled : Bool) :
    Option (DataLinesModel × List Effect) :=
  match m.dataLineWrappers_[index]? with
  | none => none
  | some wrapper =>
    if wantedEnabled then
      match m.initialDataTypes_[wrapper.id]? with
      | none => none
      | some entry =>
        let request : FetchRequest :=
          { provider := entry.1, dataType := entry.2, timeSpan := m.timeSpan_,
            location := m.location_ }
        let fetches : Bool :=
          match m.requestCache_.lookup wrapper.id with
          | none => true
          | some cached => !(cached.eq request)
        if fetches then
          some ({ m with requestCache_ := cacheSet m.requestCache_ wrapper.id request },
                [Effect.fetch request wrapper.id])
        else
          some ({ m with dataLineWrappers_ :=
                    m.dataLineWrappers_.set index { wrapper with enabled := true } },
                [Effect.emit (Signal.dataLineChanged wrapper.id)])
    else
      some ({ m with dataLineWrappers_ :=
                m.dataLineWrappers_.set index { wrapper with enabled := false } },
            [Effect.emit (Signal.dataLineDisabled wrapper.id)])

/-- One round of the loop of `DataLinesModel::updateState`. -/
def updateStateStep (acc : Option (DataLinesModel × List Effect)) (id : Nat) :
    Option (DataLinesModel × List Effect) :=
  match acc with
  | none => none
  | some (m, effects) =>
    match m.dataLineWrappers_[id]?, m.wantedDataLineEnabled_[id]? with
    | some currWrapper, some wantedEnabled =>
      let enabledChanged : Bool := wantedEnabled != currWrapper.enabled
      let settingsChanged : Bool := m.locationChanged || m.timeSpanChanged
      if enabledChanged || (wantedEnabled && settingsChanged) then
        let r :=
          if id ≥ m.initialDataTypes_.length then updateImportedWrapper m id wantedEnabled
          else updateInitialWrapper m id wantedEnabled
        r.map (fun out => (out.1, effects ++ out.2))
      else
        some (m, effects)
    | _, _ => none

/-- Model of `DataLinesModel::updateState`. -/
def updateState (m : DataLinesModel) : Option (DataLinesModel × List Effect) :=
  ((List.range m.dataLineWrappers_.length).foldl updateStateStep (some (m, []))).map
    (fun out => ({ out.1 with locationChanged := false, timeSpanChanged := false }, out.2))

end DataLinesModel

namespace DataLinesModel

/-- Model of `QDateTime::addSecs`. -/
def addSecs (t : Int) (secs : Int) : Int := t + secs * 1000

/-- One round of the loop of `DataLinesModel::realTimeUpdate`. -/
def realTimeUpdateStep (currentDateTime : Int)
    (acc : Option (DataLinesModel × List Effect)) (id : Nat) :
    Option (DataLinesModel × List Effect) :=
  match acc with
  | none => none
  | some (m, effects) =>
    match m.dataLineWrappers_[id]? with
    | none => none
    | some currWrapper =>
      match currWrapper.enabled, currWrapper.dataLine, m.requestCache_.lookup id with
      | true, some dataLine, some originalRequestCache =>
        match dataLine.dataPoints.getLast? with
        | none => some (m, effects)
        | some back =>
          let start := addSecs back.x 1
          if start > currentDateTime then
            (updateInitialWrapper m id true).map (fun out => (out.1, effects ++ out.2))
          else
            match m.initialDataTypes_[id]? with
            | none => none
            | some entry =>
              let request : FetchRequest :=
                { provider := entry.1, dataType := entry.2,
                  timeSpan := { start := start, end_ := currentDateTime },
                  location := m.location_ }
              some (m, effects ++ [Effect.fetchRealTime request originalRequestCache id])
      | _, _, _ => some (m, effects)

/-- Model of `DataLinesModel::realTimeUpdate` at the time `currentDateTime`: the model
after the call, and the signals emitted and fetches issued in it. -/
def realTimeUpdate (m : DataLinesModel) (currentDateTime : Int) :
    Option (DataLinesModel × List Effect) :=
  if m.timeSpan_.end_ < currentDateTime then
    some (m, [])
  else
    (List.range m.initialDataTypes_.length).foldl (realTimeUpdateStep currentDateTime)
      (some (m, []))

/-- The lambda that `realTimeUpdate` passes to `WebAPI::fetch`, called with the result
`res` when the model is `m`: the model after the call and the signals emitted; `none`
where `requestCache_.at(id)` throws. -/
def realTimeFetchDone (m : DataLinesModel) (request originalRequestCache : FetchRequest)
    (id : Nat) (res : FetchResult) : Option (DataLinesModel × List Signal) :=
  match m.requestCache_.lookup id with
  | none => none
  | some cached =>
    if cached.eq originalRequestCache then onReceiveRealTimeFetch m request res id
    else some (m, [])

/-- Model of `DataLinesModel::onReceiveFetch`: the model after the call and the
signals emitted; `none` where an `at()` throws. -/
def onReceiveFetch (m : DataLinesModel) (origReq : FetchRequest) (result : FetchResult)
    (id : Nat) : Option (DataLinesModel × List Signal) :=
  match m.requestCache_.lookup id, m.dataLineWrappers_[id]? with
  | some cached, some wrapper =>
    if cached.eq origReq then
      if result.error = FetchError.NONE then
        match m.wantedDataLineEnabled_[id]? with
        | none => none
        | some wanted =>
          let wrapper' : DataLineWrapper :=
            { wrapper with dataLine := some result.dataLine, enabled := true }
          some ({ m with dataLineWrappers_ := m.dataLineWrappers_.set id wrapper' },
                if wanted then [Signal.dataLineChanged id] else [])
      else
        let invalid : List Signal :=
          if result.error = FetchError.LOC_NOT_SUPPORTED_BY_PROVIDER then
            [Signal.invalidLocation origReq.location]
          else []
        match wrapper.dataLine with
        | none => some (m, invalid)
        | some dataLine =>
          match m.wantedDataLineEnabled_[id]? with
          | none => none
          | some wanted =>
            let dataLine' : DataLine := { dataLine with dataPoints := [] }
            let wrapper' : DataLineWrapper :=
              { wrapper with dataLine := some dataLine', enabled := true }
            some ({ m with dataLineWrappers_ := m.dataLineWrappers_.set id wrapper' },
                  (if wanted then [Signal.dataLineChanged id] else []) ++ invalid)
    else
      some (m, [])
  | _, _ => some (m, [])

end DataLinesModel

/-! ## calcscontroller.cc -/

/-- The calculation types (`enum class CalcType`). -/
inductive CalcType where
  | NONE
  | POWER
  | AVER_TEMP
  | MIN_MAX_AVER_TEMP
deriving DecidableEq, Repr

/-- The map `CALC_TO_DATATYPES`; `none` for a key that the map does not hold, where
`at()` throws. -/
def CALC_TO_DATATYPES : CalcType → Option (List DataType)
  | CalcType.POWER =>
    some [DataType.WIND_PWR_PROD, DataType.NUCLEAR_PWR_PROD, DataType.HYDRO_PWR_PROD]
  | CalcType.AVER_TEMP => some [DataType.TEMP]
  | CalcType.MIN_MAX_AVER_TEMP => some [DataType.TEMP]
  | CalcType.NONE => none

/-- The calendar functions of Qt that `CalcsController` uses, on timestamps in
milliseconds: `year t` and `month t` are `t.date().year()` and `t.date().month()`, and
`startOfDay y m d` is `QDateTime(QDate(y, m, d), QTime(0, 0, 0))`, `none` when that
date-time is invalid. -/
structure QCalendar where
  year : Int → Int
  month : Int → Int
  startOfDay : Int → Int → Int → Option Int

namespace QCalendar

/-- Leap years of the Gregorian calendar (for the years from 1 on). -/
def isLeapYear (y : Int) : Bool :=
  decide (y % 4 = 0 ∧ (y % 100 ≠ 0 ∨ y % 400 = 0))

/-- Number of days of month `m` of year `y`, for `1 ≤ m ≤ 12`. -/
def daysInMonth (y m : Int) : Int :=
  if m = 2 then (if isLeapYear y then 29 else 28)
  else if m = 4 ∨ m = 6 ∨ m = 9 ∨ m = 11 then 30
  else 31

/-- Validity of `QDate(y, m, d)`: `QDate::isValid(y, m, d)`. -/
def isValid (y m d : Int) : Bool :=
  decide (y ≠ 0 ∧ 1 ≤ m ∧ m ≤ 12 ∧ 1 ≤ d ∧ d ≤ daysInMonth y m)

/-- Number of days from 1970-01-01 to the Gregorian date `y`-`m`-`d`. -/
def daysFromCivil (y m d : Int) : Int :=
  let y1 := if m ≤ 2 then y - 1 else y
  let era := y1 / 400
  let yoe := y1 - era * 400
  let doy := (153 * (if m > 2 then m - 3 else m + 9) + 2) / 5 + d - 1
  let doe := yoe * 365 + yoe / 4 - yoe / 100 + doy
  era * 146097 + doe - 719468

/-- The Gregorian date (year, month, day) of the day `z` days after 1970-01-01. -/
def civilFromDays (z : Int) : Int × Int × Int :=
  let z1 := z + 719468
  let era := z1 / 146097
  let doe := z1 - era * 146097
  let yoe := (doe - doe / 1460 + doe / 36524 - doe / 146096) / 365
  let doy := doe - (365 * yoe + yoe / 4 - yoe / 100)
  let mp := (5 * doy + 2) / 153
  let d := doy - (153 * mp + 2) / 5 + 1
  let m := if mp < 10 then mp + 3 else mp - 9
  (if m ≤ 2 then yoe + era * 400 + 1 else yoe + era * 400, m, d)

/-- The calendar of Qt: the Gregorian calendar, on the local clock. -/
def gregorian : QCalendar :=
  { year := fun t => (civilFromDays (t / MSECS_PER_DAY)).1
    month := fun t => (civilFromDays (t / MSECS_PER_DAY)).2.1
    startOfDay := fun y m d =>
      if isValid y m d then some (daysFromCivil y m d * MSECS_PER_DAY) else none }

end QCalendar

/-- The data members of `class CalcsController`, without the widget.  An invalid
`newStartDate_` or `newEndDate_` is `none`. -/
structure CalcsController where
  fetchError_ : Bool := false
  updateNeeded_ : Bool := true
  typeChanged_ : Bool := false
  inProgress_ : Int := 0
  location_ : String := ""
  calcType_ : CalcType := CalcType.NONE
  refStartDate_ : Int := 0
  refEndDate_ : Int := 0
  newStartDate_ : Option Int := none
  newEndDate_ : Option Int := none
  data_ : List (DataType × List DataLine) := []
deriving DecidableEq, Repr

/-- What a member function of `CalcsController` does to the outside: calls of the
widget, of `dataCalculations` (whose drawing is not modelled) and of `WebAPI`. -/
inductive CalcsEffect where
  | closeWindow
  | dataCalculations
  | fetch (request : FetchRequest)
  | fetchAll (requests : List FetchRequest)
deriving DecidableEq, Repr

namespace CalcsController

/-- `TEMP_BEGIN_DATE`, 1970-01-01 02:00. -/
def TEMP_BEGIN_DATE : Int := 2 * 3600000

/-- `POWER_BEGIN_DATE`, 2012-11-27 12:15. -/
def POWER_BEGIN_DATE : Int :=
  QCalendar.daysFromCivil 2012 11 27 * MSECS_PER_DAY + 12 * 3600000 + 15 * 60000

def SHORTEST_UPDATE_LENGTH_SEC : Int := 3 * 60

/-- Model of `QDateTime::secsTo` for valid date-times. -/
def secsTo (a b : Int) : Int := Int.tdiv (b - a) 1000

/-- Model of `CalcsController::validateDate`. -/
def validateDate (c : CalcsController) (beginDate : Int) : CalcsController :=
  { c with
    newStartDate_ :=
      some (if secsTo c.refStartDate_ beginDate > 0 then beginDate else c.refStartDate_)
    newEndDate_ :=
      some (if secsTo c.refEndDate_ beginDate > 0 then addDays beginDate 1
            else c.refEndDate_) }

/-- Model of `CalcsController::updateNewDatesTemp`; `date()` of an invalid date-time
has month 0 and year 0. -/
def updateNewDatesTemp (cal : QCalendar) (c : CalcsController) : CalcsController :=
  let c1 := validateDate c TEMP_BEGIN_DATE
  let currMonth : Int := (c1.newEndDate_.map cal.month).getD 0
  let currYear : Int := (c1.newEndDate_.map cal.year).getD 0
  let endDay := cal.startOfDay currYear (currMonth + 1) 1
  let firstDay := cal.startOfDay currYear currMonth 1
  { c1 with newEndDate_ := endDay, newStartDate_ := firstDay }

end CalcsController

namespace CalcsController

/-- Model of `CalcsController::updateRefDates`; the texts `toString("MM.yyyy")` of two
date-times are equal when their months and years are. -/
def updateRefDates (cal : QCalendar) (c : CalcsController) (timeSpan : TimeSpan) :
    CalcsController :=
  if c.refStartDate_ ≠ timeSpan.start ∨ c.refEndDate_ ≠ timeSpan.end_ then
    let c1 : CalcsController :=
      if c.calcType_ ≠ CalcType.POWER then
        if (cal.month c.refEndDate_, cal.year c.refEndDate_) ≠
            (cal.month timeSpan.end_, cal.year timeSpan.end_) then
          { c with updateNeeded_ := true }
        else c
      else { c with updateNeeded_ := true }
    { c1 with refStartDate_ := timeSpan.start, refEndDate_ := timeSpan.end_ }
  else c

/-- Model of `CalcsController::updateNewDatesPower`. -/
def updateNewDatesPower (c : CalcsController) : CalcsController :=
  let c1 := validateDate c POWER_BEGIN_DATE
  if secsTo c1.refStartDate_ c1.refEndDate_ = 0 then
    { c1 with newStartDate_ :=
        c1.newStartDate_.map (fun t => DataLinesModel.addSecs t (-SHORTEST_UPDATE_LENGTH_SEC)) }
  else c1

/-- One round of the loop of `CalcsController::equalDataTimeSpan`: `some false` when
the function returns `false` in the round, `some true` when the loop goes on, `none`
where `front()` or `back()` is read from an empty vector.  `secsTo` is 0 when
`newStartDate_` or `newEndDate_` is invalid. -/
def equalDataTimeSpanRound (c : CalcsController) (dataType : DataType) : Option Bool :=
  match c.data_.lookup dataType with
  | none => some false
  | some dataLines =>
    match dataLines.head?, dataLines.getLast? with
    | some front, some back =>
      match front.dataPoints.head?, back.dataPoints.getLast? with
      | some firstDate, some lastDate =>
        let timeLimit := SHORTEST_UPDATE_LENGTH_SEC
        if |(c.newStartDate_.map (fun t => secsTo t firstDate.x)).getD 0| > timeLimit then
          some false
        else if |(c.newEndDate_.map (fun t => secsTo lastDate.x t)).getD 0| > timeLimit then
          some false
        else some true
      | _, _ => none
    | _, _ => none

/-- The loop of `equalDataTimeSpan` over the data types. -/
def equalDataTimeSpanLoop (c : CalcsController) : List DataType → Option Bool
  | [] => some true
  | dataType :: rest =>
    match equalDataTimeSpanRound c dataType with
    | none => none
    | some false => some false
    | some true => equalDataTimeSpanLoop c rest

/-- Model of `CalcsController::equalDataTimeSpan`; `none` where `at()` throws or an
empty vector is read. -/
def equalDataTimeSpan (c : CalcsController) : Option Bool :=
  match CALC_TO_DATATYPES c.calcType_ with
  | none => none
  | some types => equalDataTimeSpanLoop c types

/-- Model of `CalcsController::setTimeSpan`. -/
def setTimeSpan (cal : QCalendar) (c : CalcsController) (timeSpan : TimeSpan) :
    Option CalcsController :=
  let c1 := updateRefDates cal c timeSpan
  let c2 := if c1.calcType_ ≠ CalcType.POWER then updateNewDatesTemp cal c1
            else updateNewDatesPower c1
  if !c2.updateNeeded_ && c2.typeChanged_ then
    (equalDataTimeSpan c2).map (fun equal => { c2 with updateNeeded_ := !equal })
  else some c2

/-- Model of `CalcsController::isdataLineValid`: the value returned, and the
controller and the calls of the widget. -/
def isdataLineValid (c : CalcsController) (dataLine : List DataLine) :
    Bool × CalcsController × List CalcsEffect :=
  match dataLine with
  | [] => (false, { c with fetchError_ := true }, [CalcsEffect.closeWindow])
  | front :: _ =>
    if front.dataPoints.isEmpty then
      (false, { c with fetchError_ := true }, [CalcsEffect.closeWindow])
    else (true, c, [])

/-- Model of `CalcsController::saveResults`. -/
def saveResults (c : CalcsController) (dataLine : List DataLine) :
    CalcsController × List CalcsEffect :=
  match isdataLineValid c dataLine, dataLine.head? with
  | (true, c1, effects), some front =>
    if (c1.data_.lookup front.dataType).isSome then
      ({ c1 with data_ := c1.data_.map (fun entry =>
            if entry.1 = front.dataType then (entry.1, dataLine) else entry) }, effects)
    else
      ({ c1 with data_ := c1.data_ ++ [(front.dataType, dataLine)] }, effects)
  | (_, c1, effects), _ => (c1, effects)

/-- Model of `CalcsController::fetchData`: the controller after the call, and the
request passed to `WebAPI::fetch`.  An invalid date-time is the null date-time in the
request. -/
def fetchData (c : CalcsController) (provider : Provider) (dataType : DataType) :
    CalcsController × FetchRequest :=
  ({ c with inProgress_ := c.inProgress_ + 1 },
   { provider := provider, dataType := dataType,
     timeSpan := { start := c.newStartDate_.getD 0, end_ := c.newEndDate_.getD 0 },
     location := c.location_ })

/-- The end of the lambda of `fetchData`, after the test of the result. -/
def fetchDataFinish (c : CalcsController) (effects : List CalcsEffect) :
    CalcsController × List CalcsEffect :=
  let c1 : CalcsController := { c with inProgress_ := c.inProgress_ - 1 }
  if c1.inProgress_ = 0 ∧ c1.fetchError_ = false then
    (c1, effects ++ [CalcsEffect.dataCalculations])
  else (c1, effects)

/-- The lambda that `fetchData` passes to `WebAPI::fetch`, called with `result` when
the controller is `c`. -/
def fetchDataDone (c : CalcsController) (result : FetchResult) :
    CalcsController × List CalcsEffect :=
  if c.fetchError_ = false then
    if result.error ≠ FetchError.NONE then
      (c, [])
    else
      let saved := saveResults c [result.dataLine]
      fetchDataFinish saved.1 saved.2
  else
    fetchDataFinish c []

/-- The requests that `CalcsController::fetchAll` passes to `WebAPI::fetchAll`. -/
def fetchAll (c : CalcsController) (provider : Provider) (dataType : DataType)
    (timeSpans : List TimeSpan) : List FetchRequest :=
  timeSpans.map (fun timeSpan =>
    { provider := provider, dataType := dataType,
      timeSpan := { start := timeSpan.start, end_ := DataLinesModel.addSecs timeSpan.end_ (-1) },
      location := c.location_ })

/-- Model of `CalcsController::selectTypeToFetch`: the controller after the call and
the fetches issued; `none` where `at()` throws. -/
def selectTypeToFetch (c : CalcsController) : Option (CalcsController × List CalcsEffect) :=
  if c.updateNeeded_ then
    let c1 : CalcsController := { c with fetchError_ := false }
    let fetched : Option (CalcsController × List CalcsEffect) :=
      if c1.calcType_ = CalcType.POWER then
        (CALC_TO_DATATYPES c1.calcType_).map (fun types =>
          types.foldl (fun acc dataType =>
            let out := fetchData acc.1 Provider.FINGRID dataType
            (out.1, acc.2 ++ [CalcsEffect.fetch out.2])) (c1, []))
      else
        let timeSpans := utils.splitTimeSpan
          { start := c1.newStartDate_.getD 0, end_ := c1.newEndDate_.getD 0 } 1 (by decide)
        some (c1, [CalcsEffect.fetchAll (fetchAll c1 Provider.FMI DataType.TEMP timeSpans)])
    fetched.map (fun out =>
      ({ out.1 with updateNeeded_ := false, typeChanged_ := false }, out.2))
  else some (c, [])

end CalcsController

namespace CalcsController

/-- The lambdas of `fetchData` called one after another with the results `results`:
the controller after the last call, and what the calls did. -/
def fetchDataDoneAll (c : CalcsController) (results : List FetchResult) :
    CalcsController × List CalcsEffect :=
  results.foldl (fun acc result =>
    let out := fetchDataDone acc.1 result
    (out.1, acc.2 ++ out.2)) (c, [])

end CalcsController

/-! ## Qt JSON values (jsonmanager.hh) -/

/-- Model of `QJsonValue`; an object lists its members, and a number is a `double`. -/
inductive QJsonValue where
  | null
  | bool (b : Bool)
  | double (d : Rat)
  | string (s : String)
  | array (a : List QJsonValue)
  | object (o : List (String × QJsonValue))
  | undefined

/-- Model of `QJsonObject`: the members, each key once. -/
abbrev QJsonObject := List (String × QJsonValue)

/-- Model of `QJsonArray`. -/
abbrev QJsonArray := List QJsonValue

namespace QJsonValue

def isBool : QJsonValue → Bool
  | bool _ => true
  | _ => false

def isDouble : QJsonValue → Bool
  | double _ => true
  | _ => false

def isString : QJsonValue → Bool
  | string _ => true
  | _ => false

def isArray : QJsonValue → Bool
  | array _ => true
  | _ => false

def isObject : QJsonValue → Bool
  | object _ => true
  | _ => false

/-- `QJsonValue::toBool()`: `false` for a value that is no boolean. -/
def toBool : QJsonValue → Bool
  | bool b => b
  | _ => false

/-- `QJsonValue::toDouble()`: 0 for a value that is no number. -/
def toDouble : QJsonValue → Rat
  | double d => d
  | _ => 0

/-- `QJsonValue::toInt()`: 0 for a value that is no number, no whole number, or not in
the range of `int`. -/
def toInt : QJsonValue → Int
  | double d =>
    if d.den = 1 ∧ -2147483648 ≤ d.num ∧ d.num ≤ 2147483647 then d.num else 0
  | _ => 0

/-- `QJsonValue::toString()`: the empty string for a value that is no string. -/
def toString : QJsonValue → String
  | string s => s
  | _ => ""

/-- `QJsonValue::toArray()`: the empty array for a value that is no array. -/
def toArray : QJsonValue → QJsonArray
  | array a => a
  | _ => []

/-- `QJsonValue::toObject()`: the empty object for a value that is no object. -/
def toObject : QJsonValue → QJsonObject
  | object o => o
  | _ => []

/-- `QJsonValue(int)`: a number. -/
def ofInt (n : Int) : QJsonValue := double n

end QJsonValue

namespace QJsonObject

/-- `QJsonObject::contains`. -/
def contains (json : QJsonObject) (key : String) : Bool :=
  (json.lookup key).isSome

/-- `QJsonObject::value` and the `const` `operator[]`: `undefined` for a missing key. -/
def value (json : QJsonObject) (key : String) : QJsonValue :=
  (json.lookup key).getD QJsonValue.undefined

/-- `QJsonObject::insert`, for a value that is not `undefined`. -/
def insert (json : QJsonObject) (key : String) (value : QJsonValue) : QJsonObject :=
  if (json.lookup key).isSome then
    json.map (fun member => if member.1 = key then (key, value) else member)
  else
    json ++ [(key, value)]

/-- The constructor of `QJsonObject` from an initializer list: it inserts the pairs
one after another. -/
def ofList (members : List (String × QJsonValue)) : QJsonObject :=
  members.foldl (fun json member => insert json member.1 member.2) []

/-- The keys of the object, in the order of the members of the model; `keys()` of Qt
lists them in ascending order (see `QtStrings.keysOrder`). -/
def keys (json : QJsonObject) : List String :=
  json.map (fun member => member.1)

end QJsonObject

/-- `QJsonValue::operator[](const QString&)`: `toObject().value(key)`. -/
def QJsonValue.get (v : QJsonValue) (key : String) : QJsonValue :=
  QJsonObject.value v.toObject key

namespace JsonManager

def isValidBool (jsonKey : String) (json : QJsonObject) : Bool :=
  json.contains jsonKey && (json.value jsonKey).isBool

def isValidDouble (jsonKey : String) (json : QJsonObject) : Bool :=
  json.contains jsonKey && (json.value jsonKey).isDouble

def isValidString (jsonKey : String) (json : QJsonObject) : Bool :=
  json.contains jsonKey && (json.value jsonKey).isString

end JsonManager

/-- The functions of Qt on strings that `Preference` and `DataLineSaver` call, taken
as given: `number` is `QString::number(qint64)`, `toLongLong` is
`QString::toLongLong()`, `keysOrder` is the order in which `QJsonObject::keys()`
lists the keys of an object (ascending in Qt), and `toIsoStringWithTZ` and
`fromIsoString` are the two functions of `utils.cc` of these names, which are calls
of `QDateTime::toString(Qt::ISODate)` and `QDateTime::fromString(…, Qt::ISODate)`. -/
structure QtStrings where
  number : Int → String
  toLongLong : String → Int
  keysOrder : List String → List String
  toIsoStringWithTZ : Int → String
  fromIsoString : String → Int

/-! ## preference.cc -/

/-- Model of `Preference::DateTimeInterval` (two `qint64`). -/
structure DateTimeInterval where
  fromDate : Int := 0
  toDate : Int := 0
deriving DecidableEq, Repr

/-- The data members of `class Preference`, without the file manager.
`checkBoxStates_` lists the entries of the unordered map. -/
structure Preference where
  plotGraphType_ : String := ""
  calculationType_ : String := ""
  weatherPlace_ : String := ""
  offsetInterval_ : DateTimeInterval := {}
  checkBoxStates_ : List (String × Bool) := []
deriving DecidableEq, Repr

namespace preferenceJson

def PLOT_GRAPH_TYPE : String := "plot graph type"
def CALCULATION_TYPE : String := "calculation type"
def WEATHER_PLACE : String := "weather place"
def FROMDATE_OFFSET : String := "fromDate offset"
def TODATE_OFFSET : String := "toDate offset"
def CHECKBOX_STATES : String := "checkbox states"

end preferenceJson

namespace Preference

/-- Model of `QDateTime::msecsTo`. -/
def msecsTo (a b : Int) : Int := b - a

/-- Model of `QDateTime::addMSecs`. -/
def addMSecs (t msecs : Int) : Int := t + msecs

/-- Model of `Preference::setDateTimeInterval`. -/
def setDateTimeInterval (p : Preference) (fromDate currentDate toDate : Int) : Preference :=
  { p with offsetInterval_ :=
      { fromDate := msecsTo currentDate fromDate, toDate := msecsTo currentDate toDate } }

/-- Model of `Preference::fromDate`. -/
def fromDate (p : Preference) (currentDate : Int) : Int :=
  addMSecs currentDate p.offsetInterval_.fromDate

/-- Model of `Preference::toDate`. -/
def toDate (p : Preference) (currentDate : Int) : Int :=
  addMSecs currentDate p.offsetInterval_.toDate

/-- Model of `Preference::asQJsonObject`. -/
def asQJsonObject (qt : QtStrings) (p : Preference) : QJsonObject :=
  let checkBoxStates : QJsonObject :=
    p.checkBoxStates_.foldl
      (fun json entry => QJsonObject.insert json entry.1 (QJsonValue.bool entry.2)) []
  QJsonObject.ofList
    [(preferenceJson.PLOT_GRAPH_TYPE, QJsonValue.string p.plotGraphType_),
     (preferenceJson.CALCULATION_TYPE, QJsonValue.string p.calculationType_),
     (preferenceJson.WEATHER_PLACE, QJsonValue.string p.weatherPlace_),
     (preferenceJson.FROMDATE_OFFSET,
       QJsonValue.string (qt.number p.offsetInterval_.fromDate)),
     (preferenceJson.TODATE_OFFSET, QJsonValue.string (qt.number p.offsetInterval_.toDate)),
     (preferenceJson.CHECKBOX_STATES, QJsonValue.object checkBoxStates)]

/-- Model of `Preference::isCheckBoxStatesJsonValid`. -/
def isCheckBoxStatesJsonValid (qt : QtStrings) (json : QJsonObject) : Bool :=
  if !(json.contains preferenceJson.CHECKBOX_STATES &&
        (json.value preferenceJson.CHECKBOX_STATES).isObject) then
    false
  else
    let checkBoxStatesJson := (json.value preferenceJson.CHECKBOX_STATES).toObject
    (qt.keysOrder checkBoxStatesJson.keys).all
      (fun idnameJsonKey => (checkBoxStatesJson.value idnameJsonKey).isBool)

/-- Model of `Preference::isPreferenceJsonValid`. -/
def isPreferenceJsonValid (qt : QtStrings) (json : QJsonObject) : Bool :=
  [preferenceJson.PLOT_GRAPH_TYPE, preferenceJson.CALCULATION_TYPE,
    preferenceJson.WEATHER_PLACE, preferenceJson.FROMDATE_OFFSET,
    preferenceJson.TODATE_OFFSET].all
      (fun stringJsonKey => JsonManager.isValidString stringJsonKey json) &&
    isCheckBoxStatesJsonValid qt json

/-- Model of `Preference::restoreSingleValuesWith`. -/
def restoreSingleValuesWith (qt : QtStrings) (p : Preference) (json : QJsonObject) :
    Preference :=
  { p with
    plotGraphType_ := (json.value preferenceJson.PLOT_GRAPH_TYPE).toString
    calculationType_ := (json.value preferenceJson.CALCULATION_TYPE).toString
    weatherPlace_ := (json.value preferenceJson.WEATHER_PLACE).toString
    offsetInterval_ :=
      { fromDate :=
          qt.toLongLong (json.value preferenceJson.FROMDATE_OFFSET).toString
        toDate :=
          qt.toLongLong (json.value preferenceJson.TODATE_OFFSET).toString } }

/-- Model of `std::unordered_map::try_emplace`: no change when the key is there. -/
def tryEmplace (map : List (String × Bool)) (key : String) (value : Bool) :
    List (String × Bool) :=
  if (map.lookup key).isSome then map else map ++ [(key, value)]

/-- Model of `Preference::restoreCheckBoxStatesWith`. -/
def restoreCheckBoxStatesWith (qt : QtStrings) (p : Preference)
    (json : QJsonObject) : Preference :=
  let checkBoxStatesJson := (json.value preferenceJson.CHECKBOX_STATES).toObject
  let restored : List (String × Bool) :=
    (qt.keysOrder checkBoxStatesJson.keys).foldl
      (fun map idnameJsonKey =>
        tryEmplace map idnameJsonKey (checkBoxStatesJson.value idnameJsonKey).toBool) []
  { p with checkBoxStates_ := restored }

/-- Model of `Preference::restoreWith`: the value returned and the object after the
call. -/
def restoreWith (qt : QtStrings) (p : Preference) (json : QJsonObject) :
    Bool × Preference :=
  if !isPreferenceJsonValid qt json then
    (false, p)
  else
    (true, restoreCheckBoxStatesWith qt (restoreSingleValuesWith qt p json) json)

end Preference

namespace QtStrings

/-- The value of a decimal digit. -/
def digitValue (c : Char) : Option Nat :=
  if '0' ≤ c ∧ c ≤ '9' then some (c.toNat - 48) else none

/-- The number written by a list of decimal digits. -/
def parseDigits (cs : List Char) : Option Nat :=
  cs.foldl (fun acc c =>
    match acc, digitValue c with
    | some n, some d => some (10 * n + d)
    | _, _ => none) (some 0)

/-- The number written in decimal by a string; 0 for a string that writes no number
of the range of `qint64`. -/
def parseLongLong (s : String) : Int :=
  let parsed : Option Int :=
    match s.data with
    | [] => none
    | '-' :: cs => if cs.isEmpty then none else (parseDigits cs).map (fun n => -(n : Int))
    | cs => (parseDigits cs).map (fun n => (n : Int))
  match parsed with
  | some n => if -9223372036854775808 ≤ n ∧ n ≤ 9223372036854775807 then n else 0
  | none => 0

/-- The decimal text of `n`, filled with zeros from the left to `width` characters. -/
def pad (width : Nat) (n : Int) : String :=
  String.mk (List.replicate (width - (toString n.toNat).length) '0') ++ toString n.toNat

/-- The ISO 8601 text, in the zone UTC and with the precision of a second, of the
timestamp `t`. -/
def isoText (t : Int) : String :=
  let date := QCalendar.civilFromDays (t / MSECS_PER_DAY)
  let ms := t % MSECS_PER_DAY
  pad 4 date.1 ++ "-" ++ pad 2 date.2.1 ++ "-" ++ pad 2 date.2.2 ++ "T" ++
    pad 2 (ms / 3600000) ++ ":" ++ pad 2 (ms / 60000 % 60) ++ ":" ++
    pad 2 (ms / 1000 % 60) ++ "Z"

/-- The timestamp that an ISO 8601 text of the form of `isoText` writes; 0, the null
date-time, for every other string. -/
def parseIso (s : String) : Int :=
  match s.data with
  | [y1, y2, y3, y4, '-', m1, m2, '-', d1, d2, 'T', h1, h2, ':', i1, i2, ':', s1, s2, 'Z'] =>
    match parseDigits [y1, y2, y3, y4], parseDigits [m1, m2], parseDigits [d1, d2],
      parseDigits [h1, h2], parseDigits [i1, i2], parseDigits [s1, s2] with
    | some y, some m, some d, some h, some i, some sec =>
      if QCalendar.isValid y m d ∧ h < 24 ∧ i < 60 ∧ sec < 60 then
        QCalendar.daysFromCivil y m d * MSECS_PER_DAY + h * 3600000 + i * 60000 + sec * 1000
      else 0
    | _, _, _, _, _, _ => 0
  | _ => 0

/-- An instance of the functions of Qt: decimal numbers, keys in ascending order, and
ISO 8601 texts in the zone UTC with the precision of a second. -/
def utc : QtStrings :=
  { number := fun n => toString n
    toLongLong := parseLongLong
    keysOrder := fun l => l.insertionSort (fun a b => a.data ≤ b.data)
    toIsoStringWithTZ := isoText
    fromIsoString := parseIso }

end QtStrings

/-! ## datalinesaver.cc -/

/-- The value `static_cast<int>(provider)`. -/
def Provider.toInt : Provider → Int
  | Provider.UNSET => 0
  | Provider.FINGRID => 1
  | Provider.FMI => 2

/-- The enumerator of `Provider` with the value `n`, if there is one. -/
def Provider.ofInt? (n : Int) : Option Provider :=
  [Provider.UNSET, Provider.FINGRID, Provider.FMI].find? (fun p => decide (p.toInt = n))

/-- The value `static_cast<int>(dataType)`. -/
def DataType.toInt : DataType → Int
  | DataType.UNSET => 0
  | DataType.EL_CONS => 1
  | DataType.EL_CONS_FORECAST_24H => 2
  | DataType.EL_PROD => 3
  | DataType.EL_PROD_FORECAST_24H => 4
  | DataType.HYDRO_PWR_PROD => 5
  | DataType.NUCLEAR_PWR_PROD => 6
  | DataType.WIND_PWR_PROD => 7
  | DataType.TEMP => 8
  | DataType.TEMP_FORECAST => 9
  | DataType.WIND => 10
  | DataType.WIND_FORECAST => 11
  | DataType.CLOUDINESS => 12

/-- The enumerator of `DataType` with the value `n`, if there is one. -/
def DataType.ofInt? (n : Int) : Option DataType :=
  [DataType.UNSET, DataType.EL_CONS, DataType.EL_CONS_FORECAST_24H, DataType.EL_PROD,
   DataType.EL_PROD_FORECAST_24H, DataType.HYDRO_PWR_PROD, DataType.NUCLEAR_PWR_PROD,
   DataType.WIND_PWR_PROD, DataType.TEMP, DataType.TEMP_FORECAST, DataType.WIND,
   DataType.WIND_FORECAST, DataType.CLOUDINESS].find? (fun d => decide (d.toInt = n))

/-- A `DataLine` object as `DataLineSaver::restore` leaves it: the members `provider`
and `dataType` hold the value of the `static_cast` from `int`, which need not be the
value of an enumerator. -/
structure RawDataLine where
  provider : Int := 0
  dataType : Int := 0
  timeSpan : TimeSpan := {}
  dataPoints : List DataPoint := []
  location : String := ""
  yUnit : String := ""
deriving DecidableEq, Repr

namespace dataline

def PROVIDER : String := "provider"
def DATATYPE : String := "datatype"
def TIME_SPAN : String := "timespan"
def TIME_SPAN_START : String := "start"
def TIME_SPAN_END : String := "end"
def DATAPOINTS : String := "datapoints"
def DATAPOINT_X : String := "x"
def DATAPOINT_Y : String := "y"
def LOCATION : String := "location"
def YUNIT : String := "yunit"

end dataline

namespace DataLineSaver

/-- Model of `DataLineSaver::toQJsonObject(const TimeSpan&)`. -/
def toQJsonObjectTimeSpan (qt : QtStrings) (timeSpan : TimeSpan) : QJsonObject :=
  QJsonObject.ofList
    [(dataline.TIME_SPAN_START, QJsonValue.string (qt.toIsoStringWithTZ timeSpan.start)),
     (dataline.TIME_SPAN_END, QJsonValue.string (qt.toIsoStringWithTZ timeSpan.end_))]

/-- Model of `DataLineSaver::toQJsonObject(const DataPoint&)`. -/
def toQJsonObjectDataPoint (qt : QtStrings) (dataPoint : DataPoint) : QJsonObject :=
  QJsonObject.ofList
    [(dataline.DATAPOINT_X, QJsonValue.string (qt.toIsoStringWithTZ dataPoint.x)),
     (dataline.DATAPOINT_Y, QJsonValue.double dataPoint.y)]

/-- Model of `DataLineSaver::toQJsonArray(const std::vector<DataPoint>&)`. -/
def toQJsonArray (qt : QtStrings) (dataPoints : List DataPoint) : QJsonArray :=
  dataPoints.map (fun dataPoint => QJsonValue.object (toQJsonObjectDataPoint qt dataPoint))

/-- Model of `DataLineSaver::toQJsonObject(const DataLine&)`. -/
def toQJsonObject (qt : QtStrings) (data : DataLine) : QJsonObject :=
  QJsonObject.ofList
    [(dataline.PROVIDER, QJsonValue.ofInt data.provider.toInt),
     (dataline.DATATYPE, QJsonValue.ofInt data.dataType.toInt),
     (dataline.LOCATION, QJsonValue.string data.location),
     (dataline.YUNIT, QJsonValue.string data.yUnit),
     (dataline.TIME_SPAN, QJsonValue.object (toQJsonObjectTimeSpan qt data.timeSpan)),
     (dataline.DATAPOINTS, QJsonValue.array (toQJsonArray qt data.dataPoints))]

/-- Model of `DataLineSaver::isDataPointValid`. -/
def isDataPointValid (dataPoint : QJsonObject) : Bool :=
  JsonManager.isValidString dataline.DATAPOINT_X dataPoint &&
    JsonManager.isValidDouble dataline.DATAPOINT_Y dataPoint

/-- Model of `DataLineSaver::isDataPointsContentsValid`. -/
def isDataPointsContentsValid (dataPoints : QJsonArray) : Bool :=
  dataPoints.all (fun dataPointValue => isDataPointValid dataPointValue.toObject)

/-- Model of `DataLineSaver::isDataPointsValid`. -/
def isDataPointsValid (json : QJsonObject) : Bool :=
  json.contains dataline.DATAPOINTS &&
    isDataPointsContentsValid (json.value dataline.DATAPOINTS).toArray

/-- Model of `DataLineSaver::isTimeSpanContentsValid`. -/
def isTimeSpanContentsValid (timeSpan : QJsonObject) : Bool :=
  JsonManager.isValidString dataline.TIME_SPAN_START timeSpan &&
    JsonManager.isValidString dataline.TIME_SPAN_END timeSpan

/-- Model of `DataLineSaver::isTimeSpanValid`. -/
def isTimeSpanValid (json : QJsonObject) : Bool :=
  json.contains dataline.TIME_SPAN &&
    isTimeSpanContentsValid (json.value dataline.TIME_SPAN).toObject

/-- Model of `DataLineSaver::isValidDataLineJson`. -/
def isValidDataLineJson (json : QJsonObject) : Bool :=
  JsonManager.isValidDouble dataline.PROVIDER json &&
    JsonManager.isValidDouble dataline.DATATYPE json &&
    JsonManager.isValidString dataline.LOCATION json &&
    JsonManager.isValidString dataline.YUNIT json &&
    isTimeSpanValid json && isDataPointsValid json

/-- Model of `DataLineSaver::dataPointX`. -/
def dataPointX (qt : QtStrings) (dataPoint : QJsonValue) : Int :=
  qt.fromIsoString (dataPoint.get dataline.DATAPOINT_X).toString

/-- Model of `DataLineSaver::dataPointY`. -/
def dataPointY (dataPoint : QJsonValue) : Rat :=
  (dataPoint.get dataline.DATAPOINT_Y).toDouble

/-- Model of `DataLineSaver::restoreSingleValues`. -/
def restoreSingleValues (dataLine : RawDataLine) (jsonDataLine : QJsonObject) : RawDataLine :=
  { dataLine with
    provider := (jsonDataLine.value dataline.PROVIDER).toInt
    dataType := (jsonDataLine.value dataline.DATATYPE).toInt
    location := (jsonDataLine.value dataline.LOCATION).toString
    yUnit := (jsonDataLine.value dataline.YUNIT).toString }

/-- Model of `DataLineSaver::restoreTimeSpan`. -/
def restoreTimeSpan (qt : QtStrings) (dataLine : RawDataLine) (jsonDataLine : QJsonObject) :
    RawDataLine :=
  let timeSpan := (jsonDataLine.value dataline.TIME_SPAN).toObject
  { dataLine with
    timeSpan :=
      { start := qt.fromIsoString (timeSpan.value dataline.TIME_SPAN_START).toString
        end_ := qt.fromIsoString (timeSpan.value dataline.TIME_SPAN_END).toString } }

/-- Model of `DataLineSaver::restoreDataPoints`. -/
def restoreDataPoints (qt : QtStrings) (dataLine : RawDataLine) (jsonDataLine : QJsonObject) :
    RawDataLine :=
  let jsonDataPoints := (jsonDataLine.value dataline.DATAPOINTS).toArray
  { dataLine with
    dataPoints := jsonDataPoints.map (fun dataPoint =>
      { x := dataPointX qt dataPoint, y := dataPointY dataPoint }) }

/-- Model of `DataLineSaver::restore`: the value returned and the `DataLine` object
after the call. -/
def restore (qt : QtStrings) (dataLine : RawDataLine) (jsonDataLine : QJsonObject) :
    Bool × RawDataLine :=
  if !isValidDataLineJson jsonDataLine then
    (false, dataLine)
  else
    (true, restoreDataPoints qt
      (restoreTimeSpan qt (restoreSingleValues dataLine jsonDataLine) jsonDataLine)
      jsonDataLine)

/-- The JSON array that `DataLineSaver::write(const DataLine&)` gives to the file
manager. -/
def write (qt : QtStrings) (data : DataLine) : QJsonArray :=
  [QJsonValue.object (toQJsonObject qt data)]

/-- Model of `DataLineSaver::readTo(DataLine&)`, given the JSON array that the file
manager has read. -/
def readTo (qt : QtStrings) (data : RawDataLine) (jsonDataLines : QJsonArray) :
    Bool × RawDataLine :=
  match jsonDataLines with
  | [] => (false, data)
  | first :: _ => restore qt data first.toObject

/-- Model of `DataLineSaver::readTo(std::vector<DataLine>&)`, given the JSON array
that the file manager has read: `none` when the function returns `false`. -/
def readToAll (qt : QtStrings) : QJsonArray → Option (List RawDataLine)
  | [] => some []
  | dataLineValue :: rest =>
    let restored := restore qt {} dataLineValue.toObject
    if restored.1 then (readToAll qt rest).map (fun data => restored.2 :: data) else none

end DataLineSaver

/-- The initializer of `name` in `DataLinesModel::addDataLine` for a data line that
gets the id `id`: `none` where `DATA_TYPE_NAMES.at` throws, the data type being no key
of the map. -/
def DataLinesModel.importedName (m : DataLinesModel) (id : Nat) (dataLine : RawDataLine) :
    Option String :=
  (DataType.ofInt? dataLine.dataType).map (fun dataType =>
    "Imported " ++ toString (id - m.initialDataTypes_.length + 1) ++ ": " ++
      DATA_TYPE_NAMES dataType)

/-! ## webapi.cc: the batches of `fetchAll` in flight -/

namespace WebAPI

/-- The lambda that `fetchAll` passes to `fetch` for `requests[i]` of the batch `id`,
up to the call of `callback`: as `subFetchDone`, without the statement
`freeParallelRequestIds_.push(id)` that follows the return of `callback`. -/
def subFetchDeliver (st : State) (id : Int) (i : Nat) (result : FetchResult) :
    Option (State × Option (List FetchResult)) :=
  let buf := st.parallelRequestResults_.get id []
  if i < buf.length then
    let results := st.parallelRequestResults_.set id (buf.set i result)
    let counter := st.parallelRequestCounters_.get id 0 - 1
    let counters := st.parallelRequestCounters_.set id counter
    if counter = 0 then
      some ({ freeParallelRequestIds_ := st.freeParallelRequestIds_
              parallelRequestCounters_ := counters
              parallelRequestResults_ := results.set id [] },
            some (buf.set i result))
    else
      some ({ freeParallelRequestIds_ := st.freeParallelRequestIds_
              parallelRequestCounters_ := counters
              parallelRequestResults_ := results },
            none)
  else
    none

/-- The statement `freeParallelRequestIds_.push(id)` at the end of the lambda. -/
def pushFreeId (st : State) (id : Int) : State :=
  { st with freeParallelRequestIds_ := id :: st.freeParallelRequestIds_ }

/-- Where a batch of `fetchAll` stands: `running` until its counter reaches zero,
`delivering` while its `callback` runs, `done` after its id has been pushed to the
stack of free ids. -/
inductive Phase where
  | running
  | delivering
  | done
deriving DecidableEq, Repr

/-- A batch of `fetchAll`: the id captured by its lambdas, the indices of its
sub-fetches that have not completed, and its phase. -/
structure Batch where
  id : Int
  pending : List Nat
  phase : Phase
deriving DecidableEq, Repr

/-- What happens to `WebAPI`: a call of `fetchAll` (by a user or by a `fetch` that
splits its request), the completion of the sub-fetch `i` of the batch number `batch`
with `result` (the lambda runs up to the call of `callback`), and the return of the
`callback` of a batch (the lambda pushes the id). -/
inductive Event where
  | fetchAll (requests : List FetchRequest)
  | completion (batch : Nat) (i : Nat) (result : FetchResult)
  | callbackReturned (batch : Nat)

/-- The state of `WebAPI` together with the batches started so far, in the order of
their calls of `fetchAll`. -/
structure System where
  st : State
  batches : List Batch

/-- The system after the constructor of `WebAPI`. -/
def System.initial : System := { st := State.initial, batches := [] }

/-- One event; `none` for an event that cannot happen (a completion of a sub-fetch
that is not pending, a return of a callback that is not running) and where the lambda
is undefined. -/
def System.step (s : System) : Event → Option System
  | Event.fetchAll requests =>
    some { st := (fetchAllBegin s.st requests).2
           batches := s.batches ++
             [{ id := (fetchAllBegin s.st requests).1
                pending := List.range requests.length
                phase := Phase.running }] }
  | Event.completion batch i result =>
    match s.batches[batch]? with
    | none => none
    | some b =>
      if b.phase = Phase.running ∧ i ∈ b.pending then
        match subFetchDeliver s.st b.id i result with
        | none => none
        | some out =>
          some { st := out.1
                 batches := s.batches.set batch
                   { id := b.id
                     pending := b.pending.erase i
                     phase := if out.2.isSome then Phase.delivering else Phase.running } }
      else none
  | Event.callbackReturned batch =>
    match s.batches[batch]? with
    | none => none
    | some b =>
      if b.phase = Phase.delivering then
        some { st := pushFreeId s.st b.id
               batches := s.batches.set batch
                 { id := b.id, pending := b.pending, phase := Phase.done } }
      else none

/-- The events of a list, one after another. -/
def System.run : System → List Event → Option System
  | s, [] => some s
  | s, event :: rest =>
    match s.step event with
    | none => none
    | some t => t.run rest

/-- What holds of every reachable system: the keys of the counters are the numbers
below their count; two batches not yet done have different ids, no such id is on the
stack of free ids, the stack holds no id twice, and all these ids are keys of the
counters; the counter of a running batch is the number of its pending sub-fetches,
each of which has a place in the buffer of the batch. -/
def System.Inv (s : System) : Prop :=
  s.st.parallelRequestCounters_.keys.Nodup ∧
  (∀ key ∈ s.st.parallelRequestCounters_.keys,
    0 ≤ key ∧ key < s.st.parallelRequestCounters_.keys.length) ∧
  (∀ (k1 k2 : Nat) (b1 b2 : Batch), s.batches[k1]? = some b1 → s.batches[k2]? = some b2 → k1 ≠ k2 →
    b1.phase ≠ Phase.done → b2.phase ≠ Phase.done → b1.id ≠ b2.id) ∧
  (∀ (k : Nat) (b : Batch), s.batches[k]? = some b → b.phase ≠ Phase.done →
    b.id ∉ s.st.freeParallelRequestIds_ ∧ b.id ∈ s.st.parallelRequestCounters_.keys) ∧
  s.st.freeParallelRequestIds_.Nodup ∧
  (∀ id ∈ s.st.freeParallelRequestIds_, id ∈ s.st.parallelRequestCounters_.keys) ∧
  (∀ (k : Nat) (b : Batch), s.batches[k]? = some b → b.phase = Phase.running →
    s.st.parallelRequestCounters_.get b.id 0 = b.pending.length ∧
    ∀ i ∈ b.pending, i < (s.st.parallelRequestResults_.get b.id []).length)

end WebAPI

end pwa

/-! ## Theorems -/

namespace pwa.utils

/-- Hoare-style rule for the loop of `splitTimeSpan`: an invariant of the loop body
holds on exit, together with the negated loop condition. -/
theorem splitLoop_invariant (spanEnd d : Int) (hd : 0 < d)
    (P : List TimeSpan → TimeSpan → Prop)
    (hstep : ∀ init back, P init back → back.end_ < spanEnd →
      P (init ++ [back]) { start := back.end_, end_ := addDays back.end_ d })
    (init : List TimeSpan) (back : TimeSpan) (h0 : P init back) :
    P (splitLoop spanEnd d hd init back).1 (splitLoop spanEnd d hd init back).2 ∧
      spanEnd ≤ (splitLoop spanEnd d hd init back).2.end_ := by
  induction init, back using splitLoop.induct spanEnd d hd with
  | case1 init back hlt ih =>
    rw [splitLoop, dif_pos hlt]
    exact ih (hstep init back h0 hlt)
  | case2 init back hge =>
    rw [splitLoop, dif_neg hge]
    exact ⟨h0, not_lt.mp hge⟩

theorem splitInv1_step (span : TimeSpan) (d : Int) (hd : 0 < d) (init : List TimeSpan)
    (back : TimeSpan) (h : SplitInv1 span init back) (hlt : back.end_ < span.end_) :
    SplitInv1 span (init ++ [back]) { start := back.end_, end_ := addDays back.end_ d } := by
  obtain ⟨hc, hh, hle, hb1, hb2⟩ := h
  refine ⟨?_, ?_, ?_, ?_, ?_⟩
  · rw [List.chain'_append]
    refine ⟨hc, List.chain'_singleton _, ?_⟩
    intro x hx y hy
    simp at hx hy
    subst hx hy
    rfl
  · cases init <;> simpa using hh
  · intro p hp
    rcases List.mem_append.mp hp with hp | hp
    · exact hle p hp
    · simp at hp; subst hp; exact hb2
  · exact le_of_lt hlt
  · simp only [addDays, MSECS_PER_DAY]; omega

/-- C1. For a span with `start ≤ end` and `daysPerSpan > 0`, `splitTimeSpan` returns a
non-empty list of parts; the first part starts at `span.start`, the last part ends
at `span.end`, the end of each part is the start of the next one, and every part
has `start ≤ end`. -/
theorem splitTimeSpan_contiguous_cover (span : TimeSpan) (d : Int) (hd : 0 < d)
    (hspan : span.start ≤ span.end_) :
    splitTimeSpan span d hd ≠ [] ∧
    (splitTimeSpan span d hd).head?.map (fun p => p.start) = some span.start ∧
    (splitTimeSpan span d hd).getLast?.map (fun p => p.end_) = some span.end_ ∧
    List.Chain' (fun a b : TimeSpan => a.end_ = b.start) (splitTimeSpan span d hd) ∧
    ∀ p ∈ splitTimeSpan span d hd, p.start ≤ p.end_ := by
  have h0 : SplitInv1 span []
      { start := span.start, end_ := addDays span.start d } := by
    refine ⟨by simp, by simp, by simp, hspan, ?_⟩
    simp only [addDays, MSECS_PER_DAY]; omega
  obtain ⟨⟨hc, hh, hle, hb1, hb2⟩, hex⟩ :=
    splitLoop_invariant span.end_ d hd (SplitInv1 span)
      (fun i b hi hlt => splitInv1_step span d hd i b hi hlt) [] _ h0
  unfold splitTimeSpan
  generalize splitLoop span.end_ d hd []
    { start := span.start, end_ := addDays span.start d } = r at hc hh hle hb1 hb2 hex
  obtain ⟨ini, bk⟩ := r
  simp only at hc hh hle hb1 hb2 hex ⊢
  rw [List.chain'_append] at hc
  split
  · refine ⟨by simp, ?_, by simp, ?_, ?_⟩
    · cases ini <;> simpa using hh
    · rw [List.chain'_append]
      refine ⟨hc.1, List.chain'_singleton _, ?_⟩
      intro x hx y hy
      simp at hy
      subst hy
      exact hc.2.2 x hx bk (by simp)
    · intro p hp
      rcases List.mem_append.mp hp with hp | hp
      · exact hle p hp
      · simp at hp; subst hp; exact hb1
  · rename_i hnot
    have heq : bk.end_ = span.end_ := by omega
    refine ⟨by simp, hh, by simp [heq], ?_, ?_⟩
    · rw [List.chain'_append]; exact hc
    · intro p hp
      rcases List.mem_append.mp hp with hp | hp
      · exact hle p hp
      · simp at hp; subst hp; exact hb2

/-- Witness for C1: the ten-day span split into parts of four days. -/
theorem splitTimeSpan_contiguous_cover_witness :
    splitTimeSpan { start := 0, end_ := 864000000 } 4 (by decide) =
      [{ start := 0, end_ := 345600000 }, { start := 345600000, end_ := 691200000 },
        { start := 691200000, end_ := 864000000 }] ∧
    (splitTimeSpan { start := 0, end_ := 864000000 } 4 (by decide) ≠ [] ∧
    (splitTimeSpan { start := 0, end_ := 864000000 } 4 (by decide)).head?.map
      (fun p => p.start) = some 0 ∧
    (splitTimeSpan { start := 0, end_ := 864000000 } 4 (by decide)).getLast?.map
      (fun p => p.end_) = some 864000000 ∧
    List.Chain' (fun a b : TimeSpan => a.end_ = b.start)
      (splitTimeSpan { start := 0, end_ := 864000000 } 4 (by decide)) ∧
    ∀ p ∈ splitTimeSpan { start := 0, end_ := 864000000 } 4 (by decide), p.start ≤ p.end_) :=
  ⟨by simp [splitTimeSpan, splitLoop, addDays, MSECS_PER_DAY],
    splitTimeSpan_contiguous_cover { start := 0, end_ := 864000000 } 4 (by decide) (by decide)⟩

theorem splitInv2_step (span : TimeSpan) (d : Int) (init : List TimeSpan)
    (back : TimeSpan) (h : SplitInv2 span d init back) (hlt : back.end_ < span.end_) :
    SplitInv2 span d (init ++ [back]) { start := back.end_, end_ := addDays back.end_ d } := by
  obtain ⟨hlen, hst, hb, _⟩ := h
  refine ⟨?_, ?_, ?_, fun _ => hlt⟩
  · intro p hp
    rcases List.mem_append.mp hp with hp | hp
    · exact hlen p hp
    · simp at hp; subst hp; exact hb
  · simp only [List.length_append, List.length_singleton]
    push_cast
    have e : ((init.length : Int) + 1) * (d * MSECS_PER_DAY) =
        (init.length : Int) * (d * MSECS_PER_DAY) + d * MSECS_PER_DAY := by ring
    rw [e]
    omega
  · simp only [addDays]; omega

/-- The state of `splitTimeSpan` when its loop is left. -/
theorem splitLoop_exit (span : TimeSpan) (d : Int) (hd : 0 < d) :
    SplitInv2 span d
      (splitLoop span.end_ d hd [] { start := span.start, end_ := addDays span.start d }).1
      (splitLoop span.end_ d hd [] { start := span.start, end_ := addDays span.start d }).2 ∧
    span.end_ ≤
      (splitLoop span.end_ d hd [] { start := span.start, end_ := addDays span.start d }).2.end_ := by
  apply splitLoop_invariant span.end_ d hd (SplitInv2 span d)
    (fun i b hi hlt => splitInv2_step span d i b hi hlt)
  refine ⟨by simp, by simp, ?_, by simp⟩
  simp only [addDays]; omega

/-- C2. Every part returned by `splitTimeSpan` except the last one is exactly
`daysPerSpan` days long, and the last part is at most `daysPerSpan` days long.
This holds for every span, so in particular for the spans with `start ≤ end`. -/
theorem splitTimeSpan_part_lengths (span : TimeSpan) (d : Int) (hd : 0 < d) :
    (∀ p ∈ (splitTimeSpan span d hd).dropLast, p.end_ - p.start = d * MSECS_PER_DAY) ∧
    (∀ p ∈ (splitTimeSpan span d hd).getLast?, p.end_ - p.start ≤ d * MSECS_PER_DAY) := by
  obtain ⟨⟨hlen, _, hb, _⟩, hex⟩ := splitLoop_exit span d hd
  unfold splitTimeSpan
  generalize splitLoop span.end_ d hd []
    { start := span.start, end_ := addDays span.start d } = r at hlen hb hex
  obtain ⟨ini, bk⟩ := r
  simp only at hlen hb hex ⊢
  split
  · rename_i hgt
    refine ⟨by simpa using hlen, ?_⟩
    intro p hp
    simp at hp
    subst hp
    simp only
    omega
  · refine ⟨by simpa using hlen, ?_⟩
    intro p hp
    simp at hp
    subst hp
    omega

/-- Witness for C2: the ten-day span split into parts of four days. -/
theorem splitTimeSpan_part_lengths_witness :
    (∀ p ∈ (splitTimeSpan { start := 0, end_ := 864000000 } 4 (by decide)).dropLast,
      p.end_ - p.start = 4 * MSECS_PER_DAY) ∧
    (∀ p ∈ (splitTimeSpan { start := 0, end_ := 864000000 } 4 (by decide)).getLast?,
      p.end_ - p.start ≤ 4 * MSECS_PER_DAY) :=
  splitTimeSpan_part_lengths { start := 0, end_ := 864000000 } 4 (by decide)

/-- Number of parts of a non-empty span: the ceiling of its length over the length
of `daysPerSpan` days; none of the parts is empty. -/
theorem splitTimeSpan_length_of_lt (span : TimeSpan) (d : Int) (hd : 0 < d)
    (hlt : span.start < span.end_) :
    ((splitTimeSpan span d hd).length : Int) =
        ⌈((span.end_ - span.start : Int) : ℚ) / ((d * MSECS_PER_DAY : Int) : ℚ)⌉ ∧
      ∀ p ∈ splitTimeSpan span d hd, p.start < p.end_ := by
  obtain ⟨⟨hlen, hst, hb, hne⟩, hex⟩ := splitLoop_exit span d hd
  have hD : 0 < d * MSECS_PER_DAY := by simp only [MSECS_PER_DAY]; omega
  unfold splitTimeSpan
  generalize splitLoop span.end_ d hd []
    { start := span.start, end_ := addDays span.start d } = r at hlen hst hb hne hex
  obtain ⟨ini, bk⟩ := r
  simp only at hlen hst hb hne hex ⊢
  generalize d * MSECS_PER_DAY = D at hlen hst hb hD
  have hlo : (ini.length : Int) * D < span.end_ - span.start := by
    rcases ini with _ | ⟨a, t⟩
    · simp; omega
    · have := hne (by simp)
      omega
  have hhi : span.end_ - span.start ≤ ((ini.length : Int) + 1) * D := by
    have e : ((ini.length : Int) + 1) * D = (ini.length : Int) * D + D := by ring
    rw [e]; omega
  have hbs : bk.start < span.end_ := by omega
  have hDq : (0 : ℚ) < (D : ℚ) := by exact_mod_cast hD
  have hceil : ⌈((span.end_ - span.start : Int) : ℚ) / (D : ℚ)⌉ = (ini.length : Int) + 1 := by
    rw [Int.ceil_eq_iff]
    constructor
    · rw [lt_div_iff₀ hDq]
      have : (((ini.length : Int) * D : Int) : ℚ) < ((span.end_ - span.start : Int) : ℚ) := by
        exact_mod_cast hlo
      push_cast at this ⊢
      linarith
    · rw [div_le_iff₀ hDq]
      have : ((span.end_ - span.start : Int) : ℚ) ≤ ((((ini.length : Int) + 1) * D : Int) : ℚ) := by
        exact_mod_cast hhi
      push_cast at this ⊢
      linarith
  have hini : ∀ p ∈ ini, p.start < p.end_ := fun p hp => by
    have := hlen p hp
    omega
  split
  · refine ⟨by rw [hceil]; simp, ?_⟩
    intro p hp
    rcases List.mem_append.mp hp with hp | hp
    · exact hini p hp
    · simp at hp; subst hp; exact hbs
  · refine ⟨by rw [hceil]; simp, ?_⟩
    intro p hp
    rcases List.mem_append.mp hp with hp | hp
    · exact hini p hp
    · simp at hp; subst hp; omega

end pwa.utils

namespace pwa

/-- C3. `splitTimeSpan` returns exactly one zero-length part when
`span.start = span.end`; when `span.start < span.end` it returns exactly
`ceil (length / daysPerSpan days)` parts, none of them of zero length.
`splitFetchRequest` returns one sub-request per part, which differs from the request
in its time span only.  A ten-day request with a limit of four days gives three
sub-requests of four, four and two days. -/
theorem splitTimeSpan_part_count (span : TimeSpan) (d : Int) (hd : 0 < d) :
    (span.start = span.end_ →
      utils.splitTimeSpan span d hd = [{ start := span.start, end_ := span.start }]) ∧
    (span.start < span.end_ →
      ((utils.splitTimeSpan span d hd).length : Int) =
          ⌈((span.end_ - span.start : Int) : ℚ) / ((d * MSECS_PER_DAY : Int) : ℚ)⌉ ∧
        ∀ p ∈ utils.splitTimeSpan span d hd, p.start ≠ p.end_) ∧
    (∀ req : FetchRequest, req.timeSpan = span →
      (WebAPI.splitFetchRequest req d hd).length = (utils.splitTimeSpan span d hd).length ∧
      (WebAPI.splitFetchRequest req d hd).map (fun r => r.timeSpan) =
        utils.splitTimeSpan span d hd ∧
      ∀ r ∈ WebAPI.splitFetchRequest req d hd,
        r.provider = req.provider ∧ r.dataType = req.dataType ∧ r.location = req.location) ∧
    (∀ (req : FetchRequest) (t0 : Int),
      req.timeSpan = { start := t0, end_ := t0 + 10 * MSECS_PER_DAY } →
      WebAPI.splitFetchRequest req 4 (by decide) =
        [{ req with timeSpan := { start := t0, end_ := t0 + 4 * MSECS_PER_DAY } },
         { req with timeSpan :=
            { start := t0 + 4 * MSECS_PER_DAY, end_ := t0 + 8 * MSECS_PER_DAY } },
         { req with timeSpan :=
            { start := t0 + 8 * MSECS_PER_DAY, end_ := t0 + 10 * MSECS_PER_DAY } }]) := by
  refine ⟨?_, ?_, ?_, ?_⟩
  · intro heq
    unfold utils.splitTimeSpan
    rw [utils.splitLoop, dif_neg (by simp only [addDays, MSECS_PER_DAY]; omega)]
    simp only [addDays, MSECS_PER_DAY]
    rw [if_pos (by omega)]
    simp [heq]
  · intro hlt
    obtain ⟨h1, h2⟩ := utils.splitTimeSpan_length_of_lt span d hd hlt
    exact ⟨h1, fun p hp => ne_of_lt (h2 p hp)⟩
  · intro req hreq
    subst hreq
    refine ⟨by simp [WebAPI.splitFetchRequest], ?_, ?_⟩
    · simp [WebAPI.splitFetchRequest, Function.comp_def]
    · intro r hr
      simp only [WebAPI.splitFetchRequest, List.mem_map] at hr
      obtain ⟨ts, _, rfl⟩ := hr
      exact ⟨rfl, rfl, rfl⟩
  · intro req t0 hreq
    unfold WebAPI.splitFetchRequest utils.splitTimeSpan
    rw [hreq]
    simp only [addDays, MSECS_PER_DAY]
    rw [utils.splitLoop, dif_pos (by simp only []; omega)]
    simp only [addDays, MSECS_PER_DAY]
    rw [utils.splitLoop, dif_pos (by simp only []; omega)]
    simp only [addDays, MSECS_PER_DAY]
    rw [utils.splitLoop, dif_neg (by simp only []; omega)]
    simp only []
    rw [if_pos (by omega)]
    simp
    omega

end pwa

namespace pwa

/-- Witness for C3: a span of zero length, and the ten-day span with a limit of four
days, which has `ceil (10 / 4) = 3` parts. -/
theorem splitTimeSpan_part_count_witness :
    utils.splitTimeSpan { start := 5, end_ := 5 } 4 (by decide) = [{ start := 5, end_ := 5 }] ∧
    (((utils.splitTimeSpan { start := 0, end_ := 864000000 } 4 (by decide)).length : Int) =
        ⌈((864000000 - 0 : Int) : ℚ) / ((4 * MSECS_PER_DAY : Int) : ℚ)⌉ ∧
      ∀ p ∈ utils.splitTimeSpan { start := 0, end_ := 864000000 } 4 (by decide),
        p.start ≠ p.end_) ∧
    (utils.splitTimeSpan { start := 0, end_ := 864000000 } 4 (by decide)).length = 3 :=
  ⟨(splitTimeSpan_part_count { start := 5, end_ := 5 } 4 (by decide)).1 rfl,
    (splitTimeSpan_part_count { start := 0, end_ := 864000000 } 4 (by decide)).2.1 (by decide),
    by simp [utils.splitTimeSpan, utils.splitLoop, addDays, MSECS_PER_DAY]⟩

namespace utils

theorem findNewLoop_eq_filter (backX : Int) (c : List DataPoint)
    (hc : c.Pairwise (fun p q => p.x ≤ q.x)) :
    findNewLoop backX c = c.filter (fun p => decide (backX < p.x)) := by
  induction c with
  | nil => rfl
  | cons p rest ih =>
    rw [List.pairwise_cons] at hc
    unfold findNewLoop
    by_cases hp : p.x > backX
    · rw [if_pos hp]
      symm
      rw [List.filter_eq_self]
      intro q hq
      rcases List.mem_cons.mp hq with rfl | hq
      · simpa using hp
      · have := hc.1 q hq
        simp only [decide_eq_true_eq]
        omega
    · rw [if_neg hp, ih hc.2, List.filter_cons_of_neg (by simpa using hp)]

theorem findNewLoop_suffix (backX : Int) (c : List DataPoint) :
    findNewLoop backX c <:+ c := by
  induction c with
  | nil => exact List.suffix_refl _
  | cons p rest ih =>
    unfold findNewLoop
    split
    · exact List.suffix_refl _
    · exact ih.trans (List.suffix_cons p rest)

/-- C10. `findNewDataPoints original candidates` is `candidates` when `original` is
empty.  When `original` is not empty and the candidates are in non-decreasing order
of time, it is the list of the candidates, in order, whose time is strictly greater
than the time of the last point of `original`; this list is a suffix of the
candidates, and it is empty when no candidate is later than that point. -/
theorem findNewDataPoints_spec (original candidates : List DataPoint) :
    (original = [] → findNewDataPoints original candidates = candidates) ∧
    (∀ h : original ≠ [], candidates.Pairwise (fun p q => p.x ≤ q.x) →
      findNewDataPoints original candidates =
          candidates.filter (fun p => decide ((original.getLast h).x < p.x)) ∧
        findNewDataPoints original candidates <:+ candidates ∧
        ((∀ p ∈ candidates, p.x ≤ (original.getLast h).x) →
          findNewDataPoints original candidates = [])) := by
  constructor
  · rintro rfl
    rfl
  · intro h hc
    have hl : original.getLast? = some (original.getLast h) := List.getLast?_eq_getLast _ h
    have e : findNewDataPoints original candidates =
        findNewLoop (original.getLast h).x candidates := by
      unfold findNewDataPoints
      rw [hl]
    rw [e]
    refine ⟨findNewLoop_eq_filter _ _ hc, findNewLoop_suffix _ _, ?_⟩
    intro hall
    rw [findNewLoop_eq_filter _ _ hc, List.filter_eq_nil_iff]
    intro p hp
    have := hall p hp
    simp only [decide_eq_true_eq]
    omega

/-- Witness for C10: the last original point is at time 3; of the candidates at
times 2, 3, 4, 5 those at 4 and 5 are returned. -/
theorem findNewDataPoints_spec_witness :
    findNewDataPoints [⟨1, 0⟩, ⟨2, 0⟩, ⟨3, 0⟩] [⟨2, 1⟩, ⟨3, 1⟩, ⟨4, 1⟩, ⟨5, 1⟩] =
      [⟨4, 1⟩, ⟨5, 1⟩] ∧
    findNewDataPoints [] [⟨2, 1⟩, ⟨3, 1⟩] = [⟨2, 1⟩, ⟨3, 1⟩] ∧
    findNewDataPoints [⟨1, 0⟩, ⟨2, 0⟩, ⟨3, 0⟩] [⟨2, 1⟩, ⟨3, 1⟩, ⟨4, 1⟩, ⟨5, 1⟩] =
      ([⟨2, 1⟩, ⟨3, 1⟩, ⟨4, 1⟩, ⟨5, 1⟩] : List DataPoint).filter
        (fun p => decide ((3 : Int) < p.x)) :=
  ⟨by decide,
    (findNewDataPoints_spec [] [⟨2, 1⟩, ⟨3, 1⟩]).1 rfl,
    ((findNewDataPoints_spec [⟨1, 0⟩, ⟨2, 0⟩, ⟨3, 0⟩]
      [⟨2, 1⟩, ⟨3, 1⟩, ⟨4, 1⟩, ⟨5, 1⟩]).2 (by simp) (by simp)).1⟩

end utils

end pwa

namespace pwa.WebAPI

/-- The loop over the results that returns the first error: `find?` stops at the
first element with `error != NONE`. -/
theorem find_first_error (pre post : List FetchResult) (e : FetchResult)
    (hpre : ∀ r ∈ pre, r.error = FetchError.NONE) (he : e.error ≠ FetchError.NONE) :
    (pre ++ e :: post).find? (fun res => decide (res.error ≠ FetchError.NONE)) = some e := by
  induction pre with
  | nil => simp [he]
  | cons a t ih =>
    have ha : a.error = FetchError.NONE := hpre a (List.mem_cons_self _ _)
    rw [List.cons_append, List.find?_cons_of_neg _ (by simp [ha])]
    exact ih (fun r hr => hpre r (List.mem_cons_of_mem _ hr))

/-- C6. For a list of at least two results that contains a result with an error,
`combineFetchResults` returns the error of the first such result in input order
together with the default `dataLine` (no points, no metadata), whatever data the
other results carry and whatever the sorting function. -/
theorem combineFetchResults_first_error (sort : List FetchResult → List FetchResult)
    (pre post : List FetchResult) (e : FetchResult)
    (hlen : 2 ≤ (pre ++ e :: post).length)
    (hpre : ∀ r ∈ pre, r.error = FetchError.NONE) (he : e.error ≠ FetchError.NONE) :
    combineFetchResultsWith sort (pre ++ e :: post) =
      some { error := e.error, dataLine := {} } := by
  have hfind := find_first_error pre post e hpre he
  generalize pre ++ e :: post = results at hlen hfind
  match results, hlen with
  | a :: b :: t, _ =>
    unfold combineFetchResultsWith
    simp only [hfind]

/-- Witness for C6: `combine([{NONE, line_A}, {TOO_LARGE_TIME_SPAN}])` is
`{error: TOO_LARGE_TIME_SPAN}`. -/
theorem combineFetchResults_first_error_witness :
    combineFetchResults
      [{ error := FetchError.NONE,
         dataLine := { provider := Provider.FINGRID, dataType := DataType.EL_CONS,
                       timeSpan := { start := 0, end_ := 10 },
                       dataPoints := [⟨0, 1⟩, ⟨5, 2⟩], yUnit := "MW" } },
       { error := FetchError.TOO_LARGE_TIME_SPAN }] =
      some { error := FetchError.TOO_LARGE_TIME_SPAN } :=
  combineFetchResults_first_error stdSort
    [{ error := FetchError.NONE,
       dataLine := { provider := Provider.FINGRID, dataType := DataType.EL_CONS,
                     timeSpan := { start := 0, end_ := 10 },
                     dataPoints := [⟨0, 1⟩, ⟨5, 2⟩], yUnit := "MW" } }]
    [] { error := FetchError.TOO_LARGE_TIME_SPAN } (by decide) (by decide) (by decide)

/-- C7. `combineFetchResults` of a single result is that result, with the same error
and the same `dataLine`, whether it carries an error or not. -/
theorem combineFetchResults_singleton (sort : List FetchResult → List FetchResult)
    (r : FetchResult) :
    combineFetchResultsWith sort [r] = some r ∧ combineFetchResults [r] = some r :=
  ⟨rfl, rfl⟩

end pwa.WebAPI

namespace pwa.WebAPI

theorem sortedRel_iff (a b : FetchResult) : sortedRel a b ↔ frontX a ≤ frontX b := by
  unfold sortedRel sortComp
  omega

theorem sortedRel_total : IsTotal FetchResult sortedRel :=
  ⟨fun a b => by rw [sortedRel_iff, sortedRel_iff]; omega⟩

theorem sortedRel_trans : IsTrans FetchResult sortedRel :=
  ⟨fun a b c => by rw [sortedRel_iff, sortedRel_iff, sortedRel_iff]; omega⟩

/-- The sorting function used to run the model meets the contract of `std::sort`. -/
theorem stdSort_spec : StdSort stdSort :=
  fun l => ⟨List.perm_insertionSort sortedRel l,
    @List.sorted_insertionSort _ sortedRel _ sortedRel_total sortedRel_trans l⟩

/-- In a list in non-decreasing order no point is later than the last one. -/
theorem le_last_of_sorted (pts : List DataPoint) (back : DataPoint)
    (hs : pts.Pairwise (fun p q => p.x ≤ q.x)) (hl : pts.getLast? = some back) :
    ∀ p ∈ pts, p.x ≤ back.x := by
  obtain ⟨ys, rfl⟩ := List.getLast?_eq_some_iff.mp hl
  rw [List.pairwise_append] at hs
  intro p hp
  rcases List.mem_append.mp hp with hp | hp
  · exact hs.2.2 p hp back (by simp)
  · simp at hp; subst hp; exact le_refl _

/-- What the skipping loop leaves of a list in non-decreasing order is not earlier
than the bound. -/
theorem dropWhile_ge (b : Int) (cur : List DataPoint)
    (hs : cur.Pairwise (fun p q => p.x ≤ q.x)) :
    ∀ q ∈ cur.dropWhile (fun q => decide (q.x < b)), b ≤ q.x := by
  induction cur with
  | nil => simp
  | cons a t ih =>
    rw [List.pairwise_cons] at hs
    by_cases ha : a.x < b
    · rw [List.dropWhile_cons_of_pos (by simpa using ha)]
      exact ih hs.2
    · rw [List.dropWhile_cons_of_neg (by simpa using ha)]
      intro q hq
      rcases List.mem_cons.mp hq with rfl | hq
      · omega
      · have := hs.1 q hq
        omega

/-- One round of the merging loop keeps the running points in non-decreasing order. -/
theorem append_dropWhile_sorted (acc cur : List DataPoint) (back : DataPoint)
    (hacc : acc.Pairwise (fun p q => p.x ≤ q.x)) (hl : acc.getLast? = some back)
    (hcur : cur.Pairwise (fun p q => p.x ≤ q.x)) :
    (acc ++ cur.dropWhile (fun q => decide (q.x < back.x))).Pairwise
      (fun p q => p.x ≤ q.x) := by
  rw [List.pairwise_append]
  refine ⟨hacc, hcur.sublist (List.dropWhile_sublist _), ?_⟩
  intro p hp q hq
  have h1 := le_last_of_sorted acc back hacc hl p hp
  have h2 := dropWhile_ge back.x cur hcur q hq
  omega

/-- The merging loop, started with a non-empty running result, never reads `back()`
of an empty vector; it keeps the error and every field of the running `dataLine`
except the points, and keeps the points in non-decreasing order. -/
theorem combineLoop_sorted (rest : List FetchResult) :
    ∀ result : FetchResult, result.dataLine.dataPoints ≠ [] →
      result.dataLine.dataPoints.Pairwise (fun p q => p.x ≤ q.x) →
      (∀ r ∈ rest, r.dataLine.dataPoints.Pairwise (fun p q => p.x ≤ q.x)) →
      ∃ res, combineLoop result rest = some res ∧
        res.dataLine.dataPoints.Pairwise (fun p q => p.x ≤ q.x) ∧
        res.error = result.error ∧ res.dataLine.timeSpan = result.dataLine.timeSpan := by
  induction rest with
  | nil =>
    intro result _ hs _
    exact ⟨result, rfl, hs, rfl, rfl⟩
  | cons cur rest ih =>
    intro result hne hs hrest
    have hcur := hrest cur (List.mem_cons_self _ _)
    have hrest2 : ∀ r ∈ rest, r.dataLine.dataPoints.Pairwise (fun p q => p.x ≤ q.x) :=
      fun r hr => hrest r (List.mem_cons_of_mem _ hr)
    unfold combineLoop
    rcases hpts : cur.dataLine.dataPoints with _ | ⟨p, ps⟩
    · simp only
      exact ih result hne hs hrest2
    · simp only
      rcases hl : result.dataLine.dataPoints.getLast? with _ | back
      · exact absurd (List.getLast?_eq_none_iff.mp hl) hne
      · simp only
        rw [hpts] at hcur
        obtain ⟨res, h1, h2, h3, h4⟩ := ih
          { result with dataLine :=
            { result.dataLine with dataPoints :=
                result.dataLine.dataPoints ++
                  (p :: ps).dropWhile (fun q => decide (q.x < back.x)) } }
          (by simp [hne])
          (append_dropWhile_sorted _ _ back hs hl hcur) hrest2
        exact ⟨res, h1, h2, h3, h4⟩

/-- C8. For a list of error-free results, at least one of which has data points,
and each of whose points are in non-decreasing order of time, `combineFetchResults`
returns a result, and the points of that result are in non-decreasing order of
time.  This holds for every order of the results in the list and for every sorting
function that meets the contract of `std::sort`. -/
theorem combineFetchResults_points_sorted (sort : List FetchResult → List FetchResult)
    (hsort : StdSort sort) (results : List FetchResult)
    (hok : ∀ r ∈ results, r.error = FetchError.NONE)
    (hsome : ∃ r ∈ results, r.dataLine.dataPoints ≠ [])
    (hord : ∀ r ∈ results, r.dataLine.dataPoints.Pairwise (fun p q => p.x ≤ q.x)) :
    ∃ res, combineFetchResultsWith sort results = some res ∧
      res.dataLine.dataPoints.Pairwise (fun p q => p.x ≤ q.x) := by
  match results, hok, hsome, hord with
  | [], _, hsome, _ => simp at hsome
  | [r], _, _, hord => exact ⟨r, rfl, hord r (List.mem_singleton_self r)⟩
  | a :: b :: t, hok, hsome, hord =>
    have hfind : (a :: b :: t).find? (fun res => decide (res.error ≠ FetchError.NONE)) =
        none := by
      rw [List.find?_eq_none]
      intro r hr
      simp [hok r hr]
    unfold combineFetchResultsWith
    simp only [hfind]
    obtain ⟨hperm, _⟩ :=
      hsort ((a :: b :: t).filter (fun r => !decide (r.dataLine.dataPoints.length = 0)))
    rcases hs : sort ((a :: b :: t).filter
        (fun r => !decide (r.dataLine.dataPoints.length = 0))) with _ | ⟨first, rest⟩
    · exfalso
      rw [hs] at hperm
      have hnil := hperm.symm.eq_nil
      obtain ⟨r, hr, hne⟩ := hsome
      rw [List.filter_eq_nil_iff] at hnil
      exact hnil r hr (by simpa using hne)
    · simp only
      rw [hs] at hperm
      have hmem : ∀ r ∈ first :: rest, r ∈ a :: b :: t ∧ r.dataLine.dataPoints ≠ [] := by
        intro r hr
        have := (hperm.mem_iff).mp hr
        rw [List.mem_filter] at this
        exact ⟨this.1, by simpa using this.2⟩
      obtain ⟨res, h1, h2, _, _⟩ := combineLoop_sorted rest
        { error := FetchError.NONE, dataLine := first.dataLine }
        (hmem first (List.mem_cons_self _ _)).2
        (hord first (hmem first (List.mem_cons_self _ _)).1)
        (fun r hr => hord r (hmem r (List.mem_cons_of_mem _ hr)).1)
      exact ⟨res, h1, h2⟩

end pwa.WebAPI

namespace pwa.WebAPI

/-- Witness for C8: three error-free results given out of order, one without points. -/
theorem combineFetchResults_points_sorted_witness :
    (combineFetchResults
      [{ error := FetchError.NONE, dataLine := { dataPoints := [⟨5, 1⟩, ⟨6, 1⟩, ⟨7, 1⟩] } },
       { error := FetchError.NONE },
       { error := FetchError.NONE, dataLine := { dataPoints := [⟨1, 1⟩, ⟨2, 1⟩] } }]).map
        (fun r => r.dataLine.dataPoints) =
      some [⟨1, 1⟩, ⟨2, 1⟩, ⟨5, 1⟩, ⟨6, 1⟩, ⟨7, 1⟩] ∧
    ∃ res, combineFetchResultsWith stdSort
      [{ error := FetchError.NONE, dataLine := { dataPoints := [⟨5, 1⟩, ⟨6, 1⟩, ⟨7, 1⟩] } },
       { error := FetchError.NONE },
       { error := FetchError.NONE, dataLine := { dataPoints := [⟨1, 1⟩, ⟨2, 1⟩] } }] =
        some res ∧
      res.dataLine.dataPoints.Pairwise (fun p q => p.x ≤ q.x) :=
  ⟨by decide,
    combineFetchResults_points_sorted stdSort stdSort_spec
      [{ error := FetchError.NONE, dataLine := { dataPoints := [⟨5, 1⟩, ⟨6, 1⟩, ⟨7, 1⟩] } },
       { error := FetchError.NONE },
       { error := FetchError.NONE, dataLine := { dataPoints := [⟨1, 1⟩, ⟨2, 1⟩] } }]
      (by decide) (by decide) (by decide)⟩

/-- C4 (the code at the failing input). Two error-free results with points at the
times 0, 1, 2 and 2, 3, 4: the skipping loop passes the points with `x < 2` only, so
the point of the second result at time 2 is appended and the combined series has six
points, the time 2 twice. -/
theorem combineFetchResults_keeps_equal_timestamp :
    (combineFetchResults
      [{ error := FetchError.NONE, dataLine := { dataPoints := [⟨0, 0⟩, ⟨1, 0⟩, ⟨2, 0⟩] } },
       { error := FetchError.NONE,
         dataLine := { dataPoints := [⟨2, 0⟩, ⟨3, 0⟩, ⟨4, 0⟩] } }]).map
        (fun r => r.dataLine.dataPoints.map (fun p => p.x)) =
      some [0, 1, 2, 2, 3, 4] := by
  decide

/-- C5 (the code at the failing input). Two error-free results without points: both
are erased, and `results.front()` is read from an empty vector, which the model
reports as `none`. -/
theorem combineFetchResults_all_empty_undefined :
    combineFetchResults
      [{ error := FetchError.NONE, dataLine := { dataPoints := [] } },
       { error := FetchError.NONE, dataLine := { dataPoints := [] } }] = none := by
  decide

/-- C9 (the code at the failing input). The three partial results of a ten-day
request split with a limit of four days, each with points inside its own time span:
the combined `dataLine` keeps the time span of the first partial result, days 0 to 4,
while its last point lies on day 9. -/
theorem combineFetchResults_timeSpan_of_first :
    (combineFetchResults
      [{ error := FetchError.NONE,
         dataLine := { timeSpan := { start := 0, end_ := 345600000 },
                       dataPoints := [⟨86400000, 1⟩, ⟨259200000, 1⟩] } },
       { error := FetchError.NONE,
         dataLine := { timeSpan := { start := 345600000, end_ := 691200000 },
                       dataPoints := [⟨432000000, 1⟩, ⟨604800000, 1⟩] } },
       { error := FetchError.NONE,
         dataLine := { timeSpan := { start := 691200000, end_ := 864000000 },
                       dataPoints := [⟨777600000, 1⟩] } }]).map
        (fun r => (r.dataLine.timeSpan, r.dataLine.dataPoints.map (fun p => p.x))) =
      some ({ start := 0, end_ := 345600000 },
        [86400000, 259200000, 432000000, 604800000, 777600000]) := by
  decide

end pwa.WebAPI

namespace pwa.WebAPI

theorem UMap.get_set_same {V : Type} (m : UMap V) (k : Int) (v dflt : V) :
    (m.set k v).get k dflt = v := by
  unfold UMap.get UMap.set
  by_cases h : k ∈ m.keys <;> simp [h]

/-- What one completion does to the counter and the buffer of its batch. -/
theorem subFetchDone_spec (st : State) (id : Int) (i : Nat) (r : FetchResult)
    (hi : i < (st.parallelRequestResults_.get id []).length) :
    ∃ st' cb, subFetchDone st id i r = some (st', cb) ∧
      (st.parallelRequestCounters_.get id 0 - 1 ≠ 0 →
        cb = none ∧
        st'.parallelRequestCounters_.get id 0 = st.parallelRequestCounters_.get id 0 - 1 ∧
        st'.parallelRequestResults_.get id [] =
          (st.parallelRequestResults_.get id []).set i r) ∧
      (st.parallelRequestCounters_.get id 0 - 1 = 0 →
        cb = some ((st.parallelRequestResults_.get id []).set i r)) := by
  unfold subFetchDone
  simp only [hi, if_true]
  by_cases hc : st.parallelRequestCounters_.get id 0 - 1 = 0
  · rw [if_pos hc]
    exact ⟨_, _, rfl, fun h => absurd hc h, fun _ => rfl⟩
  · rw [if_neg hc]
    refine ⟨_, _, rfl, fun _ => ⟨rfl, ?_, ?_⟩, fun h => absurd h hc⟩
    · exact UMap.get_set_same _ _ _ _
    · exact UMap.get_set_same _ _ _ _

/-- While fewer sub-fetches have completed than the counter says, `callback` is not
invoked. -/
theorem runCompletions_less (id : Int) (res : Nat → FetchResult) :
    ∀ (l : List Nat) (st : State),
      (∀ i ∈ l, i < (st.parallelRequestResults_.get id []).length) →
      (l.length : Int) < st.parallelRequestCounters_.get id 0 →
      ∃ st', runCompletions id st (l.map (fun i => (i, res i))) = some (st', []) := by
  intro l
  induction l with
  | nil => intro st _ _; exact ⟨st, rfl⟩
  | cons i rest ih =>
    intro st hi hlen
    obtain ⟨st1, cb, h1, h2, _⟩ :=
      subFetchDone_spec st id i (res i) (hi i (List.mem_cons_self _ _))
    simp only [List.length_cons, Nat.cast_add, Nat.cast_one] at hlen
    obtain ⟨hcb, hc1, hb1⟩ := h2 (by omega)
    obtain ⟨st2, h3⟩ := ih st1
      (fun j hj => by rw [hb1, List.length_set]; exact hi j (List.mem_cons_of_mem _ hj))
      (by rw [hc1]; omega)
    refine ⟨st2, ?_⟩
    simp only [List.map_cons, runCompletions, h1, h3, hcb]
    rfl

/-- When as many sub-fetches complete as the counter says, `callback` is invoked
once, at the last completion, with the buffer filled by all of them. -/
theorem runCompletions_exact (id : Int) (res : Nat → FetchResult) :
    ∀ (l : List Nat) (st : State),
      (∀ i ∈ l, i < (st.parallelRequestResults_.get id []).length) →
      (l.length : Int) = st.parallelRequestCounters_.get id 0 → l ≠ [] →
      ∃ st', runCompletions id st (l.map (fun i => (i, res i))) =
        some (st', [l.foldl (fun b i => b.set i (res i))
          (st.parallelRequestResults_.get id [])]) := by
  intro l
  induction l with
  | nil => intro st _ _ h; exact absurd rfl h
  | cons i rest ih =>
    intro st hi hlen _
    obtain ⟨st1, cb, h1, h2, h3⟩ :=
      subFetchDone_spec st id i (res i) (hi i (List.mem_cons_self _ _))
    simp only [List.length_cons, Nat.cast_add, Nat.cast_one] at hlen
    rcases rest with _ | ⟨j, rest'⟩
    · have hcb := h3 (by simp at hlen; omega)
      refine ⟨st1, ?_⟩
      simp only [List.map_cons, List.map_nil, runCompletions, h1, hcb]
      rfl
    · simp only [List.length_cons, Nat.cast_add, Nat.cast_one] at hlen
      obtain ⟨hcb, hc1, hb1⟩ := h2 (by omega)
      obtain ⟨st2, h4⟩ := ih st1
        (fun k hk => by rw [hb1, List.length_set]; exact hi k (List.mem_cons_of_mem _ hk))
        (by rw [hc1]; simp only [List.length_cons, Nat.cast_add, Nat.cast_one]; omega)
        (by simp)
      refine ⟨st2, ?_⟩
      rw [List.map_cons, runCompletions]
      simp only [h1, h4, hcb, hb1]
      rfl

/-- The buffer after the completions `l`: the slots named in `l` hold the results
delivered for them, the other slots are as before. -/
theorem foldl_set_getElem? (res : Nat → FetchResult) :
    ∀ (l : List Nat) (buf : List FetchResult) (j : Nat),
      (l.foldl (fun b i => b.set i (res i)) buf)[j]? =
        if j ∈ l ∧ j < buf.length then some (res j) else buf[j]? := by
  intro l
  induction l with
  | nil => intro buf j; simp
  | cons i rest ih =>
    intro buf j
    rw [List.foldl_cons, ih, List.length_set]
    by_cases h1 : j ∈ rest ∧ j < buf.length
    · rw [if_pos h1, if_pos ⟨List.mem_cons_of_mem _ h1.1, h1.2⟩]
    · rw [if_neg h1]
      by_cases h2 : i = j
      · subst h2
        by_cases h3 : i < buf.length
        · rw [if_pos ⟨List.mem_cons_self _ _, h3⟩]
          simp [h3]
        · rw [if_neg (fun h => h3 h.2)]
          simp [List.getElem?_set, h3]
          omega
      · have h4 : ¬ (j ∈ i :: rest ∧ j < buf.length) := by
          rintro ⟨hm, hl⟩
          rcases List.mem_cons.mp hm with rfl | hm
          · exact h2 rfl
          · exact h1 ⟨hm, hl⟩
        rw [if_neg h4]
        simp [List.getElem?_set, h2]

/-- After every sub-fetch of a batch has completed once, in any order, the buffer
holds the result of `requests[i]` at index `i`. -/
theorem foldl_set_perm (res : Nat → FetchResult) (n : Nat) (order : List Nat)
    (hperm : order.Perm (List.range n)) :
    order.foldl (fun b i => b.set i (res i)) (List.replicate n {}) =
      (List.range n).map res := by
  apply List.ext_getElem?
  intro j
  rw [foldl_set_getElem?, List.length_replicate]
  by_cases hj : j < n
  · have hm : j ∈ order := hperm.mem_iff.mpr (List.mem_range.mpr hj)
    rw [if_pos ⟨hm, hj⟩]
    simp [hj]
  · rw [if_neg (fun h => hj h.2)]
    have h1 : (List.replicate n ({} : FetchResult))[j]? = none :=
      List.getElem?_eq_none (by rw [List.length_replicate]; omega)
    have h2 : ((List.range n).map res)[j]? = none :=
      List.getElem?_eq_none (by rw [List.length_map, List.length_range]; omega)
    rw [h1, h2]

theorem fetchAllBegin_counter (st : State) (requests : List FetchRequest) :
    (fetchAllBegin st requests).2.parallelRequestCounters_.get
      (fetchAllBegin st requests).1 0 = requests.length :=
  UMap.get_set_same _ _ _ _

theorem fetchAllBegin_buffer (st : State) (requests : List FetchRequest) :
    (fetchAllBegin st requests).2.parallelRequestResults_.get
      (fetchAllBegin st requests).1 [] = List.replicate requests.length {} :=
  UMap.get_set_same _ _ _ _

/-- The run of a non-empty batch whose sub-fetches complete once each, in any order:
one invocation of `callback`, with the results in the order of the requests. -/
theorem fetchAll_run (st : State) (requests : List FetchRequest) (hne : requests ≠ [])
    (res : Nat → FetchResult) (order : List Nat)
    (hperm : order.Perm (List.range requests.length)) :
    ∃ st', fetchAll st requests (order.map (fun i => (i, res i))) =
      some (st', [(List.range requests.length).map res]) := by
  have hlen : order.length = requests.length := by
    rw [hperm.length_eq, List.length_range]
  obtain ⟨st', h⟩ := runCompletions_exact (fetchAllBegin st requests).1 res order
    (fetchAllBegin st requests).2
    (fun i hi => by
      rw [fetchAllBegin_buffer, List.length_replicate]
      exact List.mem_range.mp (hperm.mem_iff.mp hi))
    (by rw [fetchAllBegin_counter, hlen])
    (by
      intro h0
      rw [h0] at hlen
      exact hne (List.length_eq_zero.mp hlen.symm))
  refine ⟨st', ?_⟩
  unfold fetchAll
  rw [h, fetchAllBegin_buffer, foldl_set_perm res _ order hperm]

/-- Before the last sub-fetch of a batch has completed, `callback` has not been
invoked. -/
theorem fetchAll_run_before_last (st : State) (requests : List FetchRequest)
    (res : Nat → FetchResult) (order : List Nat)
    (hperm : order.Perm (List.range requests.length)) (k : Nat)
    (hk : k < requests.length) :
    ∃ st', fetchAll st requests ((order.take k).map (fun i => (i, res i))) =
      some (st', []) := by
  have hlen : order.length = requests.length := by
    rw [hperm.length_eq, List.length_range]
  unfold fetchAll
  apply runCompletions_less
  · intro i hi
    rw [fetchAllBegin_buffer, List.length_replicate]
    exact List.mem_range.mp (hperm.mem_iff.mp (List.mem_of_mem_take hi))
  · rw [fetchAllBegin_counter, List.length_take]
    omega

/-- C11. For a list of `N ≥ 1` requests and every order in which the sub-fetches
complete (each once), `fetchAll` gives its callback a vector of length `N` whose
element `i` is the result delivered for `requests[i]`. -/
theorem fetchAll_results_in_request_order (st : State) (requests : List FetchRequest)
    (hne : requests ≠ []) (res : Nat → FetchResult) (order : List Nat)
    (hperm : order.Perm (List.range requests.length)) :
    ∃ st' v, fetchAll st requests (order.map (fun i => (i, res i))) = some (st', [v]) ∧
      v.length = requests.length ∧ ∀ i, i < requests.length → v[i]? = some (res i) := by
  obtain ⟨st', h⟩ := fetchAll_run st requests hne res order hperm
  refine ⟨st', _, h, by simp, ?_⟩
  intro i hi
  simp [hi]

/-- Witness for C11: five requests completing in the order 2, 4, 0, 3, 1, of which
only request number 3 (index 2) fails: the vector has five elements and exactly one
erroring element, at index 2. -/
theorem fetchAll_results_in_request_order_witness :
    (fetchAll State.initial [{}, {}, {}, {}, {}]
      ([2, 4, 0, 3, 1].map (fun i =>
        (i, if i = 2 then ({ error := FetchError.CONNECTION_FAILED } : FetchResult)
            else { error := FetchError.NONE })))).map
        (fun r => r.2.map (fun v => v.map (fun x => x.error))) =
      some [[FetchError.NONE, FetchError.NONE, FetchError.CONNECTION_FAILED,
        FetchError.NONE, FetchError.NONE]] ∧
    ∃ st' v, fetchAll State.initial [{}, {}, {}, {}, {}]
      ([2, 4, 0, 3, 1].map (fun i =>
        (i, if i = 2 then ({ error := FetchError.CONNECTION_FAILED } : FetchResult)
            else { error := FetchError.NONE }))) = some (st', [v]) ∧
      v.length = 5 ∧
      ∀ i, i < 5 → v[i]? = some (if i = 2 then { error := FetchError.CONNECTION_FAILED }
        else { error := FetchError.NONE }) :=
  ⟨by decide,
    fetchAll_results_in_request_order State.initial [{}, {}, {}, {}, {}] (by decide)
      (fun i => if i = 2 then { error := FetchError.CONNECTION_FAILED }
        else { error := FetchError.NONE })
      [2, 4, 0, 3, 1] (by decide)⟩

/-- C12 (the code at the failing input). `fetchAll` with an empty list of requests:
the counter of the batch is set to 0, no sub-fetch exists whose completion could
decrement it to 0, and `callback` is never invoked; the id of the batch is not
returned to the free ids. -/
theorem fetchAll_empty_never_calls_back (st : State) :
    (fetchAll st [] []).map (fun r => r.2) = some [] ∧
    (fetchAll st [] []).map (fun r => r.1.freeParallelRequestIds_) =
      some (getParallelRequestId st).2.freeParallelRequestIds_ :=
  ⟨rfl, rfl⟩

end pwa.WebAPI

namespace pwa.WebAPI

/-- C13. For a valid request (known provider, data type not `UNSET`, `start ≤ end`)
whose data type is not implemented by its provider, `fetch` calls the callback once
before it returns, with the error `TYPE_NOT_IMPL_BY_PROVIDER` and the default
`dataLine`, and neither sends a network request nor makes sub-requests; that result
is what the callback of the fetch receives, whatever the network does. -/
theorem fetch_type_not_implemented (request : FetchRequest) (provider : IProvider)
    (hp : PROVIDERS request.provider = some provider)
    (hdt : request.dataType ≠ DataType.UNSET)
    (hspan : request.timeSpan.start ≤ request.timeSpan.end_)
    (hni : provider.implementsDataType request.dataType = false) :
    fetch request =
        some (FetchStep.callback { error := FetchError.TYPE_NOT_IMPL_BY_PROVIDER }) ∧
      ∀ sort net fuel, fetchRun sort net (fuel + 1) request =
        some { error := FetchError.TYPE_NOT_IMPL_BY_PROVIDER } := by
  have h : fetch request =
      some (FetchStep.callback { error := FetchError.TYPE_NOT_IMPL_BY_PROVIDER }) := by
    unfold fetch
    simp only [hp]
    rw [if_neg (by simp [hdt, hspan]), if_pos hni]
  refine ⟨h, fun sort net fuel => ?_⟩
  unfold fetchRun
  simp only [h]

/-- Witness for C13: Fingrid does not implement `TEMP`. -/
theorem fetch_type_not_implemented_witness :
    fetch { provider := Provider.FINGRID, dataType := DataType.TEMP,
            timeSpan := { start := 0, end_ := 864000000 }, location := "Helsinki" } =
        some (FetchStep.callback { error := FetchError.TYPE_NOT_IMPL_BY_PROVIDER }) ∧
      ∀ sort net fuel, fetchRun sort net (fuel + 1)
        { provider := Provider.FINGRID, dataType := DataType.TEMP,
          timeSpan := { start := 0, end_ := 864000000 }, location := "Helsinki" } =
        some { error := FetchError.TYPE_NOT_IMPL_BY_PROVIDER } :=
  fetch_type_not_implemented
    { provider := Provider.FINGRID, dataType := DataType.TEMP,
      timeSpan := { start := 0, end_ := 864000000 }, location := "Helsinki" }
    Fingrid.provider rfl (by decide) (by decide) (by decide)

/-- The merging loop does not change the error of the running result. -/
theorem combineLoop_error (rest : List FetchResult) :
    ∀ result res : FetchResult, combineLoop result rest = some res →
      res.error = result.error := by
  induction rest with
  | nil =>
    intro result res h
    simp only [combineLoop, Option.some.injEq] at h
    rw [← h]
  | cons cur rest ih =>
    intro result res h
    unfold combineLoop at h
    repeat' split at h
    all_goals first
      | exact absurd h (Option.noConfusion)
      | (have e := ih _ res h; exact e)

/-- When no combined result has the error `UNSET`, the combination has not either. -/
theorem combine_ne_unset (sort : List FetchResult → List FetchResult)
    (results : List FetchResult) (r : FetchResult)
    (hall : ∀ x ∈ results, x.error ≠ FetchError.UNSET)
    (h : combineFetchResultsWith sort results = some r) :
    r.error ≠ FetchError.UNSET := by
  unfold combineFetchResultsWith at h
  split at h
  · exact absurd h (by simp)
  · simp only [Option.some.injEq] at h
    rw [← h]
    exact hall _ (List.mem_singleton_self _)
  · split at h
    · rename_i res hfind
      simp only [Option.some.injEq] at h
      rw [← h]
      exact hall res (List.mem_of_find?_eq_some hfind)
    · split at h
      · exact absurd h (by simp)
      · rw [combineLoop_error _ _ _ h]
        simp

theorem collect_mem {α : Type} :
    ∀ (l : List (Option α)) (results : List α), collect l = some results →
      ∀ x ∈ results, some x ∈ l := by
  intro l
  induction l with
  | nil =>
    intro results h x hx
    simp only [collect, Option.some.injEq] at h
    rw [← h] at hx
    exact absurd hx (List.not_mem_nil _)
  | cons a rest ih =>
    intro results h x hx
    cases a with
    | none => simp [collect] at h
    | some a =>
      unfold collect at h
      split at h
      · exact absurd h (by simp)
      · rename_i l hl
        simp only [Option.some.injEq] at h
        rw [← h] at hx
        rcases List.mem_cons.mp hx with rfl | hx
        · exact List.mem_cons_self _ _
        · exact List.mem_cons_of_mem _ (ih l hl x hx)

/-- The direct path never delivers `UNSET`: a parsed response has the error `NONE`,
a classified failure its class, an unclassified failure `CONNECTION_FAILED`. -/
theorem onFinished_ne_unset (request : FetchRequest) (qReply : NetworkReply)
    (dataPoints : List DataPoint) (r : FetchResult)
    (h : onFinished request qReply dataPoints = some r) :
    r.error ≠ FetchError.UNSET := by
  unfold onFinished at h
  split at h
  · exact absurd h (by simp)
  · rename_i provider hp
    split at h
    · have hnone : r.error = FetchError.NONE := by
        rcases hprov : request.provider with _ | _ | _
        · rw [hprov] at hp; simp [PROVIDERS] at hp
        · rw [hprov] at hp
          simp only [PROVIDERS, Option.some.injEq] at hp
          rw [← hp] at h
          simp only [Fingrid.provider, Fingrid.parseResponse, Option.some.injEq] at h
          rw [← h]
        · rw [hprov] at hp
          simp only [PROVIDERS, Option.some.injEq] at hp
          rw [← hp] at h
          simp only [FMI.provider, FMI.parseResponse] at h
          split at h
          · exact absurd h (by simp)
          · simp only [Option.some.injEq] at h
            rw [← h]
      rw [hnone]
      decide
    · split at h
      · rename_i hne
        simp only [Option.some.injEq] at h
        rw [← h]
        exact hne
      · simp only [Option.some.injEq] at h
        rw [← h]
        decide

/-- No result that `fetch` gives to its callback has the error `UNSET`. -/
theorem fetchRun_ne_unset (sort : List FetchResult → List FetchResult)
    (net : FetchRequest → NetworkReply × List DataPoint) :
    ∀ (fuel : Nat) (request : FetchRequest) (r : FetchResult),
      fetchRun sort net fuel request = some r → r.error ≠ FetchError.UNSET := by
  intro fuel
  induction fuel with
  | zero => intro request r h; simp [fetchRun] at h
  | succ fuel ih =>
    intro request r h
    unfold fetchRun at h
    split at h
    · exact absurd h (by simp)
    · simp only [Option.some.injEq] at h
      rename_i result hf
      rw [← h]
      unfold fetch at hf
      split at hf
      · exact absurd hf (by simp)
      · split at hf
        · exact absurd hf (by simp)
        · split at hf
          · simp only [Option.some.injEq, FetchStep.callback.injEq] at hf
            rw [← hf]
            decide
          · split at hf
            · split at hf <;> simp at hf
            · simp at hf
    · exact onFinished_ne_unset _ _ _ _ h
    · split at h
      · exact absurd h (by simp)
      · rename_i results hc
        refine combine_ne_unset sort results r ?_ h
        intro x hx
        have hm := collect_mem _ _ hc x hx
        rw [List.mem_map] at hm
        obtain ⟨q, _, hq⟩ := hm
        exact ih q x hq

/-- C14. No result that `fetch` gives to a callback has the error `UNSET`, for every
request, every reply of the network to each network call and every depth of
splitting; and no element of a vector that `fetchAll` gives to its callback has the
error `UNSET`, when the sub-fetches complete once each, in any order, with results
delivered by `fetch`. -/
theorem no_unset_delivered :
    (∀ (sort : List FetchResult → List FetchResult)
        (net : FetchRequest → NetworkReply × List DataPoint) (fuel : Nat)
        (request : FetchRequest) (r : FetchResult),
      fetchRun sort net fuel request = some r → r.error ≠ FetchError.UNSET) ∧
    (∀ (sort : List FetchResult → List FetchResult)
        (net : FetchRequest → NetworkReply × List DataPoint)
        (st : State) (requests : List FetchRequest) (res : Nat → FetchResult)
        (order : List Nat),
      order.Perm (List.range requests.length) →
      (∀ i (hi : i < requests.length),
        ∃ fuel, fetchRun sort net fuel requests[i] = some (res i)) →
      ∀ st' vs, fetchAll st requests (order.map (fun i => (i, res i))) = some (st', vs) →
        ∀ v ∈ vs, ∀ x ∈ v, x.error ≠ FetchError.UNSET) := by
  refine ⟨fun sort net fuel request r h => fetchRun_ne_unset sort net fuel request r h, ?_⟩
  intro sort net st requests res order hperm hres st' vs hrun v hv x hx
  by_cases hne : requests = []
  · subst hne
    have ho : order = [] := List.Perm.eq_nil hperm
    subst ho
    simp only [List.map_nil, fetchAll, runCompletions, Option.some.injEq, Prod.mk.injEq] at hrun
    rw [← hrun.2] at hv
    exact absurd hv (List.not_mem_nil _)
  · obtain ⟨st2, h⟩ := fetchAll_run st requests hne res order hperm
    rw [h] at hrun
    simp only [Option.some.injEq, Prod.mk.injEq] at hrun
    rw [← hrun.2, List.mem_singleton] at hv
    rw [hv, List.mem_map] at hx
    obtain ⟨i, hi, rfl⟩ := hx
    obtain ⟨fuel, hf⟩ := hres i (List.mem_range.mp hi)
    exact fetchRun_ne_unset sort net fuel _ _ hf

/-- Witness for C14: a Fingrid request whose network call fails with status 500, a
failure that `Fingrid::parseError` does not classify. -/
theorem no_unset_delivered_witness :
    fetchRun stdSort (fun _ => ({ noError := false, statusCode := some 500, body := "" }, []))
        1 { provider := Provider.FINGRID, dataType := DataType.EL_CONS,
            timeSpan := { start := 0, end_ := 864000000 } } =
      some { error := FetchError.CONNECTION_FAILED } ∧
    ({ error := FetchError.CONNECTION_FAILED } : FetchResult).error ≠ FetchError.UNSET :=
  ⟨by decide,
    no_unset_delivered.1 stdSort
      (fun _ => ({ noError := false, statusCode := some 500, body := "" }, [])) 1
      { provider := Provider.FINGRID, dataType := DataType.EL_CONS,
        timeSpan := { start := 0, end_ := 864000000 } }
      { error := FetchError.CONNECTION_FAILED } (by decide)⟩

/-- Every provider allows a positive number of days per request. -/
theorem safeDays_pos (request : FetchRequest) (provider : IProvider)
    (hp : PROVIDERS request.provider = some provider) :
    0 < provider.getSupportedDaysPerRequest request := by
  rcases hprov : request.provider with _ | _ | _
  · rw [hprov] at hp; simp [PROVIDERS] at hp
  · rw [hprov] at hp
    simp only [PROVIDERS, Option.some.injEq] at hp
    rw [← hp]
    simp only [Fingrid.provider, Fingrid.getSupportedDaysPerRequest]
    split <;> decide
  · rw [hprov] at hp
    simp only [PROVIDERS, Option.some.injEq] at hp
    rw [← hp]
    simp only [FMI.provider, FMI.getSupportedDaysPerRequest]
    split <;> decide

/-- C15 (counterexample). An FMI `TEMP` request (limit 7 days) from day 0, 00:00, to
the last millisecond of day 7 is almost 8 days long, but its whole-day count
`daysTo` is 7, so `fetch` sends it in one network call.  A Fingrid request for
`TEMP` over 2000 days (limit 1460 days) is valid, but it is answered with
`TYPE_NOT_IMPL_BY_PROVIDER` and not split. -/
theorem fetch_longer_span_not_split :
    (fetch { provider := Provider.FMI, dataType := DataType.TEMP,
             timeSpan := { start := 0, end_ := 691199999 }, location := "Helsinki" } =
        some (FetchStep.get
          { provider := Provider.FMI, dataType := DataType.TEMP,
            timeSpan := { start := 0, end_ := 691199999 }, location := "Helsinki" }) ∧
      FMI.getSupportedDaysPerRequest
          { provider := Provider.FMI, dataType := DataType.TEMP,
            timeSpan := { start := 0, end_ := 691199999 }, location := "Helsinki" } = 7 ∧
      7 * MSECS_PER_DAY < 691199999 - 0) ∧
    (fetch { provider := Provider.FINGRID, dataType := DataType.TEMP,
             timeSpan := { start := 0, end_ := 172800000000 } } =
        some (FetchStep.callback { error := FetchError.TYPE_NOT_IMPL_BY_PROVIDER }) ∧
      Fingrid.getSupportedDaysPerRequest
          { provider := Provider.FINGRID, dataType := DataType.TEMP,
            timeSpan := { start := 0, end_ := 172800000000 } } = 1460 ∧
      1460 * MSECS_PER_DAY < 172800000000 - 0) := by
  decide

/-- C15 (amended). For a valid request whose data type is implemented by its
provider, with `safeDays = provider.getSupportedDaysPerRequest(request)`: when the
whole-day count `start.daysTo(end)` is greater than `safeDays`, `fetch` takes the
split path with the sub-requests of `splitFetchRequest(request, safeDays)`;
otherwise it sends the request in one network call.  So a network call sent by
`fetch` is for a request with `daysTo` at most `safeDays`, which is less than
`safeDays + 1` days long. -/
theorem fetch_split_by_whole_days (request : FetchRequest) (provider : IProvider)
    (hp : PROVIDERS request.provider = some provider)
    (hdt : request.dataType ≠ DataType.UNSET)
    (hspan : request.timeSpan.start ≤ request.timeSpan.end_)
    (himpl : provider.implementsDataType request.dataType = true) :
    (daysTo request.timeSpan.start request.timeSpan.end_ >
        provider.getSupportedDaysPerRequest request →
      ∃ hd, fetch request = some (FetchStep.fetchAll
        (splitFetchRequest request (provider.getSupportedDaysPerRequest request) hd))) ∧
    (¬ daysTo request.timeSpan.start request.timeSpan.end_ >
        provider.getSupportedDaysPerRequest request →
      fetch request = some (FetchStep.get request)) ∧
    (∀ q, fetch request = some (FetchStep.get q) →
      q = request ∧
      daysTo q.timeSpan.start q.timeSpan.end_ ≤ provider.getSupportedDaysPerRequest request ∧
      q.timeSpan.end_ - q.timeSpan.start <
        (provider.getSupportedDaysPerRequest request + 1) * MSECS_PER_DAY) := by
  have hpos := safeDays_pos request provider hp
  have hni : ¬ provider.implementsDataType request.dataType = false := by simp [himpl]
  have hf : fetch request =
      if daysTo request.timeSpan.start request.timeSpan.end_ >
          provider.getSupportedDaysPerRequest request then
        some (FetchStep.fetchAll
          (splitFetchRequest request (provider.getSupportedDaysPerRequest request) hpos))
      else some (FetchStep.get request) := by
    unfold fetch
    simp only [hp]
    rw [if_neg (by simp [hdt, hspan]), if_neg hni]
    split <;> rfl
  refine ⟨fun h => ⟨hpos, by rw [hf, if_pos h]⟩, fun h => by rw [hf, if_neg h], ?_⟩
  intro q hq
  rw [hf] at hq
  split at hq
  · simp at hq
  · rename_i hle
    simp only [Option.some.injEq, FetchStep.get.injEq] at hq
    subst hq
    refine ⟨rfl, not_lt.mp hle, ?_⟩
    have h1 := not_lt.mp hle
    generalize provider.getSupportedDaysPerRequest request = safe at h1 hpos
    unfold daysTo MSECS_PER_DAY at h1
    unfold MSECS_PER_DAY
    omega

/-- Witness for C15 (amended): an FMI `TEMP` request over ten days is split, one over
seven days and 23 hours is not. -/
theorem fetch_split_by_whole_days_witness :
    (∃ hd, fetch { provider := Provider.FMI, dataType := DataType.TEMP,
                   timeSpan := { start := 0, end_ := 864000000 }, location := "Helsinki" } =
        some (FetchStep.fetchAll (splitFetchRequest
          { provider := Provider.FMI, dataType := DataType.TEMP,
            timeSpan := { start := 0, end_ := 864000000 }, location := "Helsinki" }
          (FMI.provider.getSupportedDaysPerRequest
            { provider := Provider.FMI, dataType := DataType.TEMP,
              timeSpan := { start := 0, end_ := 864000000 }, location := "Helsinki" })
          hd))) ∧
    fetch { provider := Provider.FMI, dataType := DataType.TEMP,
            timeSpan := { start := 0, end_ := 687600000 }, location := "Helsinki" } =
      some (FetchStep.get
        { provider := Provider.FMI, dataType := DataType.TEMP,
          timeSpan := { start := 0, end_ := 687600000 }, location := "Helsinki" }) :=
  ⟨(fetch_split_by_whole_days
      { provider := Provider.FMI, dataType := DataType.TEMP,
        timeSpan := { start := 0, end_ := 864000000 }, location := "Helsinki" }
      FMI.provider rfl (by decide) (by decide) (by decide)).1 (by decide),
    (fetch_split_by_whole_days
      { provider := Provider.FMI, dataType := DataType.TEMP,
        timeSpan := { start := 0, end_ := 687600000 }, location := "Helsinki" }
      FMI.provider rfl (by decide) (by decide) (by decide)).2.1 (by decide)⟩

/-- C16. When the network call of a Fingrid request fails, the callback of `fetch`
receives `TYPE_NOT_IMPL_BY_PROVIDER` for the status 404, `TOO_LARGE_TIME_SPAN` for
416, `SERVER_MAINTENANCE` for 503, and `CONNECTION_FAILED` for every other status
code and for a missing status code. -/
theorem fingrid_transport_failure (request : FetchRequest)
    (hp : request.provider = Provider.FINGRID) (qReply : NetworkReply)
    (dataPoints : List DataPoint) (herr : qReply.noError = false) :
    (qReply.statusCode = some 404 → onFinished request qReply dataPoints =
      some { error := FetchError.TYPE_NOT_IMPL_BY_PROVIDER }) ∧
    (qReply.statusCode = some 416 → onFinished request qReply dataPoints =
      some { error := FetchError.TOO_LARGE_TIME_SPAN }) ∧
    (qReply.statusCode = some 503 → onFinished request qReply dataPoints =
      some { error := FetchError.SERVER_MAINTENANCE }) ∧
    (qReply.statusCode ≠ some 404 → qReply.statusCode ≠ some 416 →
      qReply.statusCode ≠ some 503 → onFinished request qReply dataPoints =
      some { error := FetchError.CONNECTION_FAILED }) := by
  have hf : onFinished request qReply dataPoints =
      if Fingrid.parseError qReply ≠ FetchError.UNSET then
        some { error := Fingrid.parseError qReply }
      else some { error := FetchError.CONNECTION_FAILED } := by
    unfold onFinished
    simp only [hp, PROVIDERS, herr, Fingrid.provider]
    rfl
  refine ⟨fun h => ?_, fun h => ?_, fun h => ?_, fun h1 h2 h3 => ?_⟩
  · rw [hf]; simp [Fingrid.parseError, h]
  · rw [hf]; simp [Fingrid.parseError, h]
  · rw [hf]; simp [Fingrid.parseError, h]
  · have hu : Fingrid.parseError qReply = FetchError.UNSET := by
      unfold Fingrid.parseError
      split
      · rfl
      · rename_i h; exact absurd h h1
      · rename_i h; exact absurd h h2
      · rename_i h; exact absurd h h3
      · rfl
    rw [hf, hu]
    simp

/-- Witness for C16: the statuses 404, 416, 503, 500 and a reply without status. -/
theorem fingrid_transport_failure_witness :
    onFinished { provider := Provider.FINGRID, dataType := DataType.EL_CONS }
        { noError := false, statusCode := some 404, body := "" } [] =
      some { error := FetchError.TYPE_NOT_IMPL_BY_PROVIDER } ∧
    onFinished { provider := Provider.FINGRID, dataType := DataType.EL_CONS }
        { noError := false, statusCode := some 416, body := "" } [] =
      some { error := FetchError.TOO_LARGE_TIME_SPAN } ∧
    onFinished { provider := Provider.FINGRID, dataType := DataType.EL_CONS }
        { noError := false, statusCode := some 503, body := "" } [] =
      some { error := FetchError.SERVER_MAINTENANCE } ∧
    onFinished { provider := Provider.FINGRID, dataType := DataType.EL_CONS }
        { noError := false, statusCode := some 500, body := "" } [] =
      some { error := FetchError.CONNECTION_FAILED } ∧
    onFinished { provider := Provider.FINGRID, dataType := DataType.EL_CONS }
        { noError := false, statusCode := none, body := "" } [] =
      some { error := FetchError.CONNECTION_FAILED } :=
  ⟨(fingrid_transport_failure { provider := Provider.FINGRID, dataType := DataType.EL_CONS }
      rfl { noError := false, statusCode := some 404, body := "" } [] rfl).1 rfl,
   (fingrid_transport_failure { provider := Provider.FINGRID, dataType := DataType.EL_CONS }
      rfl { noError := false, statusCode := some 416, body := "" } [] rfl).2.1 rfl,
   (fingrid_transport_failure { provider := Provider.FINGRID, dataType := DataType.EL_CONS }
      rfl { noError := false, statusCode := some 503, body := "" } [] rfl).2.2.1 rfl,
   (fingrid_transport_failure { provider := Provider.FINGRID, dataType := DataType.EL_CONS }
      rfl { noError := false, statusCode := some 500, body := "" } [] rfl).2.2.2
      (by decide) (by decide) (by decide),
   (fingrid_transport_failure { provider := Provider.FINGRID, dataType := DataType.EL_CONS }
      rfl { noError := false, statusCode := none, body := "" } [] rfl).2.2.2
      (by decide) (by decide) (by decide)⟩

/-- C17. When the network call of an FMI request fails, the callback of `fetch`
receives `LOC_NOT_SUPPORTED_BY_PROVIDER` if and only if the status is 400 and the
body contains the invalid-location text, and `CONNECTION_FAILED` in every other
case. -/
theorem fmi_transport_failure (request : FetchRequest)
    (hp : request.provider = Provider.FMI) (qReply : NetworkReply)
    (dataPoints : List DataPoint) (herr : qReply.noError = false) :
    ∃ e, onFinished request qReply dataPoints = some { error := e } ∧
      (e = FetchError.LOC_NOT_SUPPORTED_BY_PROVIDER ↔
        qReply.statusCode = some 400 ∧
          contains qReply.body FMI.INVALID_LOCATION_TEXT = true) ∧
      (e ≠ FetchError.LOC_NOT_SUPPORTED_BY_PROVIDER → e = FetchError.CONNECTION_FAILED) := by
  have hf : onFinished request qReply dataPoints =
      if FMI.parseError qReply ≠ FetchError.UNSET then
        some { error := FMI.parseError qReply }
      else some { error := FetchError.CONNECTION_FAILED } := by
    unfold onFinished
    simp only [hp, PROVIDERS, herr, FMI.provider]
    rfl
  by_cases hc : qReply.statusCode = some 400 ∧
      contains qReply.body FMI.INVALID_LOCATION_TEXT = true
  · have hl : FMI.parseError qReply = FetchError.LOC_NOT_SUPPORTED_BY_PROVIDER := by
      unfold FMI.parseError
      rw [hc.1]
      simp [hc.2]
    refine ⟨FetchError.LOC_NOT_SUPPORTED_BY_PROVIDER, ?_, ⟨fun _ => hc, fun _ => rfl⟩,
      fun h => absurd rfl h⟩
    rw [hf, hl]
    simp
  · have hu : FMI.parseError qReply = FetchError.UNSET := by
      unfold FMI.parseError
      split
      · rfl
      · rename_i code hcode
        rw [if_neg]
        rintro ⟨h1, h2⟩
        exact hc ⟨by rw [hcode, h1], h2⟩
    refine ⟨FetchError.CONNECTION_FAILED, ?_, ⟨fun h => (by cases h), fun h => absurd h hc⟩,
      fun _ => rfl⟩
    rw [hf, hu]
    simp

/-- Witness for C17: status 400 with the text, status 400 without it, and status 404
with the text. -/
theorem fmi_transport_failure_witness :
    onFinished { provider := Provider.FMI, dataType := DataType.TEMP }
        { noError := false, statusCode := some 400,
          body := "<p>No locations found for the place with the requested language!</p>" }
        [] =
      some { error := FetchError.LOC_NOT_SUPPORTED_BY_PROVIDER } ∧
    onFinished { provider := Provider.FMI, dataType := DataType.TEMP }
        { noError := false, statusCode := some 400, body := "Bad request" } [] =
      some { error := FetchError.CONNECTION_FAILED } ∧
    onFinished { provider := Provider.FMI, dataType := DataType.TEMP }
        { noError := false, statusCode := some 404,
          body := "No locations found for the place with the requested language!" } [] =
      some { error := FetchError.CONNECTION_FAILED } ∧
    ∃ e, onFinished { provider := Provider.FMI, dataType := DataType.TEMP }
        { noError := false, statusCode := some 400, body := "Bad request" } [] =
        some { error := e } ∧
      (e = FetchError.LOC_NOT_SUPPORTED_BY_PROVIDER ↔
        (some 400 : Option Int) = some 400 ∧
          contains "Bad request" FMI.INVALID_LOCATION_TEXT = true) ∧
      (e ≠ FetchError.LOC_NOT_SUPPORTED_BY_PROVIDER → e = FetchError.CONNECTION_FAILED) :=
  ⟨by decide, by decide, by decide,
    fmi_transport_failure { provider := Provider.FMI, dataType := DataType.TEMP } rfl
      { noError := false, statusCode := some 400, body := "Bad request" } [] rfl⟩

end pwa.WebAPI

namespace pwa

/-- What the first call of `getImplementedDataTypes` in a process returns, for both
providers: a sorted list without repetition of exactly the implemented data
types. -/
theorem getImplementedDataTypes_first_call :
    Fingrid.getImplementedDataTypes [] =
      [DataType.EL_CONS, DataType.EL_CONS_FORECAST_24H, DataType.EL_PROD,
       DataType.EL_PROD_FORECAST_24H, DataType.HYDRO_PWR_PROD, DataType.NUCLEAR_PWR_PROD,
       DataType.WIND_PWR_PROD] ∧
    FMI.getImplementedDataTypes [] =
      [DataType.TEMP, DataType.TEMP_FORECAST, DataType.WIND, DataType.WIND_FORECAST,
       DataType.CLOUDINESS] ∧
    (∀ d, d ∈ Fingrid.getImplementedDataTypes [] ↔ Fingrid.implementsDataType d = true) ∧
    (∀ d, d ∈ FMI.getImplementedDataTypes [] ↔ FMI.implementsDataType d = true) := by
  refine ⟨by decide, by decide, ?_, ?_⟩ <;> intro d <;> cases d <;> decide

theorem DataType.toCtorIdx_injective (a b : DataType) (h : a.toCtorIdx = b.toCtorIdx) :
    a = b := by
  cases a <;> cases b <;> first | rfl | exact absurd h (by decide)

/-- The value of `sortDataTypes` depends on the elements of the vector only, not on
their order: the order in which the keys of the unordered map are pushed does not
show in what `getImplementedDataTypes` returns. -/
theorem sortDataTypes_perm (l₁ l₂ : List DataType) (h : l₁.Perm l₂) :
    sortDataTypes l₁ = sortDataTypes l₂ := by
  have hanti : IsAntisymm DataType (fun a b => a.toCtorIdx ≤ b.toCtorIdx) :=
    ⟨fun a b h1 h2 => DataType.toCtorIdx_injective a b (Nat.le_antisymm h1 h2)⟩
  have htotal : IsTotal DataType (fun a b => a.toCtorIdx ≤ b.toCtorIdx) :=
    ⟨fun a b => Nat.le_total _ _⟩
  have htrans : IsTrans DataType (fun a b => a.toCtorIdx ≤ b.toCtorIdx) :=
    ⟨fun a b c h1 h2 => Nat.le_trans h1 h2⟩
  unfold sortDataTypes
  exact @List.eq_of_perm_of_sorted _ (fun a b => a.toCtorIdx ≤ b.toCtorIdx) hanti _ _
    (((List.perm_insertionSort _ l₁).trans h).trans (List.perm_insertionSort _ l₂).symm)
    (@List.sorted_insertionSort _ _ _ htotal htrans l₁)
    (@List.sorted_insertionSort _ _ _ htotal htrans l₂)

/-- C18 (the code at the failing input). The second call of `getImplementedDataTypes`
in a process: the `static` vector still holds the types pushed by the first call, the
keys are pushed again, and every implemented data type is returned twice. -/
theorem getImplementedDataTypes_second_call :
    Fingrid.getImplementedDataTypes (Fingrid.getImplementedDataTypes []) =
      [DataType.EL_CONS, DataType.EL_CONS, DataType.EL_CONS_FORECAST_24H,
       DataType.EL_CONS_FORECAST_24H, DataType.EL_PROD, DataType.EL_PROD,
       DataType.EL_PROD_FORECAST_24H, DataType.EL_PROD_FORECAST_24H,
       DataType.HYDRO_PWR_PROD, DataType.HYDRO_PWR_PROD, DataType.NUCLEAR_PWR_PROD,
       DataType.NUCLEAR_PWR_PROD, DataType.WIND_PWR_PROD, DataType.WIND_PWR_PROD] ∧
    FMI.getImplementedDataTypes (FMI.getImplementedDataTypes []) =
      [DataType.TEMP, DataType.TEMP, DataType.TEMP_FORECAST, DataType.TEMP_FORECAST,
       DataType.WIND, DataType.WIND, DataType.WIND_FORECAST, DataType.WIND_FORECAST,
       DataType.CLOUDINESS, DataType.CLOUDINESS] ∧
    Fingrid.getImplementedDataTypes (Fingrid.getImplementedDataTypes []) ≠
      Fingrid.getImplementedDataTypes [] := by
  decide

namespace DataLinesModel

/-- For the first `DataLinesModel` made in a process, whichever provider the
iteration over the map of `getProviderDataTypes` visits first, `persistentNameToId`
returns the id that `idToPersistentName` was given, for every initial id. -/
theorem persistentName_first_model :
    (∀ id, id < (new (WebAPI.getProviderDataTypes {}).1).initialDataTypes_.length →
      (idToPersistentName (new (WebAPI.getProviderDataTypes {}).1) id).bind
        (persistentNameToId (new (WebAPI.getProviderDataTypes {}).1)) = some id) ∧
    (∀ id,
      id < (new (WebAPI.getProviderDataTypes {}).1.reverse).initialDataTypes_.length →
      (idToPersistentName (new (WebAPI.getProviderDataTypes {}).1.reverse) id).bind
        (persistentNameToId (new (WebAPI.getProviderDataTypes {}).1.reverse)) = some id) := by
  decide

/-- C20 (the code at the failing input). The second `DataLinesModel` made in a
process: `getImplementedDataTypes` returns every data type twice, so the initial ids
0 and 1 both stand for Fingrid's electricity consumption and have the same persistent
name; `persistentNameToId` of the name of id 1 sets `outId` to 0. -/
theorem persistentName_second_model :
    idToPersistentName
        (new (WebAPI.getProviderDataTypes (WebAPI.getProviderDataTypes {}).2).1) 1 =
      some "Fingrid Electricity consumption" ∧
    idToPersistentName
        (new (WebAPI.getProviderDataTypes (WebAPI.getProviderDataTypes {}).2).1) 0 =
      some "Fingrid Electricity consumption" ∧
    persistentNameToId
        (new (WebAPI.getProviderDataTypes (WebAPI.getProviderDataTypes {}).2).1)
        "Fingrid Electricity consumption" = some 0 := by
  decide

end DataLinesModel

end pwa

namespace pwa.DataLinesModel

/-- C19. `onReceiveRealTimeFetch` for a data line that the model holds with at least
one point, and a result whose points are in non-decreasing order of time.  With an
erroring result the model is left unchanged.  With an error-free result let
`newPts` be the points of the result whose time is strictly greater than the time of
the last point held: when there is none, the model is left unchanged; otherwise
`newPts` is appended after the points held, which stay as they are, `timeSpan.end`
becomes the time of the new last point, and nothing else of the model changes. -/
theorem onReceiveRealTimeFetch_appends_newer (m : DataLinesModel) (origReq : FetchRequest)
    (result : FetchResult) (id : Nat) (w : DataLineWrapper) (dl : DataLine)
    (hcache : (m.requestCache_.lookup id).isSome = true)
    (hw : m.dataLineWrappers_[id]? = some w) (hdl : w.dataLine = some dl)
    (hwanted : id < m.wantedDataLineEnabled_.length)
    (hne : dl.dataPoints ≠ [])
    (hsorted : result.dataLine.dataPoints.Pairwise (fun p q => p.x ≤ q.x))
    (newPts : List DataPoint)
    (hnewPts : newPts = result.dataLine.dataPoints.filter
      (fun p => decide ((dl.dataPoints.getLast hne).x < p.x))) :
    (result.error ≠ FetchError.NONE →
      onReceiveRealTimeFetch m origReq result id = some (m, [])) ∧
    (result.error = FetchError.NONE → newPts = [] →
      onReceiveRealTimeFetch m origReq result id = some (m, [])) ∧
    (result.error = FetchError.NONE → ∀ hnew : newPts ≠ [],
      ∃ signals, onReceiveRealTimeFetch m origReq result id =
        some ({ m with
                dataLineWrappers_ := m.dataLineWrappers_.set id
                  { w with
                    dataLine := some
                      ({ dl with
                         dataPoints := dl.dataPoints ++ newPts,
                         timeSpan := { start := dl.timeSpan.start,
                                       end_ := (newPts.getLast hnew).x } }) } },
              signals)) := by
  have hid : id < m.dataLineWrappers_.length := by
    rcases Nat.lt_or_ge id m.dataLineWrappers_.length with h | h
    · exact h
    · rw [List.getElem?_eq_none h] at hw
      exact absurd hw (by simp)
  have hguard : ¬ ((m.requestCache_.lookup id).isNone = true ∨
      id ≥ m.dataLineWrappers_.length) := by
    rintro (h | h)
    · rw [Option.isNone_iff_eq_none] at h
      rw [h] at hcache
      exact absurd hcache (by simp)
    · omega
  have hfind : utils.findNewDataPoints dl.dataPoints result.dataLine.dataPoints = newPts := by
    unfold utils.findNewDataPoints
    rw [List.getLast?_eq_getLast _ hne, hnewPts]
    exact utils.findNewLoop_eq_filter _ _ hsorted
  refine ⟨fun herr => ?_, fun hok hnil => ?_, fun hok hnew => ?_⟩
  · unfold onReceiveRealTimeFetch
    rw [if_neg hguard]
    simp only [hw, hdl]
    rw [if_neg herr]
  · unfold onReceiveRealTimeFetch
    rw [if_neg hguard]
    simp only [hw, hdl, hfind]
    rw [if_pos hok, if_neg (by simp [hnil])]
  · obtain ⟨b, hb⟩ : ∃ b, m.wantedDataLineEnabled_[id]? = some b :=
      ⟨m.wantedDataLineEnabled_[id], List.getElem?_eq_getElem hwanted⟩
    have hlast : (dl.dataPoints ++ newPts).getLast? = some (newPts.getLast hnew) := by
      rw [List.getLast?_append_of_ne_nil _ hnew, List.getLast?_eq_getLast _ hnew]
    have hpos : newPts.length > 0 := List.length_pos.mpr hnew
    unfold onReceiveRealTimeFetch
    rw [if_neg hguard]
    simp only [hw, hdl, hfind, hlast, hb]
    rw [if_pos hok, if_pos hpos]
    by_cases he : w.enabled = true
    · rw [if_pos he]
      cases b
      · exact ⟨_, rfl⟩
      · exact ⟨_, rfl⟩
    · rw [if_neg he]
      exact ⟨_, rfl⟩

/-- Witness for C19: a series with points at the times 1, 2, 3 and a result with
points at 3, 4, 5: the points at 4 and 5 are appended and `timeSpan.end` becomes 5. -/
theorem onReceiveRealTimeFetch_appends_newer_witness :
    onReceiveRealTimeFetch
        { initialDataTypes_ := [(Provider.FINGRID, DataType.EL_CONS)]
          dataLineWrappers_ :=
            [{ id := 0, name := "Electricity consumption", enabled := true,
               dataLine := some { timeSpan := { start := 1, end_ := 3 },
                                  dataPoints := [⟨1, 10⟩, ⟨2, 20⟩, ⟨3, 30⟩] } }]
          wantedDataLineEnabled_ := [true]
          requestCache_ := [(0, { provider := Provider.FINGRID, dataType := DataType.EL_CONS,
                                  timeSpan := { start := 1, end_ := 9 } })] }
        { provider := Provider.FINGRID, dataType := DataType.EL_CONS,
          timeSpan := { start := 4, end_ := 9 } }
        { error := FetchError.NONE,
          dataLine := { dataPoints := [⟨3, 31⟩, ⟨4, 40⟩, ⟨5, 50⟩] } } 0 =
      some ({ initialDataTypes_ := [(Provider.FINGRID, DataType.EL_CONS)]
              dataLineWrappers_ :=
                [{ id := 0, name := "Electricity consumption", enabled := true,
                   dataLine := some { timeSpan := { start := 1, end_ := 5 },
                                      dataPoints := [⟨1, 10⟩, ⟨2, 20⟩, ⟨3, 30⟩, ⟨4, 40⟩,
                                        ⟨5, 50⟩] } }]
              wantedDataLineEnabled_ := [true]
              requestCache_ :=
                [(0, { provider := Provider.FINGRID, dataType := DataType.EL_CONS,
                       timeSpan := { start := 1, end_ := 9 } })] },
            [Signal.newRealTimeData [⟨4, 40⟩, ⟨5, 50⟩] 0]) ∧
    ∃ signals, onReceiveRealTimeFetch
        { initialDataTypes_ := [(Provider.FINGRID, DataType.EL_CONS)]
          dataLineWrappers_ :=
            [{ id := 0, name := "Electricity consumption", enabled := true,
               dataLine := some { timeSpan := { start := 1, end_ := 3 },
                                  dataPoints := [⟨1, 10⟩, ⟨2, 20⟩, ⟨3, 30⟩] } }]
          wantedDataLineEnabled_ := [true]
          requestCache_ := [(0, { provider := Provider.FINGRID, dataType := DataType.EL_CONS,
                                  timeSpan := { start := 1, end_ := 9 } })] }
        { provider := Provider.FINGRID, dataType := DataType.EL_CONS,
          timeSpan := { start := 4, end_ := 9 } }
        { error := FetchError.NONE,
          dataLine := { dataPoints := [⟨3, 31⟩, ⟨4, 40⟩, ⟨5, 50⟩] } } 0 =
      some ({ initialDataTypes_ := [(Provider.FINGRID, DataType.EL_CONS)]
              dataLineWrappers_ :=
                [{ id := 0, name := "Electricity consumption", enabled := true,
                   dataLine := some { timeSpan := { start := 1, end_ := 5 },
                                      dataPoints := [⟨1, 10⟩, ⟨2, 20⟩, ⟨3, 30⟩, ⟨4, 40⟩,
                                        ⟨5, 50⟩] } }]
              wantedDataLineEnabled_ := [true]
              requestCache_ :=
                [(0, { provider := Provider.FINGRID, dataType := DataType.EL_CONS,
                       timeSpan := { start := 1, end_ := 9 } })] },
            signals) :=
  ⟨by decide,
    (onReceiveRealTimeFetch_appends_newer
      { initialDataTypes_ := [(Provider.FINGRID, DataType.EL_CONS)]
        dataLineWrappers_ :=
          [{ id := 0, name := "Electricity consumption", enabled := true,
             dataLine := some { timeSpan := { start := 1, end_ := 3 },
                                dataPoints := [⟨1, 10⟩, ⟨2, 20⟩, ⟨3, 30⟩] } }]
        wantedDataLineEnabled_ := [true]
        requestCache_ := [(0, { provider := Provider.FINGRID, dataType := DataType.EL_CONS,
                                timeSpan := { start := 1, end_ := 9 } })] }
      { provider := Provider.FINGRID, dataType := DataType.EL_CONS,
        timeSpan := { start := 4, end_ := 9 } }
      { error := FetchError.NONE,
        dataLine := { dataPoints := [⟨3, 31⟩, ⟨4, 40⟩, ⟨5, 50⟩] } } 0
      { id := 0, name := "Electricity consumption", enabled := true,
        dataLine := some { timeSpan := { start := 1, end_ := 3 },
                           dataPoints := [⟨1, 10⟩, ⟨2, 20⟩, ⟨3, 30⟩] } }
      { timeSpan := { start := 1, end_ := 3 },
        dataPoints := [⟨1, 10⟩, ⟨2, 20⟩, ⟨3, 30⟩] }
      (by decide) rfl rfl (by decide) (by decide) (by decide)
      [⟨4, 40⟩, ⟨5, 50⟩] (by decide)).2.2 rfl (by decide)⟩

end pwa.DataLinesModel

namespace pwa

/-- C23 (the code at the failing input). The span of ten days split with
`daysPerSpan = 4`: the first two parts (and the first two sub-requests of
`splitFetchRequest`) are exactly four days long, not shorter than four days. -/
theorem splitTimeSpan_part_of_full_length :
    utils.splitTimeSpan { start := 0, end_ := 864000000 } 4 (by decide) =
      [{ start := 0, end_ := 345600000 }, { start := 345600000, end_ := 691200000 },
        { start := 691200000, end_ := 864000000 }] ∧
    (WebAPI.splitFetchRequest
        { provider := Provider.FMI, dataType := DataType.TEMP,
          timeSpan := { start := 0, end_ := 864000000 } } 4 (by decide)).map
        (fun r => r.timeSpan.end_ - r.timeSpan.start) =
      [345600000, 345600000, 172800000] ∧
    ¬ ((345600000 : Int) - 0 < 4 * MSECS_PER_DAY) := by
  refine ⟨?_, ?_, by decide⟩
  · simp [utils.splitTimeSpan, utils.splitLoop, addDays, MSECS_PER_DAY]
  · simp [WebAPI.splitFetchRequest, utils.splitTimeSpan, utils.splitLoop, addDays,
      MSECS_PER_DAY]

namespace utils

/-- Every part of a span with `start ≤ end` has `start ≤ end` and is at most
`daysPerSpan` days long. -/
theorem splitTimeSpan_parts_bounds (span : TimeSpan) (d : Int) (hd : 0 < d)
    (hspan : span.start ≤ span.end_) :
    ∀ p ∈ splitTimeSpan span d hd,
      p.start ≤ p.end_ ∧ p.end_ - p.start ≤ d * MSECS_PER_DAY := by
  obtain ⟨⟨hlen, hst, hb, hne⟩, hex⟩ := splitLoop_exit span d hd
  have hD : 0 < d * MSECS_PER_DAY := by simp only [MSECS_PER_DAY]; omega
  unfold splitTimeSpan
  generalize splitLoop span.end_ d hd []
    { start := span.start, end_ := addDays span.start d } = r at hlen hst hb hne hex
  obtain ⟨ini, bk⟩ := r
  simp only at hlen hst hb hne hex ⊢
  have hbs : bk.start ≤ span.end_ := by
    rcases ini with _ | ⟨a, t⟩
    · simp at hst; omega
    · have := hne (by simp)
      omega
  have hini : ∀ p ∈ ini, p.start ≤ p.end_ ∧ p.end_ - p.start ≤ d * MSECS_PER_DAY :=
    fun p hp => by
      have := hlen p hp
      omega
  split
  · intro p hp
    rcases List.mem_append.mp hp with hp | hp
    · exact hini p hp
    · simp at hp; subst hp; simp only; omega
  · intro p hp
    rcases List.mem_append.mp hp with hp | hp
    · exact hini p hp
    · simp at hp; subst hp; omega

end utils

/-- A span with `start ≤ end` that is at most `d` days long has a whole-day count of
at most `d`. -/
theorem daysTo_le_of_length_le (a b d : Int) (h : b - a ≤ d * MSECS_PER_DAY) :
    daysTo a b ≤ d := by
  unfold daysTo
  unfold MSECS_PER_DAY at *
  omega

end pwa

namespace pwa.WebAPI

/-- The number of days that a provider allows depends on the data type of the request
only. -/
theorem safeDays_congr (p : Provider) (provider : IProvider) (hp : PROVIDERS p = some provider)
    (q request : FetchRequest) (hdt : q.dataType = request.dataType) :
    provider.getSupportedDaysPerRequest q = provider.getSupportedDaysPerRequest request := by
  cases p
  · simp [PROVIDERS] at hp
  · simp only [PROVIDERS, Option.some.injEq] at hp
    rw [← hp]
    simp only [Fingrid.provider, Fingrid.getSupportedDaysPerRequest, hdt]
  · simp only [PROVIDERS, Option.some.injEq] at hp
    rw [← hp]
    simp only [FMI.provider, FMI.getSupportedDaysPerRequest, hdt]

/-- What is known of a request that `fetch` splits. -/
theorem fetch_fetchAll_inv (request : FetchRequest) (subs : List FetchRequest)
    (h : fetch request = some (FetchStep.fetchAll subs)) :
    ∃ provider hd, PROVIDERS request.provider = some provider ∧
      request.dataType ≠ DataType.UNSET ∧
      request.timeSpan.start ≤ request.timeSpan.end_ ∧
      provider.implementsDataType request.dataType = true ∧
      subs = splitFetchRequest request (provider.getSupportedDaysPerRequest request) hd := by
  unfold fetch at h
  split at h
  · exact absurd h (by simp)
  · rename_i provider hp
    split at h
    · exact absurd h (by simp)
    · rename_i hvalid
      split at h
      · simp at h
      · rename_i himpl
        split at h
        · split at h
          · rename_i hd
            simp only [Option.some.injEq, FetchStep.fetchAll.injEq] at h
            refine ⟨provider, hd, hp, ?_, ?_, ?_, h.symm⟩
            · exact fun hc => hvalid (Or.inl hc)
            · exact not_not.mp (fun hc => hvalid (Or.inr hc))
            · simpa using himpl
          · exact absurd h (by simp)
        · simp at h

/-- C28. For a valid request that `fetch` splits: there is at least one sub-request;
every sub-request has the provider, data type and location of the request and a
whole-day count `start.daysTo(end)` of at most `safeDays`, and `fetch` sends it as one
network call without splitting it again.  So the recursion ends after one level: with
every bound of at least two levels the result given to the original callback is the
combination of the results of these network calls. -/
theorem split_ends_after_one_level (request : FetchRequest) (subs : List FetchRequest)
    (hsplit : fetch request = some (FetchStep.fetchAll subs)) :
    subs ≠ [] ∧
    (∀ q ∈ subs, q.provider = request.provider ∧ q.dataType = request.dataType ∧
      q.location = request.location ∧
      (∀ provider, PROVIDERS request.provider = some provider →
        daysTo q.timeSpan.start q.timeSpan.end_ ≤
          provider.getSupportedDaysPerRequest request) ∧
      fetch q = some (FetchStep.get q)) ∧
    (∀ sort net fuel, fetchRun sort net (fuel + 2) request =
      (collect (subs.map (fun q => onFinished q (net q).1 (net q).2))).bind
        (combineFetchResultsWith sort)) := by
  obtain ⟨provider, hd, hp, hdt, hspan, himpl, hsubs⟩ := fetch_fetchAll_inv request subs hsplit
  have hparts := utils.splitTimeSpan_parts_bounds request.timeSpan
    (provider.getSupportedDaysPerRequest request) hd hspan
  have hq : ∀ q ∈ subs, q.provider = request.provider ∧ q.dataType = request.dataType ∧
      q.location = request.location ∧
      (∀ provider, PROVIDERS request.provider = some provider →
        daysTo q.timeSpan.start q.timeSpan.end_ ≤
          provider.getSupportedDaysPerRequest request) ∧
      fetch q = some (FetchStep.get q) := by
    intro q hqm
    rw [hsubs] at hqm
    simp only [splitFetchRequest, List.mem_map] at hqm
    obtain ⟨ts, hts, rfl⟩ := hqm
    obtain ⟨h1, h2⟩ := hparts ts hts
    have hdays := daysTo_le_of_length_le ts.start ts.end_ _ h2
    refine ⟨rfl, rfl, rfl, ?_, ?_⟩
    · intro provider2 hp2
      rw [hp] at hp2
      simp only [Option.some.injEq] at hp2
      rw [← hp2]
      exact hdays
    · have hsafe := safeDays_congr request.provider provider hp
        { request with timeSpan := ts } request rfl
      unfold fetch
      simp only [hp]
      rw [if_neg (by simp [hdt, h1]), if_neg (by simp [himpl]), if_neg (by rw [hsafe]; omega)]
  refine ⟨?_, hq, ?_⟩
  · rw [hsubs]
    intro hnil
    have h0 : (utils.splitTimeSpan request.timeSpan
        (provider.getSupportedDaysPerRequest request) hd).length = 0 := by
      simpa [splitFetchRequest] using congrArg List.length hnil
    have h1 : (utils.splitLoop request.timeSpan.end_
        (provider.getSupportedDaysPerRequest request) hd []
        { start := request.timeSpan.start,
          end_ := addDays request.timeSpan.start
            (provider.getSupportedDaysPerRequest request) }).1.length + 1 = 0 := by
      rw [← h0]
      unfold utils.splitTimeSpan
      dsimp only
      split <;> simp
    omega
  · intro sort net fuel
    have hmap : subs.map (fetchRun sort net (fuel + 1)) =
        subs.map (fun q => onFinished q (net q).1 (net q).2) := by
      apply List.map_congr_left
      intro q hqm
      have hget := (hq q hqm).2.2.2.2
      unfold fetchRun
      simp only [hget]
    show fetchRun sort net (fuel + 1 + 1) request = _
    unfold fetchRun
    simp only [hsplit, hmap]
    cases collect (subs.map (fun q => onFinished q (net q).1 (net q).2)) <;> rfl

end pwa.WebAPI

namespace pwa.WebAPI

theorem split_ends_after_one_level_witness :
    ∃ subs, fetch { provider := Provider.FMI, dataType := DataType.TEMP,
                    timeSpan := { start := 0, end_ := 864000000 }, location := "Helsinki" } =
        some (FetchStep.fetchAll subs) ∧
      subs ≠ [] ∧
      (∀ q ∈ subs, fetch q = some (FetchStep.get q)) ∧
      (∀ sort net fuel, fetchRun sort net (fuel + 2)
          { provider := Provider.FMI, dataType := DataType.TEMP,
            timeSpan := { start := 0, end_ := 864000000 }, location := "Helsinki" } =
        (collect (subs.map (fun q => onFinished q (net q).1 (net q).2))).bind
          (combineFetchResultsWith sort)) :=
  have h : fetch { provider := Provider.FMI, dataType := DataType.TEMP,
                   timeSpan := { start := 0, end_ := 864000000 }, location := "Helsinki" } =
      some (FetchStep.fetchAll (splitFetchRequest
        { provider := Provider.FMI, dataType := DataType.TEMP,
          timeSpan := { start := 0, end_ := 864000000 }, location := "Helsinki" }
        7 (by decide))) := rfl
  ⟨_, h, (split_ends_after_one_level _ _ h).1,
    fun q hq => ((split_ends_after_one_level _ _ h).2.1 q hq).2.2.2.2,
    (split_ends_after_one_level _ _ h).2.2⟩

end pwa.WebAPI

namespace pwa

/-- The operator `==` of `FetchRequest` holds exactly for equal requests. -/
theorem FetchRequest.eq_iff (a b : FetchRequest) : a.eq b = true ↔ a = b := by
  obtain ⟨p, d, ⟨s, e⟩, l⟩ := a
  obtain ⟨p2, d2, ⟨s2, e2⟩, l2⟩ := b
  simp only [FetchRequest.eq, Bool.and_eq_true, decide_eq_true_eq, FetchRequest.mk.injEq,
    TimeSpan.mk.injEq]
  tauto

namespace DataLinesModel

/-- C26. When a real-time fetch for the data line `id` completes while the request
cached for `id` is `cached`: if `cached` equals the cached request captured when the
fetch was issued, the lambda does what `onReceiveRealTimeFetch` does; if it differs
(which is: provider, data type, start or end of the time span, or location differs),
the result is discarded: the model is left as it is and no signal is emitted. -/
theorem realTimeFetchDone_discards_stale (m : DataLinesModel)
    (request originalRequestCache cached : FetchRequest) (id : Nat) (res : FetchResult)
    (hc : m.requestCache_.lookup id = some cached) :
    (cached = originalRequestCache →
      realTimeFetchDone m request originalRequestCache id res =
        onReceiveRealTimeFetch m request res id) ∧
    (cached ≠ originalRequestCache →
      realTimeFetchDone m request originalRequestCache id res = some (m, [])) ∧
    (cached ≠ originalRequestCache ↔
      (cached.provider ≠ originalRequestCache.provider ∨
       cached.dataType ≠ originalRequestCache.dataType ∨
       cached.timeSpan.start ≠ originalRequestCache.timeSpan.start ∨
       cached.timeSpan.end_ ≠ originalRequestCache.timeSpan.end_ ∨
       cached.location ≠ originalRequestCache.location)) := by
  refine ⟨?_, ?_, ?_⟩
  · intro heq
    unfold realTimeFetchDone
    simp only [hc]
    rw [if_pos ((FetchRequest.eq_iff _ _).mpr heq)]
  · intro hne
    unfold realTimeFetchDone
    simp only [hc]
    rw [if_neg (fun h => hne ((FetchRequest.eq_iff _ _).mp h))]
  · obtain ⟨p, d, ⟨s, e⟩, l⟩ := cached
    obtain ⟨p2, d2, ⟨s2, e2⟩, l2⟩ := originalRequestCache
    simp only [ne_eq, FetchRequest.mk.injEq, TimeSpan.mk.injEq]
    tauto

/-- Witness for C26: the time span selected by the user changed from two days to three
days while the real-time fetch was under way; its result, a newer point, is
discarded. -/
theorem realTimeFetchDone_discards_stale_witness :
    realTimeFetchDone
      { initialDataTypes_ := [(Provider.FINGRID, DataType.EL_CONS)],
        dataLineWrappers_ := [
          { id := 0, name := "Electricity consumption", enabled := true,
            dataLine := some
              { provider := Provider.FINGRID, dataType := DataType.EL_CONS,
                timeSpan := { start := 0, end_ := 172800000 },
                dataPoints := [{ x := 3600000, y := 5 }] } }],
        wantedDataLineEnabled_ := [true],
        timeSpan_ := { start := 0, end_ := 259200000 },
        requestCache_ := [(0,
          { provider := Provider.FINGRID, dataType := DataType.EL_CONS,
            timeSpan := { start := 0, end_ := 259200000 } })] }
      { provider := Provider.FINGRID, dataType := DataType.EL_CONS,
        timeSpan := { start := 3601000, end_ := 7200000 } }
      { provider := Provider.FINGRID, dataType := DataType.EL_CONS,
        timeSpan := { start := 0, end_ := 172800000 } }
      0
      { error := FetchError.NONE,
        dataLine :=
          { provider := Provider.FINGRID, dataType := DataType.EL_CONS,
            timeSpan := { start := 3601000, end_ := 7200000 },
            dataPoints := [{ x := 7200000, y := 6 }] } } =
    some (
      { initialDataTypes_ := [(Provider.FINGRID, DataType.EL_CONS)],
        dataLineWrappers_ := [
          { id := 0, name := "Electricity consumption", enabled := true,
            dataLine := some
              { provider := Provider.FINGRID, dataType := DataType.EL_CONS,
                timeSpan := { start := 0, end_ := 172800000 },
                dataPoints := [{ x := 3600000, y := 5 }] } }],
        wantedDataLineEnabled_ := [true],
        timeSpan_ := { start := 0, end_ := 259200000 },
        requestCache_ := [(0,
          { provider := Provider.FINGRID, dataType := DataType.EL_CONS,
            timeSpan := { start := 0, end_ := 259200000 } })] }, []) := by
  refine (realTimeFetchDone_discards_stale _ _ _
    { provider := Provider.FINGRID, dataType := DataType.EL_CONS,
      timeSpan := { start := 0, end_ := 259200000 } } 0 _ ?hc).2.1 ?hne
  case hc => rfl
  case hne => decide

end DataLinesModel

end pwa

namespace pwa.DataLinesModel

/-- C25 (the code at the failing input).  A model with the one initial data type
temperature forecast of FMI: the user selects the time span of days 0 to 2 and the
place, and enables the series; `updateState` issues the fetch and caches its
request; the result, with a last point at day 1, 12:00, arrives.  At the real-time
tick of day 1, 00:00 the series is enabled, fetched and detected as forecast (last
point + 1 s is later than now), yet `realTimeUpdate` issues no fetch: the request
over the selected time span equals the cached one, so `updateInitialWrapper` only
emits `dataLineChanged`, and the model stays as it is. -/
theorem realTimeUpdate_forecast_not_refetched :
    ∃ m2 m3,
      updateState (setDataEnabled (setLocation (setTimeSpan
          (new [(Provider.FMI, [DataType.TEMP_FORECAST])])
          { start := 0, end_ := 172800000 }) "Helsinki") 0 true) =
        some (m2, [Effect.fetch
          { provider := Provider.FMI, dataType := DataType.TEMP_FORECAST,
            timeSpan := { start := 0, end_ := 172800000 }, location := "Helsinki" } 0]) ∧
      onReceiveFetch m2
          { provider := Provider.FMI, dataType := DataType.TEMP_FORECAST,
            timeSpan := { start := 0, end_ := 172800000 }, location := "Helsinki" }
          { error := FetchError.NONE,
            dataLine :=
              { provider := Provider.FMI, dataType := DataType.TEMP_FORECAST,
                timeSpan := { start := 0, end_ := 172800000 },
                dataPoints := [{ x := 43200000, y := 4 }, { x := 129600000, y := 5 }],
                location := "Helsinki", yUnit := "°C" } } 0 =
        some (m3, [Signal.dataLineChanged 0]) ∧
      m3.dataLineWrappers_.map (fun w => (w.enabled, w.dataLine.map (fun l =>
          l.dataPoints.map (fun p => decide (addSecs p.x 1 > 86400000))))) =
        [(true, some [false, true])] ∧
      m3.timeSpan_ = { start := 0, end_ := 172800000 } ∧
      realTimeUpdate m3 86400000 =
        some (m3, [Effect.emit (Signal.dataLineChanged 0)]) := by
  refine ⟨_, _, rfl, rfl, ?_, ?_, ?_⟩
  · decide
  · decide
  · decide

end pwa.DataLinesModel

namespace pwa.CalcsController

/-- C27 (the code at the failing input).  For the reference end date 2020-12-15 12:00
(month 12 of 2020) `updateNewDatesTemp` sets `newStartDate_` to 2020-12-01 00:00 and
builds the end from `QDate(2020, 13, 1)`, which is no date: `newEndDate_` is invalid,
not 2021-01-01 00:00.  For the reference end date 2020-11-15 12:00 the two dates are
2020-11-01 00:00 and 2020-12-01 00:00. -/
theorem updateNewDatesTemp_december_invalid :
    QCalendar.gregorian.month 1608033600000 = 12 ∧
    QCalendar.gregorian.year 1608033600000 = 2020 ∧
    (updateNewDatesTemp QCalendar.gregorian
      { refStartDate_ := 1606780800000, refEndDate_ := 1608033600000 }).newStartDate_ =
        some 1606780800000 ∧
    (updateNewDatesTemp QCalendar.gregorian
      { refStartDate_ := 1606780800000, refEndDate_ := 1608033600000 }).newEndDate_ = none ∧
    QCalendar.gregorian.startOfDay 2021 1 1 = some 1609459200000 ∧
    (updateNewDatesTemp QCalendar.gregorian
      { refStartDate_ := 1604188800000, refEndDate_ := 1605441600000 }).newStartDate_ =
        some 1604188800000 ∧
    (updateNewDatesTemp QCalendar.gregorian
      { refStartDate_ := 1604188800000, refEndDate_ := 1605441600000 }).newEndDate_ =
        some 1606780800000 := by
  refine ⟨?_, ?_, ?_, ?_, ?_, ?_, ?_⟩ <;> decide

end pwa.CalcsController

namespace pwa.CalcsController

/-- In every December the end date that `updateNewDatesTemp` builds is invalid: with
the Gregorian calendar, whenever the end date left by `validateDate` lies in a month
12, `newEndDate_` becomes invalid. -/
theorem updateNewDatesTemp_month_12 (c : CalcsController) (t : Int)
    (ht : (validateDate c TEMP_BEGIN_DATE).newEndDate_ = some t)
    (hm : QCalendar.gregorian.month t = 12) :
    (updateNewDatesTemp QCalendar.gregorian c).newEndDate_ = none := by
  have hv : ∀ y : Int, QCalendar.isValid y 13 1 = false := by
    intro y
    simp [QCalendar.isValid]
  simp only [updateNewDatesTemp, ht, Option.map_some', Option.getD_some, hm]
  show QCalendar.gregorian.startOfDay _ (12 + 1) 1 = none
  simp only [QCalendar.gregorian]
  norm_num [hv]

end pwa.CalcsController

namespace pwa.CalcsController

/-- An error result that arrives while `fetchError_` is not set leaves `inProgress_`
as it is: the lambda of `fetchData` returns before the decrement. -/
theorem fetchDataDone_error_keeps_inProgress (c : CalcsController) (result : FetchResult)
    (hc : c.fetchError_ = false) (herr : result.error ≠ FetchError.NONE) :
    fetchDataDone c result = (c, []) := by
  unfold fetchDataDone
  rw [if_pos hc, if_pos herr]

/-- C29 (the code at the failing input).  A controller of calculation type power.
First round, for 2020-01-01 to 2020-01-02: `selectTypeToFetch` issues three fetches
(`inProgress_` = 3); the wind fetch completes with `CONNECTION_FAILED`, the nuclear
and the hydro fetch with data.  Every issued request has completed, and `inProgress_`
is 1.  Second round, for 2020-01-02 to 2020-01-03: three fetches are issued
(`inProgress_` = 4) and all three complete with data; `inProgress_` ends at 1 and no
completion calls `dataCalculations`. -/
theorem inProgress_not_zero_after_error :
    ∃ c1 c2 c3 c4 c5 c6,
      setTimeSpan QCalendar.gregorian { calcType_ := CalcType.POWER, typeChanged_ := true }
          { start := 1577836800000, end_ := 1577923200000 } = some c1 ∧
      selectTypeToFetch c1 = some (c2,
        [CalcsEffect.fetch
           { provider := Provider.FINGRID, dataType := DataType.WIND_PWR_PROD,
             timeSpan := { start := 1577836800000, end_ := 1577923200000 } },
         CalcsEffect.fetch
           { provider := Provider.FINGRID, dataType := DataType.NUCLEAR_PWR_PROD,
             timeSpan := { start := 1577836800000, end_ := 1577923200000 } },
         CalcsEffect.fetch
           { provider := Provider.FINGRID, dataType := DataType.HYDRO_PWR_PROD,
             timeSpan := { start := 1577836800000, end_ := 1577923200000 } }]) ∧
      c2.inProgress_ = 3 ∧
      fetchDataDoneAll c2
        [{ error := FetchError.CONNECTION_FAILED },
         { error := FetchError.NONE,
           dataLine :=
             { provider := Provider.FINGRID, dataType := DataType.NUCLEAR_PWR_PROD,
               dataPoints := [{ x := 1577840400000, y := 2700 }], yUnit := "MW" } },
         { error := FetchError.NONE,
           dataLine :=
             { provider := Provider.FINGRID, dataType := DataType.HYDRO_PWR_PROD,
               dataPoints := [{ x := 1577840400000, y := 1500 }], yUnit := "MW" } }] =
        (c3, []) ∧
      c3.inProgress_ = 1 ∧ c3.fetchError_ = false ∧
      setTimeSpan QCalendar.gregorian c3
          { start := 1577923200000, end_ := 1578009600000 } = some c4 ∧
      selectTypeToFetch c4 = some (c5,
        [CalcsEffect.fetch
           { provider := Provider.FINGRID, dataType := DataType.WIND_PWR_PROD,
             timeSpan := { start := 1577923200000, end_ := 1578009600000 } },
         CalcsEffect.fetch
           { provider := Provider.FINGRID, dataType := DataType.NUCLEAR_PWR_PROD,
             timeSpan := { start := 1577923200000, end_ := 1578009600000 } },
         CalcsEffect.fetch
           { provider := Provider.FINGRID, dataType := DataType.HYDRO_PWR_PROD,
             timeSpan := { start := 1577923200000, end_ := 1578009600000 } }]) ∧
      c5.inProgress_ = 4 ∧
      fetchDataDoneAll c5
        [{ error := FetchError.NONE,
           dataLine :=
             { provider := Provider.FINGRID, dataType := DataType.WIND_PWR_PROD,
               dataPoints := [{ x := 1577926800000, y := 900 }], yUnit := "MW" } },
         { error := FetchError.NONE,
           dataLine :=
             { provider := Provider.FINGRID, dataType := DataType.NUCLEAR_PWR_PROD,
               dataPoints := [{ x := 1577926800000, y := 2700 }], yUnit := "MW" } },
         { error := FetchError.NONE,
           dataLine :=
             { provider := Provider.FINGRID, dataType := DataType.HYDRO_PWR_PROD,
               dataPoints := [{ x := 1577926800000, y := 1500 }], yUnit := "MW" } }] =
        (c6, []) ∧
      c6.inProgress_ = 1 ∧ c6.fetchError_ = false := by
  refine ⟨_, _, _, _, _, _, rfl, rfl, ?_, rfl, ?_, ?_, rfl, rfl, ?_, rfl, ?_, ?_⟩ <;> decide

end pwa.CalcsController

namespace pwa

/-- A key that is not among the keys of an association list is not found. -/
theorem lookup_eq_none_of_not_mem {α : Type} (k : String) (l : List (String × α))
    (h : k ∉ l.map Prod.fst) : l.lookup k = none := by
  induction l with
  | nil => rfl
  | cons e l ih =>
    obtain ⟨k2, v⟩ := e
    simp only [List.map_cons, List.mem_cons, not_or] at h
    have hne : (k == k2) = false := by simpa using h.1
    simp only [List.lookup, hne]
    exact ih h.2

/-- Lookup in a list of keys paired with a function of the key. -/
theorem lookup_map_key {α : Type} (f : String → α) (k : String) (keys : List String) :
    (keys.map (fun key => (key, f key))).lookup k = if k ∈ keys then some (f k) else none := by
  induction keys with
  | nil => rfl
  | cons k2 keys ih =>
    simp only [List.map_cons, List.lookup]
    by_cases hk : k = k2
    · subst hk
      simp
    · have hne : (k == k2) = false := by simpa using hk
      simp only [hne, ih, List.mem_cons, hk, false_or]

/-- Lookup after a change of the values. -/
theorem lookup_map_value {α β : Type} (g : α → β) (k : String) (l : List (String × α)) :
    (l.map (fun e => (e.1, g e.2))).lookup k = (l.lookup k).map g := by
  induction l with
  | nil => rfl
  | cons e l ih =>
    obtain ⟨k2, v⟩ := e
    simp only [List.map_cons, List.lookup]
    cases hk : (k == k2)
    · simpa using ih
    · rfl

/-- A key among the keys of an association list is found. -/
theorem lookup_isSome_of_mem {α : Type} (k : String) (l : List (String × α))
    (h : k ∈ l.map Prod.fst) : ∃ v, l.lookup k = some v := by
  induction l with
  | nil => simp at h
  | cons e l ih =>
    obtain ⟨k2, v⟩ := e
    simp only [List.lookup]
    cases hk : (k == k2)
    · simp only [List.map_cons, List.mem_cons] at h
      rcases h with h | h
      · simp [h] at hk
      · exact ih h
    · exact ⟨v, rfl⟩

/-- Inserting entries with pairwise different keys into an object that has none of
them appends them. -/
theorem insert_foldl_nodup (entries : List (String × Bool)) (acc : QJsonObject)
    (hnodup : (entries.map Prod.fst).Nodup)
    (hdisj : ∀ k ∈ entries.map Prod.fst, k ∉ acc.map Prod.fst) :
    entries.foldl (fun json entry =>
        QJsonObject.insert json entry.1 (QJsonValue.bool entry.2)) acc =
      acc ++ entries.map (fun e => (e.1, QJsonValue.bool e.2)) := by
  induction entries generalizing acc with
  | nil => simp
  | cons e entries ih =>
    obtain ⟨k, b⟩ := e
    simp only [List.map_cons, List.nodup_cons] at hnodup
    have hk : acc.lookup k = none :=
      lookup_eq_none_of_not_mem k acc (hdisj k (by simp))
    have hstep : QJsonObject.insert acc k (QJsonValue.bool b) =
        acc ++ [(k, QJsonValue.bool b)] := by
      simp [QJsonObject.insert, hk]
    simp only [List.foldl_cons]
    rw [hstep, ih (acc ++ [(k, QJsonValue.bool b)]) hnodup.2]
    · simp
    · intro k2 hk2
      simp only [List.map_append, List.map_cons, List.map_nil, List.mem_append,
        List.mem_singleton, not_or]
      refine ⟨hdisj k2 (by simp [hk2]), ?_⟩
      intro heq
      subst heq
      exact hnodup.1 hk2

/-- Emplacing pairwise different keys into a map that has none of them appends
them. -/
theorem tryEmplace_foldl_nodup (f : String → Bool) (keys : List String)
    (acc : List (String × Bool)) (hnodup : keys.Nodup)
    (hdisj : ∀ k ∈ keys, k ∉ acc.map Prod.fst) :
    keys.foldl (fun map key => Preference.tryEmplace map key (f key)) acc =
      acc ++ keys.map (fun key => (key, f key)) := by
  induction keys generalizing acc with
  | nil => simp
  | cons k keys ih =>
    simp only [List.nodup_cons] at hnodup
    have hk : acc.lookup k = none :=
      lookup_eq_none_of_not_mem k acc (hdisj k (by simp))
    have hstep : Preference.tryEmplace acc k (f k) = acc ++ [(k, f k)] := by
      simp [Preference.tryEmplace, hk]
    simp only [List.foldl_cons]
    rw [hstep, ih (acc ++ [(k, f k)]) hnodup.2]
    · simp
    · intro k2 hk2
      simp only [List.map_append, List.map_cons, List.map_nil, List.mem_append,
        List.mem_singleton, not_or]
      refine ⟨hdisj k2 (by simp [hk2]), ?_⟩
      intro heq
      subst heq
      exact hnodup.1 hk2

end pwa

namespace pwa.Preference

/-- The object that `asQJsonObject` returns, member by member. -/
theorem asQJsonObject_members (qt : QtStrings) (p : Preference)
    (hmap : (p.checkBoxStates_.map Prod.fst).Nodup) :
    asQJsonObject qt p =
      [("plot graph type", QJsonValue.string p.plotGraphType_),
       ("calculation type", QJsonValue.string p.calculationType_),
       ("weather place", QJsonValue.string p.weatherPlace_),
       ("fromDate offset", QJsonValue.string (qt.number p.offsetInterval_.fromDate)),
       ("toDate offset", QJsonValue.string (qt.number p.offsetInterval_.toDate)),
       ("checkbox states", QJsonValue.object
          (p.checkBoxStates_.map (fun e => (e.1, QJsonValue.bool e.2))))] := by
  unfold asQJsonObject
  rw [insert_foldl_nodup p.checkBoxStates_ [] hmap (by simp)]
  rfl

end pwa.Preference

namespace pwa.Preference

/-- What `restoreWith` does with an object of the six members that `asQJsonObject`
writes. -/
theorem restoreWith_members (qt : QtStrings) (p0 : Preference) (a b c sf st : String)
    (entries : List (String × Bool))
    (hkeys : ∀ l, (qt.keysOrder l).Perm l)
    (hmap : (entries.map Prod.fst).Nodup) :
    restoreWith qt p0
      [("plot graph type", QJsonValue.string a),
       ("calculation type", QJsonValue.string b),
       ("weather place", QJsonValue.string c),
       ("fromDate offset", QJsonValue.string sf),
       ("toDate offset", QJsonValue.string st),
       ("checkbox states", QJsonValue.object
          (entries.map (fun e => (e.1, QJsonValue.bool e.2))))] =
    (true,
      { plotGraphType_ := a, calculationType_ := b, weatherPlace_ := c,
        offsetInterval_ := { fromDate := qt.toLongLong sf, toDate := qt.toLongLong st },
        checkBoxStates_ := (qt.keysOrder (entries.map Prod.fst)).map
          (fun key => (key, (entries.lookup key).getD false)) }) := by
  have hkeysEq : QJsonObject.keys (entries.map (fun e => (e.1, QJsonValue.bool e.2))) =
      entries.map Prod.fst := by
    simp [QJsonObject.keys, Function.comp_def]
  have hperm := hkeys (entries.map Prod.fst)
  have hnodup : (qt.keysOrder (entries.map Prod.fst)).Nodup := hperm.nodup_iff.mpr hmap
  have hvalue : ∀ key, QJsonObject.value
      (entries.map (fun e => (e.1, QJsonValue.bool e.2))) key =
      ((entries.lookup key).map QJsonValue.bool).getD QJsonValue.undefined := by
    intro key
    unfold QJsonObject.value
    rw [lookup_map_value]
  have hvalid : isPreferenceJsonValid qt
      [("plot graph type", QJsonValue.string a),
       ("calculation type", QJsonValue.string b),
       ("weather place", QJsonValue.string c),
       ("fromDate offset", QJsonValue.string sf),
       ("toDate offset", QJsonValue.string st),
       ("checkbox states", QJsonValue.object
          (entries.map (fun e => (e.1, QJsonValue.bool e.2))))] = true := by
    simp only [isPreferenceJsonValid, isCheckBoxStatesJsonValid, JsonManager.isValidString,
      QJsonObject.contains, QJsonObject.value, preferenceJson.PLOT_GRAPH_TYPE,
      preferenceJson.CALCULATION_TYPE, preferenceJson.WEATHER_PLACE,
      preferenceJson.FROMDATE_OFFSET, preferenceJson.TODATE_OFFSET,
      preferenceJson.CHECKBOX_STATES, List.lookup, List.all_cons, List.all_nil]
    simp only [hkeysEq, QJsonValue.toObject]
    simp only [String.reduceBEq, Option.isSome_some, Option.getD_some, QJsonValue.isString,
      QJsonValue.isObject, Bool.and_self, Bool.not_true, Bool.false_eq_true, if_false,
      Bool.true_and, List.all_eq_true]
    intro key hkey
    rw [hkeysEq] at hkey
    have hmem : key ∈ entries.map Prod.fst := hperm.mem_iff.mp hkey
    obtain ⟨v, hv⟩ := lookup_isSome_of_mem key entries hmem
    rw [lookup_map_value, hv]
    rfl
  have hfold : (qt.keysOrder (entries.map Prod.fst)).foldl
      (fun map idnameJsonKey => tryEmplace map idnameJsonKey
        (QJsonObject.value (entries.map (fun e => (e.1, QJsonValue.bool e.2)))
          idnameJsonKey).toBool) [] =
      (qt.keysOrder (entries.map Prod.fst)).map
        (fun key => (key, (entries.lookup key).getD false)) := by
    rw [tryEmplace_foldl_nodup (fun key => (QJsonObject.value
      (entries.map (fun e => (e.1, QJsonValue.bool e.2))) key).toBool) _ [] hnodup (by simp)]
    simp only [List.nil_append]
    apply List.map_congr_left
    intro key _
    rw [hvalue]
    cases entries.lookup key <;> rfl
  unfold restoreWith
  rw [hvalid]
  simp only [Bool.not_true, Bool.false_eq_true, if_false, restoreCheckBoxStatesWith,
    restoreSingleValuesWith, QJsonObject.value, preferenceJson.PLOT_GRAPH_TYPE,
    preferenceJson.CALCULATION_TYPE, preferenceJson.WEATHER_PLACE,
    preferenceJson.FROMDATE_OFFSET, preferenceJson.TODATE_OFFSET,
    preferenceJson.CHECKBOX_STATES, List.lookup, String.reduceBEq, Option.getD_some,
    QJsonValue.toObject, QJsonValue.toString, hkeysEq]
  rw [← hfold]
  rfl

end pwa.Preference

namespace pwa.Preference

/-- C21. Restoring any `Preference` object from the JSON object that `asQJsonObject`
gives for a `Preference` after `setDateTimeInterval(fromDate, currentDate, toDate)`
(every state is one, its offsets being a start and an end relative to 0) succeeds and
yields the same plot graph type, calculation type, weather place and offsets and a
map of check box states with the same keys and the same value at every key;
`fromDate(currentDate)` and `toDate(currentDate)` of the restored object are
`fromDate` and `toDate`.  The library is taken as given: `keys()` lists the keys of an
object, each once, and the text of each of the two offsets reads back as the
offset. -/
theorem restoreWith_asQJsonObject (qt : QtStrings) (p0 p1 : Preference)
    (fromDate currentDate toDate : Int)
    (hkeys : ∀ l, (qt.keysOrder l).Perm l)
    (hmap : (p1.checkBoxStates_.map Prod.fst).Nodup)
    (hfrom : qt.toLongLong (qt.number (msecsTo currentDate fromDate)) =
      msecsTo currentDate fromDate)
    (hto : qt.toLongLong (qt.number (msecsTo currentDate toDate)) =
      msecsTo currentDate toDate) :
    ∃ restored,
      restoreWith qt p0 (asQJsonObject qt
        (setDateTimeInterval p1 fromDate currentDate toDate)) = (true, restored) ∧
      restored.plotGraphType_ = p1.plotGraphType_ ∧
      restored.calculationType_ = p1.calculationType_ ∧
      restored.weatherPlace_ = p1.weatherPlace_ ∧
      restored.offsetInterval_ =
        (setDateTimeInterval p1 fromDate currentDate toDate).offsetInterval_ ∧
      (∀ key, restored.checkBoxStates_.lookup key = p1.checkBoxStates_.lookup key) ∧
      (restored.checkBoxStates_.map Prod.fst).Perm (p1.checkBoxStates_.map Prod.fst) ∧
      Preference.fromDate restored currentDate = fromDate ∧
      Preference.toDate restored currentDate = toDate := by
  have hmap2 : ((setDateTimeInterval p1 fromDate currentDate toDate).checkBoxStates_.map
      Prod.fst).Nodup := hmap
  rw [asQJsonObject_members qt _ hmap2]
  refine ⟨_, restoreWith_members qt p0 _ _ _ _ _ _ hkeys hmap2, rfl, rfl, rfl, ?_, ?_, ?_, ?_, ?_⟩
  · simp only [setDateTimeInterval, hfrom, hto]
  · intro key
    show ((qt.keysOrder (p1.checkBoxStates_.map Prod.fst)).map
      (fun key => (key, (p1.checkBoxStates_.lookup key).getD false))).lookup key = _
    rw [lookup_map_key (fun key => (p1.checkBoxStates_.lookup key).getD false)]
    by_cases hmem : key ∈ p1.checkBoxStates_.map Prod.fst
    · rw [if_pos ((hkeys _).mem_iff.mpr hmem)]
      obtain ⟨v, hv⟩ := lookup_isSome_of_mem key _ hmem
      rw [hv]
      rfl
    · rw [if_neg (fun h => hmem ((hkeys _).mem_iff.mp h)),
        lookup_eq_none_of_not_mem key _ hmem]
  · show (((qt.keysOrder (p1.checkBoxStates_.map Prod.fst)).map
      (fun key => (key, (p1.checkBoxStates_.lookup key).getD false))).map Prod.fst).Perm _
    rw [List.map_map]
    have hid : (Prod.fst ∘ fun key : String =>
        (key, (p1.checkBoxStates_.lookup key).getD false)) = id := rfl
    rw [hid, List.map_id]
    exact hkeys _
  · show addMSecs currentDate (qt.toLongLong (qt.number (msecsTo currentDate fromDate))) = _
    rw [hfrom]
    unfold addMSecs msecsTo
    omega
  · show addMSecs currentDate (qt.toLongLong (qt.number (msecsTo currentDate toDate))) = _
    rw [hto]
    unfold addMSecs msecsTo
    omega

/-- Witness for C21: a preference with two check boxes, the interval from one hour
before to two hours after the current time 2020-01-01 00:00, restored into a
`Preference` that holds other values. -/
theorem restoreWith_asQJsonObject_witness :
    ∃ restored,
      restoreWith QtStrings.utc
        { plotGraphType_ := "old", checkBoxStates_ := [("FMI Temperature", true)] }
        (asQJsonObject QtStrings.utc
          (setDateTimeInterval
            { plotGraphType_ := "line", calculationType_ := "power",
              weatherPlace_ := "Helsinki",
              checkBoxStates_ := [("Fingrid Wind power", true), ("FMI Temperature", false)] }
            1577833200000 1577836800000 1577844000000)) = (true, restored) ∧
      restored.plotGraphType_ = "line" ∧
      restored.calculationType_ = "power" ∧
      restored.weatherPlace_ = "Helsinki" ∧
      restored.offsetInterval_ = { fromDate := -3600000, toDate := 7200000 } ∧
      (∀ key, restored.checkBoxStates_.lookup key =
        [("Fingrid Wind power", true), ("FMI Temperature", false)].lookup key) ∧
      (restored.checkBoxStates_.map Prod.fst).Perm ["Fingrid Wind power", "FMI Temperature"] ∧
      Preference.fromDate restored 1577836800000 = 1577833200000 ∧
      Preference.toDate restored 1577836800000 = 1577844000000 :=
  restoreWith_asQJsonObject QtStrings.utc
    { plotGraphType_ := "old", checkBoxStates_ := [("FMI Temperature", true)] }
    { plotGraphType_ := "line", calculationType_ := "power", weatherPlace_ := "Helsinki",
      checkBoxStates_ := [("Fingrid Wind power", true), ("FMI Temperature", false)] }
    1577833200000 1577836800000 1577844000000
    (fun l => List.perm_insertionSort _ l) (by decide) (by decide) (by decide)

end pwa.Preference

namespace pwa.DataLineSaver

/-- The enumerator of a provider is read back from the number written for it. -/
theorem provider_toInt_roundtrip (p : Provider) :
    Provider.ofInt? (QJsonValue.ofInt p.toInt).toInt = some p := by
  cases p <;> decide

/-- The enumerator of a data type is read back from the number written for it. -/
theorem dataType_toInt_roundtrip (d : DataType) :
    DataType.ofInt? (QJsonValue.ofInt d.toInt).toInt = some d := by
  cases d <;> decide

/-- The array written for the data points passes the validation. -/
theorem isDataPointsContentsValid_toQJsonArray (qt : QtStrings) (dataPoints : List DataPoint) :
    isDataPointsContentsValid (toQJsonArray qt dataPoints) = true := by
  induction dataPoints with
  | nil => rfl
  | cons p rest ih =>
    simp only [isDataPointsContentsValid, toQJsonArray, List.map_cons, List.all_cons,
      Bool.and_eq_true] at ih ⊢
    exact ⟨rfl, ih⟩

/-- The data points are read back from the array written for them, when the text of
each timestamp reads back as the timestamp. -/
theorem restore_toQJsonArray (qt : QtStrings) (dataPoints : List DataPoint)
    (hx : ∀ p ∈ dataPoints, qt.fromIsoString (qt.toIsoStringWithTZ p.x) = p.x) :
    (toQJsonArray qt dataPoints).map (fun dataPoint =>
      ({ x := dataPointX qt dataPoint, y := dataPointY dataPoint } : DataPoint)) =
    dataPoints := by
  induction dataPoints with
  | nil => rfl
  | cons p rest ih =>
    have hp : ({ x := dataPointX qt (QJsonValue.object (toQJsonObjectDataPoint qt p)),
                 y := dataPointY (QJsonValue.object (toQJsonObjectDataPoint qt p)) } :
        DataPoint) = p := by
      have h1 : dataPointX qt (QJsonValue.object (toQJsonObjectDataPoint qt p)) =
          qt.fromIsoString (qt.toIsoStringWithTZ p.x) := rfl
      have h2 : dataPointY (QJsonValue.object (toQJsonObjectDataPoint qt p)) = p.y := rfl
      rw [h1, h2, hx p (by simp)]
    simp only [toQJsonArray, List.map_cons] at ih ⊢
    rw [hp, ih (fun q hq => hx q (by simp [hq]))]

/-- What `restore` does with an object of the six members that `toQJsonObject`
writes. -/
theorem restore_members (qt : QtStrings) (data0 : RawDataLine) (provider dataType : Rat)
    (location yUnit start end_ : String) (dataPoints : QJsonArray)
    (hpoints : isDataPointsContentsValid dataPoints = true) :
    restore qt data0
      [("provider", QJsonValue.double provider),
       ("datatype", QJsonValue.double dataType),
       ("location", QJsonValue.string location),
       ("yunit", QJsonValue.string yUnit),
       ("timespan", QJsonValue.object
          [("start", QJsonValue.string start), ("end", QJsonValue.string end_)]),
       ("datapoints", QJsonValue.array dataPoints)] =
    (true,
      { provider := (QJsonValue.double provider).toInt,
        dataType := (QJsonValue.double dataType).toInt,
        timeSpan := { start := qt.fromIsoString start, end_ := qt.fromIsoString end_ },
        dataPoints := dataPoints.map (fun dataPoint =>
          { x := dataPointX qt dataPoint, y := dataPointY dataPoint }),
        location := location, yUnit := yUnit }) := by
  simp only [restore, isValidDataLineJson, isTimeSpanValid, isTimeSpanContentsValid,
    isDataPointsValid, JsonManager.isValidDouble, JsonManager.isValidString,
    QJsonObject.contains, QJsonObject.value, dataline.PROVIDER, dataline.DATATYPE,
    dataline.LOCATION, dataline.YUNIT, dataline.TIME_SPAN, dataline.TIME_SPAN_START,
    dataline.TIME_SPAN_END, dataline.DATAPOINTS, List.lookup, String.reduceBEq,
    Option.isSome_some, Option.getD_some, QJsonValue.isDouble, QJsonValue.isString,
    QJsonValue.toObject, QJsonValue.toArray, QJsonValue.toString, hpoints, Bool.and_self,
    Bool.not_true, Bool.false_eq_true, if_false, restoreDataPoints, restoreTimeSpan,
    restoreSingleValues]

/-- The object that `toQJsonObject` returns for a data line, member by member. -/
theorem toQJsonObject_members (qt : QtStrings) (line : DataLine) :
    toQJsonObject qt line =
      [("provider", QJsonValue.double line.provider.toInt),
       ("datatype", QJsonValue.double line.dataType.toInt),
       ("location", QJsonValue.string line.location),
       ("yunit", QJsonValue.string line.yUnit),
       ("timespan", QJsonValue.object
          [("start", QJsonValue.string (qt.toIsoStringWithTZ line.timeSpan.start)),
           ("end", QJsonValue.string (qt.toIsoStringWithTZ line.timeSpan.end_))]),
       ("datapoints", QJsonValue.array (toQJsonArray qt line.dataPoints))] := rfl

/-- C22. Reading back, into any `DataLine` object, what `write(DataLine)` wrote for a
data line succeeds and gives the same provider, data type, location, unit, start
and end of the time span and the same data points in the same order, when the ISO
text of each timestamp of the data line reads back as that timestamp (the ISO text
of Qt has the precision of a second and is empty for the null date-time). -/
theorem readTo_write (qt : QtStrings) (data0 : RawDataLine) (line : DataLine)
    (hstart : qt.fromIsoString (qt.toIsoStringWithTZ line.timeSpan.start) =
      line.timeSpan.start)
    (hend : qt.fromIsoString (qt.toIsoStringWithTZ line.timeSpan.end_) = line.timeSpan.end_)
    (hx : ∀ p ∈ line.dataPoints, qt.fromIsoString (qt.toIsoStringWithTZ p.x) = p.x) :
    ∃ restored,
      readTo qt data0 (write qt line) = (true, restored) ∧
      Provider.ofInt? restored.provider = some line.provider ∧
      DataType.ofInt? restored.dataType = some line.dataType ∧
      restored.location = line.location ∧
      restored.yUnit = line.yUnit ∧
      restored.timeSpan.start = line.timeSpan.start ∧
      restored.timeSpan.end_ = line.timeSpan.end_ ∧
      restored.dataPoints = line.dataPoints := by
  have hrestore : readTo qt data0 (write qt line) = restore qt data0 (toQJsonObject qt line) :=
    rfl
  rw [hrestore, toQJsonObject_members,
    restore_members qt data0 _ _ _ _ _ _ _
      (isDataPointsContentsValid_toQJsonArray qt line.dataPoints)]
  refine ⟨_, rfl, ?_, ?_, rfl, rfl, ?_, ?_, ?_⟩
  · exact provider_toInt_roundtrip line.provider
  · exact dataType_toInt_roundtrip line.dataType
  · exact hstart
  · exact hend
  · exact restore_toQJsonArray qt line.dataPoints hx

end pwa.DataLineSaver

namespace pwa.DataLineSaver

/-- Witness for C22: an electricity consumption line of Fingrid over 2020-01-01 with
two points, at 01:00 and at 02:00, written and read back. -/
theorem readTo_write_witness :
    ∃ restored,
      readTo QtStrings.utc {}
        (write QtStrings.utc
          { provider := Provider.FINGRID, dataType := DataType.EL_CONS,
            timeSpan := { start := 1577836800000, end_ := 1577923200000 },
            dataPoints := [{ x := 1577840400000, y := 8000 }, { x := 1577844000000, y := 16001 / 2 }],
            location := "", yUnit := "MW" }) = (true, restored) ∧
      Provider.ofInt? restored.provider = some Provider.FINGRID ∧
      DataType.ofInt? restored.dataType = some DataType.EL_CONS ∧
      restored.location = "" ∧
      restored.yUnit = "MW" ∧
      restored.timeSpan.start = 1577836800000 ∧
      restored.timeSpan.end_ = 1577923200000 ∧
      restored.dataPoints =
        [{ x := 1577840400000, y := 8000 }, { x := 1577844000000, y := 16001 / 2 }] :=
  readTo_write QtStrings.utc {}
    { provider := Provider.FINGRID, dataType := DataType.EL_CONS,
      timeSpan := { start := 1577836800000, end_ := 1577923200000 },
      dataPoints := [{ x := 1577840400000, y := 8000 }, { x := 1577844000000, y := 16001 / 2 }],
      location := "", yUnit := "MW" }
    (by decide) (by decide) (by decide)

/-- C30 (the code at the failing input).  An array with one object whose "provider"
and "datatype" are the number 99 and whose "datapoints" is a string: `readTo` accepts
it and returns one data line, without points, whose provider and data type have the
value 99, which is the value of no enumerator of `Provider` or `DataType`; for this
data line the lookup `DATA_TYPE_NAMES.at` in `addDataLine` throws. -/
theorem restore_accepts_non_array_and_bad_enums (qt : QtStrings) (m : DataLinesModel)
    (id : Nat) :
    readToAll qt
      [QJsonValue.object
        [("provider", QJsonValue.double 99),
         ("datatype", QJsonValue.double 99),
         ("location", QJsonValue.string ""),
         ("yunit", QJsonValue.string ""),
         ("timespan", QJsonValue.object
            [("start", QJsonValue.string ""), ("end", QJsonValue.string "")]),
         ("datapoints", QJsonValue.string "none")]] =
      some [{ provider := 99, dataType := 99,
              timeSpan := { start := qt.fromIsoString "", end_ := qt.fromIsoString "" },
              dataPoints := [], location := "", yUnit := "" }] ∧
    (QJsonValue.string "none").isArray = false ∧
    Provider.ofInt? 99 = none ∧
    DataType.ofInt? 99 = none ∧
    DataLinesModel.importedName m id
      { provider := 99, dataType := 99,
        timeSpan := { start := qt.fromIsoString "", end_ := qt.fromIsoString "" },
        dataPoints := [], location := "", yUnit := "" } = none := by
  refine ⟨?_, rfl, by decide, by decide, ?_⟩
  · have hrestore : restore qt {}
        [("provider", QJsonValue.double 99),
         ("datatype", QJsonValue.double 99),
         ("location", QJsonValue.string ""),
         ("yunit", QJsonValue.string ""),
         ("timespan", QJsonValue.object
            [("start", QJsonValue.string ""), ("end", QJsonValue.string "")]),
         ("datapoints", QJsonValue.string "none")] =
        (true, { provider := 99, dataType := 99,
                 timeSpan := { start := qt.fromIsoString "", end_ := qt.fromIsoString "" },
                 dataPoints := [], location := "", yUnit := "" }) := by
      simp only [restore, isValidDataLineJson, isTimeSpanValid, isTimeSpanContentsValid,
        isDataPointsValid, isDataPointsContentsValid, JsonManager.isValidDouble,
        JsonManager.isValidString, QJsonObject.contains, QJsonObject.value, dataline.PROVIDER,
        dataline.DATATYPE, dataline.LOCATION, dataline.YUNIT, dataline.TIME_SPAN,
        dataline.TIME_SPAN_START, dataline.TIME_SPAN_END, dataline.DATAPOINTS, List.lookup,
        String.reduceBEq, Option.isSome_some, Option.getD_some, QJsonValue.isDouble,
        QJsonValue.isString, QJsonValue.toObject, QJsonValue.toArray, QJsonValue.toString,
        List.all_nil, Bool.and_self, Bool.not_true, Bool.false_eq_true, if_false,
        restoreDataPoints, restoreTimeSpan, restoreSingleValues, List.map_nil]
      have h99 : (QJsonValue.double 99).toInt = 99 := by decide
      rw [h99]
    simp only [readToAll, QJsonValue.toObject, hrestore]
    rfl
  · have hnone : DataType.ofInt? 99 = none := by decide
    simp only [DataLinesModel.importedName, hnone, Option.map_none']

end pwa.DataLineSaver

namespace pwa.WebAPI

/-- Writing the value of a key leaves the value read for every other key. -/
theorem UMap.get_set_other {V : Type} (m : UMap V) (k k2 : Int) (v dflt : V) (h : k2 ≠ k) :
    (m.set k v).get k2 dflt = m.get k2 dflt := by
  unfold UMap.get UMap.set
  by_cases hk : k ∈ m.keys
  · simp only [hk, if_true, Function.update_noteq h]
  · simp only [hk, if_false, List.mem_cons, h, false_or, Function.update_noteq h]

/-- Writing the value of a key that the map has leaves the keys. -/
theorem UMap.keys_set_of_mem {V : Type} (m : UMap V) (k : Int) (v : V) (h : k ∈ m.keys) :
    (m.set k v).keys = m.keys := by
  unfold UMap.set
  simp only [h, if_true]

/-- The lambda of `fetchAll` is `subFetchDeliver` followed, when the callback was
called, by the push of the id. -/
theorem subFetchDone_eq_deliver (st : State) (id : Int) (i : Nat) (result : FetchResult) :
    subFetchDone st id i result =
      (subFetchDeliver st id i result).map (fun out =>
        (if out.2.isSome then pushFreeId out.1 id else out.1, out.2)) := by
  unfold subFetchDone subFetchDeliver
  by_cases hi : i < (st.parallelRequestResults_.get id []).length
  · simp only [hi, if_true]
    by_cases hc : st.parallelRequestCounters_.get id 0 - 1 = 0
    · simp only [hc, if_true, Option.map_some', Option.isSome_some, pushFreeId]
    · simp only [hc, if_false, Option.map_some', Option.isSome_none, Bool.false_eq_true]
  · simp only [hi, if_false, Option.map_none']

/-- What `subFetchDeliver` does for an index that has a place in the buffer of the
batch: the stack of free ids is left, the counter of the batch is decreased by one,
the callback is called when the counter reaches zero, and the buffers of the other
ids are left. -/
theorem subFetchDeliver_spec (st : State) (id : Int) (i : Nat) (result : FetchResult)
    (hi : i < (st.parallelRequestResults_.get id []).length) :
    ∃ out, subFetchDeliver st id i result = some out ∧
      out.1.freeParallelRequestIds_ = st.freeParallelRequestIds_ ∧
      out.1.parallelRequestCounters_ =
        st.parallelRequestCounters_.set id (st.parallelRequestCounters_.get id 0 - 1) ∧
      (out.2.isSome = true ↔ st.parallelRequestCounters_.get id 0 - 1 = 0) ∧
      (∀ id2, id2 ≠ id → out.1.parallelRequestResults_.get id2 [] =
        st.parallelRequestResults_.get id2 []) ∧
      (st.parallelRequestCounters_.get id 0 - 1 ≠ 0 →
        (out.1.parallelRequestResults_.get id []).length =
          (st.parallelRequestResults_.get id []).length) := by
  unfold subFetchDeliver
  simp only [hi, if_true]
  by_cases hc : st.parallelRequestCounters_.get id 0 - 1 = 0
  · rw [if_pos hc]
    refine ⟨_, rfl, rfl, ?_, ?_, ?_, ?_⟩
    · simp only [hc]
    · simp [hc]
    · intro id2 hne
      simp only
      rw [UMap.get_set_other _ _ _ _ _ hne, UMap.get_set_other _ _ _ _ _ hne]
    · intro h
      exact absurd hc h
  · rw [if_neg hc]
    refine ⟨_, rfl, rfl, rfl, ?_, ?_, ?_⟩
    · simp [hc]
    · intro id2 hne
      simp only
      rw [UMap.get_set_other _ _ _ _ _ hne]
    · intro _
      simp only
      rw [UMap.get_set_same]
      simp

end pwa.WebAPI

namespace pwa.WebAPI

theorem getElem?_snoc {α : Type} (l : List α) (a b : α) (k : Nat)
    (h : (l ++ [a])[k]? = some b) : l[k]? = some b ∨ (k = l.length ∧ b = a) := by
  by_cases hk : k < l.length
  · rw [List.getElem?_append_left hk] at h
    exact Or.inl h
  · rw [List.getElem?_append_right (not_lt.mp hk)] at h
    right
    cases hd : k - l.length with
    | zero =>
      rw [hd] at h
      simp at h
      exact ⟨by omega, h.symm⟩
    | succ n =>
      rw [hd] at h
      simp at h

theorem getElem?_set_cases {α : Type} (l : List α) (i k : Nat) (a b : α)
    (h : (l.set i a)[k]? = some b) : (k = i ∧ b = a) ∨ (k ≠ i ∧ l[k]? = some b) := by
  rw [List.getElem?_set] at h
  by_cases hik : i = k
  · rw [if_pos hik] at h
    left
    split at h
    · exact ⟨hik.symm, (Option.some.inj h).symm⟩
    · exact absurd h (by simp)
  · rw [if_neg hik] at h
    exact Or.inr ⟨fun hc => hik hc.symm, h⟩

/-- The invariant holds after the constructor. -/
theorem System.inv_initial : System.initial.Inv := by
  refine ⟨?_, ?_, ?_, ?_, ?_, ?_, ?_⟩ <;> simp [System.initial, State.initial]

/-- What `getParallelRequestId` returns in a system with the invariant: an id that no
batch not yet done holds and that is off the stack afterwards; it is a key of the
counters or the next key. -/
theorem getParallelRequestId_spec (s : System) (h : s.Inv) :
    (getParallelRequestId s.st).2.parallelRequestCounters_ = s.st.parallelRequestCounters_ ∧
    (getParallelRequestId s.st).2.parallelRequestResults_ = s.st.parallelRequestResults_ ∧
    (getParallelRequestId s.st).1 ∉ (getParallelRequestId s.st).2.freeParallelRequestIds_ ∧
    (getParallelRequestId s.st).2.freeParallelRequestIds_.Nodup ∧
    (∀ id ∈ (getParallelRequestId s.st).2.freeParallelRequestIds_,
      id ∈ s.st.freeParallelRequestIds_) ∧
    (∀ (k : Nat) (b : Batch), s.batches[k]? = some b → b.phase ≠ Phase.done →
      b.id ≠ (getParallelRequestId s.st).1) ∧
    ((getParallelRequestId s.st).1 ∈ s.st.parallelRequestCounters_.keys ∨
      ((getParallelRequestId s.st).1 = s.st.parallelRequestCounters_.keys.length ∧
        (getParallelRequestId s.st).1 ∉ s.st.parallelRequestCounters_.keys)) := by
  obtain ⟨_, hrange, _, hlive, hfree, hfreeKeys, _⟩ := h
  unfold getParallelRequestId
  cases hf : s.st.freeParallelRequestIds_ with
  | nil =>
    simp only
    refine ⟨trivial, trivial, ?_, ?_, ?_, ?_, ?_⟩
    · rw [hf]; simp
    · rw [hf]; simp
    · intro id hid; rw [hf] at hid; simp at hid
    · intro k b hb hph hc
      have hkey := (hlive k b hb hph).2
      rw [hc] at hkey
      have := (hrange _ hkey).2
      simp only [UMap.size] at this
      omega
    · right
      refine ⟨rfl, ?_⟩
      intro hkey
      have := (hrange _ hkey).2
      simp only [UMap.size] at this
      omega
  | cons id rest =>
    simp only
    rw [hf] at hfree hfreeKeys
    refine ⟨trivial, trivial, ?_, ?_, ?_, ?_, ?_⟩
    · exact (List.nodup_cons.mp hfree).1
    · exact (List.nodup_cons.mp hfree).2
    · intro x hx
      exact List.mem_cons_of_mem _ hx
    · intro k b hb hph hc
      have hnot := (hlive k b hb hph).1
      rw [hf, hc] at hnot
      exact hnot (List.mem_cons_self _ _)
    · left
      exact hfreeKeys id (List.mem_cons_self _ _)

end pwa.WebAPI

namespace pwa.WebAPI

/-- A call of `fetchAll` keeps the invariant. -/
theorem System.inv_fetchAll (s : System) (requests : List FetchRequest) (h : s.Inv) :
    ({ st := (fetchAllBegin s.st requests).2
       batches := s.batches ++
         [{ id := (fetchAllBegin s.st requests).1
            pending := List.range requests.length
            phase := Phase.running }] } : System).Inv := by
  obtain ⟨hc, hr, hnf, hnd, hsub, hother, hkey⟩ := getParallelRequestId_spec s h
  obtain ⟨hnodup, hrange, hdist, hlive, _, hfreeKeys, hrun⟩ := h
  -- the new id and the state after the first statements of `fetchAll`
  have hid : (fetchAllBegin s.st requests).1 = (getParallelRequestId s.st).1 := rfl
  have hfree : (fetchAllBegin s.st requests).2.freeParallelRequestIds_ =
      (getParallelRequestId s.st).2.freeParallelRequestIds_ := rfl
  have hcounters : (fetchAllBegin s.st requests).2.parallelRequestCounters_ =
      s.st.parallelRequestCounters_.set (getParallelRequestId s.st).1 requests.length := by
    show (getParallelRequestId s.st).2.parallelRequestCounters_.set _ _ = _
    rw [hc]
  have hresults : (fetchAllBegin s.st requests).2.parallelRequestResults_ =
      s.st.parallelRequestResults_.set (getParallelRequestId s.st).1
        (List.replicate requests.length {}) := by
    show (getParallelRequestId s.st).2.parallelRequestResults_.set _ _ = _
    rw [hr]
  generalize (getParallelRequestId s.st).1 = id at *
  generalize (getParallelRequestId s.st).2.freeParallelRequestIds_ = free at *
  -- the keys of the counters afterwards
  have hkeys : ∀ key, key ∈ s.st.parallelRequestCounters_.keys →
      key ∈ (s.st.parallelRequestCounters_.set id (requests.length : Int)).keys := by
    intro key hk
    unfold UMap.set
    by_cases hin : id ∈ s.st.parallelRequestCounters_.keys
    · simpa only [hin, if_true] using hk
    · simp only [hin, if_false]
      exact List.mem_cons_of_mem _ hk
  have hidKey : id ∈ (s.st.parallelRequestCounters_.set id (requests.length : Int)).keys := by
    unfold UMap.set
    by_cases hin : id ∈ s.st.parallelRequestCounters_.keys
    · simp only [hin, if_true]
    · simp only [hin, if_false]
      exact List.mem_cons_self _ _
  refine ⟨?_, ?_, ?_, ?_, ?_, ?_, ?_⟩
  · show (fetchAllBegin s.st requests).2.parallelRequestCounters_.keys.Nodup
    rw [hcounters]
    rcases hkey with hin | ⟨_, hnin⟩
    · rw [UMap.keys_set_of_mem _ _ _ hin]
      exact hnodup
    · unfold UMap.set
      simp only [hnin, if_false]
      exact List.nodup_cons.mpr ⟨hnin, hnodup⟩
  · show ∀ key ∈ (fetchAllBegin s.st requests).2.parallelRequestCounters_.keys, _
    rw [hcounters]
    rcases hkey with hin | ⟨heq, hnin⟩
    · rw [UMap.keys_set_of_mem _ _ _ hin]
      exact hrange
    · unfold UMap.set
      simp only [hnin, if_false, List.length_cons, List.mem_cons]
      intro key hk
      rcases hk with hk | hk
      · rw [hk, heq]
        constructor <;> push_cast <;> omega
      · have := hrange key hk
        constructor
        · exact this.1
        · push_cast
          omega
  · intro k1 k2 b1 b2 h1 h2 hne hp1 hp2
    simp only at h1 h2
    rcases getElem?_snoc _ _ _ _ h1 with h1 | ⟨hk1, hb1⟩
    · rcases getElem?_snoc _ _ _ _ h2 with h2 | ⟨hk2, hb2⟩
      · exact hdist k1 k2 b1 b2 h1 h2 hne hp1 hp2
      · rw [hb2, hid]
        exact hother k1 b1 h1 hp1
    · rcases getElem?_snoc _ _ _ _ h2 with h2 | ⟨hk2, hb2⟩
      · rw [hb1, hid]
        exact fun heq => hother k2 b2 h2 hp2 heq.symm
      · exact absurd (hk1.trans hk2.symm) hne
  · intro k b hb hp
    simp only at hb
    show b.id ∉ (fetchAllBegin s.st requests).2.freeParallelRequestIds_ ∧
      b.id ∈ (fetchAllBegin s.st requests).2.parallelRequestCounters_.keys
    rw [hfree, hcounters]
    rcases getElem?_snoc _ _ _ _ hb with hb | ⟨_, hb⟩
    · exact ⟨fun hmem => (hlive k b hb hp).1 (hsub _ hmem), hkeys _ (hlive k b hb hp).2⟩
    · rw [hb, hid]
      exact ⟨hnf, hidKey⟩
  · show (fetchAllBegin s.st requests).2.freeParallelRequestIds_.Nodup
    rw [hfree]
    exact hnd
  · show ∀ x ∈ (fetchAllBegin s.st requests).2.freeParallelRequestIds_,
      x ∈ (fetchAllBegin s.st requests).2.parallelRequestCounters_.keys
    rw [hfree, hcounters]
    intro x hx
    exact hkeys _ (hfreeKeys x (hsub x hx))
  · intro k b hb hp
    simp only at hb
    show (fetchAllBegin s.st requests).2.parallelRequestCounters_.get b.id 0 = _ ∧
      ∀ i ∈ b.pending, i < ((fetchAllBegin s.st requests).2.parallelRequestResults_.get
        b.id []).length
    rw [hcounters, hresults]
    rcases getElem?_snoc _ _ _ _ hb with hb | ⟨_, hb⟩
    · have hne : b.id ≠ id := hother k b hb (by rw [hp]; decide)
      rw [UMap.get_set_other _ _ _ _ _ hne, UMap.get_set_other _ _ _ _ _ hne]
      exact hrun k b hb hp
    · rw [hb, hid]
      simp only
      rw [UMap.get_set_same, UMap.get_set_same]
      refine ⟨by simp, ?_⟩
      intro i hi
      simpa using hi

end pwa.WebAPI

namespace pwa.WebAPI

/-- The completion of a pending sub-fetch of a running batch is defined and keeps the
invariant. -/
theorem System.inv_completion (s : System) (k i : Nat) (result : FetchResult) (b : Batch)
    (h : s.Inv) (hb : s.batches[k]? = some b) (hp : b.phase = Phase.running)
    (hi : i ∈ b.pending) :
    ∃ out, subFetchDeliver s.st b.id i result = some out ∧
      (out.2.isSome = true ↔ b.pending.erase i = []) ∧
      ({ st := out.1
         batches := s.batches.set k
           { id := b.id
             pending := b.pending.erase i
             phase := if out.2.isSome then Phase.delivering else Phase.running } } :
        System).Inv := by
  obtain ⟨hnodup, hrange, hdist, hlive, hfreeNodup, hfreeKeys, hrun⟩ := h
  have hlen := (hrun k b hb hp).1
  have hbuf := (hrun k b hb hp).2 i hi
  have hlive0 : b.phase ≠ Phase.done := by rw [hp]; decide
  have hbKey := (hlive k b hb hlive0).2
  obtain ⟨out, hout, hfree, hcounters, hsome, hresults, hbuflen⟩ :=
    subFetchDeliver_spec s.st b.id i result hbuf
  have herase : (b.pending.erase i).length = b.pending.length - 1 :=
    List.length_erase_of_mem hi
  have hpos : 0 < b.pending.length := List.length_pos_of_mem hi
  have hsome2 : out.2.isSome = true ↔ b.pending.erase i = [] := by
    rw [hsome, hlen, ← List.length_eq_zero, herase]
    omega
  have hkeys : out.1.parallelRequestCounters_.keys = s.st.parallelRequestCounters_.keys := by
    rw [hcounters, UMap.keys_set_of_mem _ _ _ hbKey]
  have hphase : (if out.2.isSome = true then Phase.delivering else Phase.running) ≠
      Phase.done := by
    split <;> decide
  refine ⟨out, hout, hsome2, ?_, ?_, ?_, ?_, ?_, ?_, ?_⟩
  · show out.1.parallelRequestCounters_.keys.Nodup
    rw [hkeys]
    exact hnodup
  · show ∀ key ∈ out.1.parallelRequestCounters_.keys, _
    rw [hkeys]
    exact hrange
  · intro k1 k2 b1 b2 h1 h2 hne hp1 hp2
    simp only at h1 h2
    rcases getElem?_set_cases _ _ _ _ _ h1 with ⟨hk1, hb1⟩ | ⟨hk1, h1⟩
    · rcases getElem?_set_cases _ _ _ _ _ h2 with ⟨hk2, hb2⟩ | ⟨hk2, h2⟩
      · exact absurd (hk1.trans hk2.symm) hne
      · rw [hb1]
        exact hdist k k2 b b2 hb h2 (fun hc => hk2 hc.symm) hlive0 hp2
    · rcases getElem?_set_cases _ _ _ _ _ h2 with ⟨hk2, hb2⟩ | ⟨hk2, h2⟩
      · rw [hb2]
        exact hdist k1 k b1 b h1 hb hk1 hp1 hlive0
      · exact hdist k1 k2 b1 b2 h1 h2 hne hp1 hp2
  · intro k1 b1 h1 hp1
    simp only at h1
    show b1.id ∉ out.1.freeParallelRequestIds_ ∧ b1.id ∈ out.1.parallelRequestCounters_.keys
    rw [hfree, hkeys]
    rcases getElem?_set_cases _ _ _ _ _ h1 with ⟨_, hb1⟩ | ⟨_, h1⟩
    · rw [hb1]
      exact hlive k b hb hlive0
    · exact hlive k1 b1 h1 hp1
  · show out.1.freeParallelRequestIds_.Nodup
    rw [hfree]
    exact hfreeNodup
  · show ∀ x ∈ out.1.freeParallelRequestIds_, x ∈ out.1.parallelRequestCounters_.keys
    rw [hfree, hkeys]
    exact hfreeKeys
  · intro k1 b1 h1 hp1
    simp only at h1
    show out.1.parallelRequestCounters_.get b1.id 0 = _ ∧
      ∀ j ∈ b1.pending, j < (out.1.parallelRequestResults_.get b1.id []).length
    rcases getElem?_set_cases _ _ _ _ _ h1 with ⟨_, hb1⟩ | ⟨hk1, h1⟩
    · rw [hb1] at hp1 ⊢
      simp only at hp1 ⊢
      have hnone : ¬ out.2.isSome = true := by
        intro hc
        rw [if_pos hc] at hp1
        exact absurd hp1 (by decide)
      have hcne : s.st.parallelRequestCounters_.get b.id 0 - 1 ≠ 0 :=
        fun hc => hnone (hsome.mpr hc)
      refine ⟨?_, ?_⟩
      · rw [hcounters, UMap.get_set_same, hlen, herase]
        omega
      · intro j hj
        rw [hbuflen hcne]
        exact (hrun k b hb hp).2 j (List.mem_of_mem_erase hj)
    · have hne : b1.id ≠ b.id :=
        hdist k1 k b1 b h1 hb hk1 (by rw [hp1]; decide) hlive0
      rw [hcounters, UMap.get_set_other _ _ _ _ _ hne, hresults _ hne]
      exact hrun k1 b1 h1 hp1

/-- The push of the id after the return of the callback keeps the invariant. -/
theorem System.inv_callbackReturned (s : System) (k : Nat) (b : Batch) (h : s.Inv)
    (hb : s.batches[k]? = some b) (hp : b.phase = Phase.delivering) :
    ({ st := pushFreeId s.st b.id
       batches := s.batches.set k
         { id := b.id, pending := b.pending, phase := Phase.done } } : System).Inv := by
  obtain ⟨hnodup, hrange, hdist, hlive, hfreeNodup, hfreeKeys, hrun⟩ := h
  have hlive0 : b.phase ≠ Phase.done := by rw [hp]; decide
  refine ⟨hnodup, hrange, ?_, ?_, ?_, ?_, ?_⟩
  · intro k1 k2 b1 b2 h1 h2 hne hp1 hp2
    simp only at h1 h2
    rcases getElem?_set_cases _ _ _ _ _ h1 with ⟨_, hb1⟩ | ⟨_, h1⟩
    · rw [hb1] at hp1
      exact absurd rfl hp1
    · rcases getElem?_set_cases _ _ _ _ _ h2 with ⟨_, hb2⟩ | ⟨_, h2⟩
      · rw [hb2] at hp2
        exact absurd rfl hp2
      · exact hdist k1 k2 b1 b2 h1 h2 hne hp1 hp2
  · intro k1 b1 h1 hp1
    simp only at h1
    rcases getElem?_set_cases _ _ _ _ _ h1 with ⟨_, hb1⟩ | ⟨hk1, h1⟩
    · rw [hb1] at hp1
      exact absurd rfl hp1
    · refine ⟨?_, (hlive k1 b1 h1 hp1).2⟩
      show b1.id ∉ b.id :: s.st.freeParallelRequestIds_
      intro hmem
      rcases List.mem_cons.mp hmem with heq | hmem
      · exact hdist k1 k b1 b h1 hb hk1 hp1 hlive0 heq
      · exact (hlive k1 b1 h1 hp1).1 hmem
  · show (b.id :: s.st.freeParallelRequestIds_).Nodup
    exact List.nodup_cons.mpr ⟨(hlive k b hb hlive0).1, hfreeNodup⟩
  · show ∀ x ∈ b.id :: s.st.freeParallelRequestIds_, x ∈ s.st.parallelRequestCounters_.keys
    intro x hx
    rcases List.mem_cons.mp hx with heq | hx
    · rw [heq]
      exact (hlive k b hb hlive0).2
    · exact hfreeKeys x hx
  · intro k1 b1 h1 hp1
    simp only at h1
    rcases getElem?_set_cases _ _ _ _ _ h1 with ⟨_, hb1⟩ | ⟨_, h1⟩
    · rw [hb1] at hp1
      exact absurd hp1 (fun hc => Phase.noConfusion hc)
    · exact hrun k1 b1 h1 hp1

/-- Every event keeps the invariant. -/
theorem System.inv_step (s t : System) (event : Event) (h : s.Inv)
    (hstep : s.step event = some t) : t.Inv := by
  cases event with
  | fetchAll requests =>
    simp only [System.step, Option.some.injEq] at hstep
    rw [← hstep]
    exact System.inv_fetchAll s requests h
  | completion k i result =>
    simp only [System.step] at hstep
    cases hb : s.batches[k]? with
    | none => simp [hb] at hstep
    | some b =>
      simp only [hb] at hstep
      split at hstep
      · rename_i hcond
        obtain ⟨out, hout, _, hinv⟩ := System.inv_completion s k i result b h hb hcond.1 hcond.2
        simp only [hout, Option.some.injEq] at hstep
        rw [← hstep]
        exact hinv
      · exact absurd hstep (by simp)
  | callbackReturned k =>
    simp only [System.step] at hstep
    cases hb : s.batches[k]? with
    | none => simp [hb] at hstep
    | some b =>
      simp only [hb] at hstep
      split at hstep
      · rename_i hcond
        simp only [Option.some.injEq] at hstep
        rw [← hstep]
        exact System.inv_callbackReturned s k b h hb hcond
      · exact absurd hstep (by simp)

/-- Every run keeps the invariant. -/
theorem System.inv_run (events : List Event) (s t : System) (h : s.Inv)
    (hrun : s.run events = some t) : t.Inv := by
  induction events generalizing s with
  | nil =>
    simp only [System.run, Option.some.injEq] at hrun
    rw [← hrun]
    exact h
  | cons event rest ih =>
    simp only [System.run] at hrun
    cases hstep : s.step event with
    | none => simp [hstep] at hrun
    | some u =>
      simp only [hstep] at hrun
      exact ih u (System.inv_step s u event h hstep) hrun

end pwa.WebAPI

namespace pwa.WebAPI

/-- C24. In every state that `WebAPI` reaches from its constructor by calls of
`fetchAll` (also nested ones, made while a callback runs), completions of pending
sub-fetches and returns of callbacks, in any order: two batches that are not done
hold different ids; an id on the stack of free ids is held by batches only that are
done, their callback delivered and returned; and the completion of any pending
sub-fetch of a running batch is defined, calls the callback exactly when it is the
last pending one, leaves the stack of free ids and leaves the counter and the
result buffer of every other batch that is not done. -/
theorem batches_in_flight_hold_distinct_ids (events : List Event) (s : System)
    (hrun : System.initial.run events = some s) :
    (∀ (k1 k2 : Nat) (b1 b2 : Batch), s.batches[k1]? = some b1 → s.batches[k2]? = some b2 →
      k1 ≠ k2 → b1.phase ≠ Phase.done → b2.phase ≠ Phase.done → b1.id ≠ b2.id) ∧
    (∀ (k : Nat) (b : Batch), s.batches[k]? = some b →
      b.id ∈ s.st.freeParallelRequestIds_ → b.phase = Phase.done) ∧
    (∀ (k i : Nat) (b : Batch) (result : FetchResult), s.batches[k]? = some b →
      b.phase = Phase.running → i ∈ b.pending →
      ∃ out, subFetchDeliver s.st b.id i result = some out ∧
        (out.2.isSome = true ↔ b.pending.erase i = []) ∧
        out.1.freeParallelRequestIds_ = s.st.freeParallelRequestIds_ ∧
        ∀ (k2 : Nat) (b2 : Batch), s.batches[k2]? = some b2 → k2 ≠ k →
          b2.phase ≠ Phase.done →
          out.1.parallelRequestCounters_.get b2.id 0 =
            s.st.parallelRequestCounters_.get b2.id 0 ∧
          out.1.parallelRequestResults_.get b2.id [] =
            s.st.parallelRequestResults_.get b2.id []) := by
  have hinv := System.inv_run events System.initial s System.inv_initial hrun
  obtain ⟨_, _, hdist, hlive, _, _, hrunning⟩ := hinv
  refine ⟨hdist, ?_, ?_⟩
  · intro k b hb hmem
    by_contra hph
    exact (hlive k b hb hph).1 hmem
  · intro k i b result hb hp hi
    have hlive0 : b.phase ≠ Phase.done := by rw [hp]; decide
    have hlen := (hrunning k b hb hp).1
    obtain ⟨out, hout, hfree, hcounters, hsome, hresults, _⟩ :=
      subFetchDeliver_spec s.st b.id i result ((hrunning k b hb hp).2 i hi)
    have herase : (b.pending.erase i).length = b.pending.length - 1 :=
      List.length_erase_of_mem hi
    have hpos : 0 < b.pending.length := List.length_pos_of_mem hi
    refine ⟨out, hout, ?_, hfree, ?_⟩
    · rw [hsome, hlen, ← List.length_eq_zero, herase]
      omega
    · intro k2 b2 hb2 hne hp2
      have hid : b2.id ≠ b.id := hdist k2 k b2 b hb2 hb hne hp2 hlive0
      rw [hcounters, UMap.get_set_other _ _ _ _ _ hid, hresults _ hid]
      exact ⟨rfl, rfl⟩

/-- Witness for C24: a batch of two requests (id 0) and a batch of one request (id 1)
are started; the second completes, and while its callback runs a further batch is
started (id 2, the id 1 not being free yet); the callback returns, and the next
batch gets the id 1 again; then one sub-fetch of the first batch completes. -/
theorem batches_in_flight_hold_distinct_ids_witness :
    ∃ s, System.initial.run
        [Event.fetchAll [{}, {}], Event.fetchAll [{}],
         Event.completion 1 0 { error := FetchError.NONE },
         Event.fetchAll [{}], Event.callbackReturned 1, Event.fetchAll [{}, {}],
         Event.completion 0 1 { error := FetchError.NONE }] = some s ∧
      s.batches =
        [{ id := 0, pending := [0], phase := Phase.running },
         { id := 1, pending := [], phase := Phase.done },
         { id := 2, pending := [0], phase := Phase.running },
         { id := 1, pending := [0, 1], phase := Phase.running }] ∧
      s.st.freeParallelRequestIds_ = [] ∧
      (∀ (k1 k2 : Nat) (b1 b2 : Batch), s.batches[k1]? = some b1 → s.batches[k2]? = some b2 →
        k1 ≠ k2 → b1.phase ≠ Phase.done → b2.phase ≠ Phase.done → b1.id ≠ b2.id) := by
  refine ⟨_, rfl, ?_, ?_, ?_⟩
  · decide
  · decide
  · exact (batches_in_flight_hold_distinct_ids
      [Event.fetchAll [{}, {}], Event.fetchAll [{}],
       Event.completion 1 0 { error := FetchError.NONE },
       Event.fetchAll [{}], Event.callbackReturned 1, Event.fetchAll [{}, {}],
       Event.completion 0 1 { error := FetchError.NONE }] _ rfl).1

end pwa.WebAPI
